import Mathlib

/-!
# RidesApp: the ride store and the seat-booking transactions

A shallow embedding of `backend/pkg/models`, `backend/pkg/repository/ride_repository.go`,
the ride handlers of `backend/pkg/handlers/ride.go` and the token claims of
`backend/pkg/utils/jwt.go`.

* A table is the list of its rows; a row holds the columns of the Go struct (the
  association fields `Rider`, `Driver`, `Passengers`, `User`, `Ride` are not columns,
  they are filled by `Preload` when a query asks for them).
* The repository talks to PostgreSQL through GORM.  The statements it issues are
  modelled by what they do to the tables: `First(&x, id)` is the first row whose
  primary key is `id` or `ErrRecordNotFound`; `Model(&x).Update(col, v)` writes `v`
  and the current time into `col` and `updated_at` of the rows whose primary key is
  that of `x`; `Create` appends a row; `Delete(&x)` removes the rows whose primary key
  is that of `x`.
* What the code cannot decide by itself is an input, gathered in `Env`: the clock, the
  identifier the table's sequence hands out to an insert, and which statements the
  database refuses (a storage failure).
* Go's `int` is modelled by `Int` together with an `IntMode`: either unbounded or
  wrapping as a 64-bit two's complement number.
-/

namespace RidesApp

/-! ## Integers, time, floating point columns -/

/-- How Go's `int` arithmetic is read: as unbounded integers, or as the 64-bit
two's complement integers of the platforms the server runs on. -/
inductive IntMode where
  | unbounded
  | int64
  deriving DecidableEq, Repr

/-- The 64-bit two's complement value of an integer: the representative of `x`
modulo `2^64` that lies in `[-2^63, 2^63)`. -/
def wrapInt64 (x : Int) : Int :=
  (x + 9223372036854775808) % 18446744073709551616 - 9223372036854775808

/-- The value an `int` variable holds after the exact result `x` is stored in it. -/
def IntMode.norm : IntMode → Int → Int
  | .unbounded, x => x
  | .int64, x => wrapInt64 x

/-- Go's `a + b` on `int`. -/
def IntMode.add (m : IntMode) (a b : Int) : Int := m.norm (a + b)

/-- Go's `a - b` on `int`. -/
def IntMode.sub (m : IntMode) (a b : Int) : Int := m.norm (a - b)

/-- The values an `int` can hold. -/
def IntMode.InRange : IntMode → Int → Prop
  | .unbounded, _ => True
  | .int64, x => -9223372036854775808 ≤ x ∧ x < 9223372036854775808

instance (m : IntMode) (x : Int) : Decidable (m.InRange x) := by
  cases m
  · exact instDecidableTrue
  · exact instDecidableAnd

/-- A `time.Time`, counted from the zero instant (`time.Time{}` is `0`). -/
abbrev Time := Int

/-- A `time.Time` as the struct value the `required` rules look at: the instant it
denotes, counted from the zero instant, and whether its location pointer is `nil`.  The
pointer is `nil` in the zero value `time.Time{}` (what a key the body does not have
leaves) and in a time decoded from a timestamp that ends in `Z`; a timestamp with a
numeric offset decodes to a time with a location. -/
structure TimeValue where
  instant : Time
  locNil : Bool
  deriving DecidableEq, Repr

/-- A numeral is the UTC time at that instant; `0` is the zero value `time.Time{}`. -/
instance (n : Nat) : OfNat TimeValue n := ⟨⟨n, true⟩⟩

/-- A `float64` column.  The modelled code only stores and copies these values, so a
value is kept as its IEEE-754 bit pattern. -/
structure Float64 where
  bits : Nat
  deriving DecidableEq, Repr

/-! ## models -/

set_option linter.dupNamespace false

/-- The type `models.RideStatus`, a Go string. -/
abbrev RideStatus := String

def RideStatusPending : RideStatus := "pending"
def RideStatusAccepted : RideStatus := "accepted"
def RideStatusStarted : RideStatus := "started"
def RideStatusCompleted : RideStatus := "completed"
def RideStatusCancelled : RideStatus := "cancelled"

/-- The type `models.RideType`, a Go string. -/
abbrev RideType := String

def RideTypeShared : RideType := "shared"
def RideTypeOnDemand : RideType := "on_demand"

/-- The type `models.PaymentMethod`, a Go string. -/
abbrev PaymentMethod := String

/-- The type `models.UserRole`, a Go string. -/
abbrev UserRole := String

/-- The columns of `models.User`. -/
structure User where
  ID : Nat
  Email : String
  Password : String
  FirstName : String
  LastName : String
  Phone : String
  Role : UserRole
  ProfilePicture : String
  Rating : Float64
  IsVerified : Bool
  CreatedAt : Time
  UpdatedAt : Time
  LicenseNumber : String
  VehicleModel : String
  VehicleColor : String
  VehiclePlate : String
  deriving DecidableEq, Repr

/-- The zero value of `models.User`, what an association field holds when nothing was
loaded into it. -/
def User.zero : User :=
  { ID := 0, Email := "", Password := "", FirstName := "", LastName := "", Phone := "",
    Role := "", ProfilePicture := "", Rating := ⟨0⟩, IsVerified := false,
    CreatedAt := 0, UpdatedAt := 0, LicenseNumber := "", VehicleModel := "",
    VehicleColor := "", VehiclePlate := "" }

/-- The columns of `models.Ride`. -/
structure Ride where
  ID : Nat
  RideType : RideType
  RiderID : Nat
  DriverID : Option Nat
  PickupLat : Float64
  PickupLng : Float64
  DropoffLat : Float64
  DropoffLng : Float64
  PickupAddress : String
  DropoffAddress : String
  Status : RideStatus
  Price : Float64
  Distance : Float64
  Duration : Int
  SeatsAvailable : Int
  SeatsBooked : Int
  DepartureTime : TimeValue
  PaymentMethod : PaymentMethod
  StartedAt : Option Time
  CompletedAt : Option Time
  CreatedAt : Time
  UpdatedAt : Time
  deriving DecidableEq, Repr

/-- The columns of `models.RidePassenger`. -/
structure RidePassenger where
  ID : Nat
  RideID : Nat
  UserID : Nat
  Seats : Int
  Status : RideStatus
  CreatedAt : Time
  UpdatedAt : Time
  deriving DecidableEq, Repr

/-- The columns of `models.Rating`. -/
structure Rating where
  ID : Nat
  RideID : Nat
  FromUserID : Nat
  ToUserID : Nat
  Rating : Int
  Comment : String
  UserID : Option Nat
  CreatedAt : Time
  UpdatedAt : Time
  deriving DecidableEq, Repr

/-- A `models.Ride` value as a query returns it: the row and the association fields
that `Preload` filled (the others keep their zero value). -/
structure LoadedRide where
  row : Ride
  Rider : User
  Driver : Option User
  Passengers : List (RidePassenger × User)
  deriving DecidableEq, Repr

/-! ## The database -/

/-- The persisted state: the tables the five migrated models map to (locations are
not touched by the ride code and are left out). -/
structure Store where
  users : List User
  rides : List Ride
  passengers : List RidePassenger
  ratings : List Rating
  deriving DecidableEq, Repr

/-- The store of a freshly migrated database. -/
def Store.empty : Store := { users := [], rides := [], passengers := [], ratings := [] }

/-- The statements the ride repository sends to the database. -/
inductive DbOp where
  | begin
  | commit
  | firstRide
  | firstPassenger
  | updateSeatsBooked
  | updateStatus
  | createRide
  | createPassenger
  | createRating
  | deletePassenger
  | findRides
  | findPassengers
  | findRatings
  | preload
  deriving DecidableEq, Repr

/-- The errors a repository call can return. -/
inductive Error where
  /-- The error `gorm.ErrRecordNotFound`. -/
  | recordNotFound
  /-- The error `errors.New("not enough seats available")`. -/
  | notEnoughSeats
  /-- The error `errors.New("ride not found")`. -/
  | rideNotFound
  /-- The insert was given a primary key that a row of the table already has. -/
  | duplicateKey
  /-- Any other failure the database reports for a statement. -/
  | storage (op : DbOp)
  deriving DecidableEq, Repr

/-- What a call takes from its environment. -/
structure Env where
  /-- The clock, read by GORM for `created_at` and `updated_at`. -/
  now : Time
  /-- The identifier the sequence of the table hands out to an insert of this call. -/
  newID : Nat
  /-- The statements the database refuses during this call. -/
  fails : DbOp → Bool

/-- No statement is refused. -/
def noFailure : DbOp → Bool := fun _ => false

/-- A transaction handle (`tx := r.db.Begin()`): the committed state it started from,
the state its own statements have produced so far, and the error `Begin` left in the
handle, which makes GORM skip every later statement. -/
structure Tx where
  saved : Store
  cur : Store
  err : Option Error

/-- The call `db.Begin()`. -/
def Begin (env : Env) (db : Store) : Tx :=
  { saved := db, cur := db, err := if env.fails .begin then some (.storage .begin) else none }

/-- The call `tx.Rollback()`: the database is back at the state the transaction
started from. -/
def Tx.Rollback (tx : Tx) : Store := tx.saved

/-- The call `tx.Commit().Error`: the statements of the transaction become the
committed state, or the database reports a failure and keeps the state the
transaction started from. -/
def Tx.Commit (env : Env) (tx : Tx) : Option Error × Store :=
  match tx.err with
  | some e => (some e, tx.saved)
  | none =>
    if env.fails .commit then (some (.storage .commit), tx.saved)
    else (none, tx.cur)

/-- The row of `rides` whose primary key is `id`. -/
def Store.findRide (db : Store) (id : Nat) : Option Ride :=
  db.rides.find? (fun r => r.ID == id)

/-- The row of `ride_passengers` whose primary key is `id`. -/
def Store.findPassenger (db : Store) (id : Nat) : Option RidePassenger :=
  db.passengers.find? (fun p => p.ID == id)

/-- The statement `tx.First(&ride, id)`. -/
def Tx.FirstRide (env : Env) (tx : Tx) (id : Nat) : Except Error Ride :=
  match tx.err with
  | some e => .error e
  | none =>
    if env.fails .firstRide then .error (.storage .firstRide)
    else match tx.cur.findRide id with
      | some ride => .ok ride
      | none => .error .recordNotFound

/-- The statement `tx.First(&passenger, id)`. -/
def Tx.FirstPassenger (env : Env) (tx : Tx) (id : Nat) : Except Error RidePassenger :=
  match tx.err with
  | some e => .error e
  | none =>
    if env.fails .firstPassenger then .error (.storage .firstPassenger)
    else match tx.cur.findPassenger id with
      | some passenger => .ok passenger
      | none => .error .recordNotFound

/-- What `UPDATE rides SET seats_booked = v, updated_at = now WHERE id = id` makes of
the row `r`. -/
def Ride.setSeatsBooked (now : Time) (id : Nat) (v : Int) (r : Ride) : Ride :=
  if r.ID = id then { r with SeatsBooked := v, UpdatedAt := now } else r

/-- The rows of `rides` after `UPDATE rides SET seats_booked = v, updated_at = now
WHERE id = id`. -/
def setSeatsBooked (now : Time) (id : Nat) (v : Int) (rides : List Ride) : List Ride :=
  rides.map (Ride.setSeatsBooked now id v)

/-- The statement `tx.Model(&ride).Update("seats_booked", v)`: every row with the
primary key of `ride` gets `seats_booked = v`, and `updated_at = now` because the model
has an `UpdatedAt` field. -/
def Tx.UpdateSeatsBooked (env : Env) (tx : Tx) (ride : Ride) (v : Int) : Except Error Tx :=
  match tx.err with
  | some e => .error e
  | none =>
    if env.fails .updateSeatsBooked then .error (.storage .updateSeatsBooked)
    else .ok { tx with cur := { tx.cur with
      rides := setSeatsBooked env.now ride.ID v tx.cur.rides } }

/-- The row `Create(passenger)` inserts: a zero primary key is replaced by the next
value of the sequence, zero timestamps by the current time. -/
def RidePassenger.inserted (env : Env) (passenger : RidePassenger) : RidePassenger :=
  { passenger with
    ID := if passenger.ID = 0 then env.newID else passenger.ID
    CreatedAt := if passenger.CreatedAt = 0 then env.now else passenger.CreatedAt
    UpdatedAt := if passenger.UpdatedAt = 0 then env.now else passenger.UpdatedAt }

/-- The row `Create(ride)` inserts: a zero primary key is replaced by the next value
of the sequence, zero timestamps by the current time. -/
def Ride.inserted (env : Env) (ride : Ride) : Ride :=
  { ride with
    ID := if ride.ID = 0 then env.newID else ride.ID
    CreatedAt := if ride.CreatedAt = 0 then env.now else ride.CreatedAt
    UpdatedAt := if ride.UpdatedAt = 0 then env.now else ride.UpdatedAt }

/-- The row `Create(rating)` inserts: a zero primary key is replaced by the next value
of the sequence, zero timestamps by the current time. -/
def Rating.inserted (env : Env) (rating : RidesApp.Rating) : RidesApp.Rating :=
  { rating with
    ID := if rating.ID = 0 then env.newID else rating.ID
    CreatedAt := if rating.CreatedAt = 0 then env.now else rating.CreatedAt
    UpdatedAt := if rating.UpdatedAt = 0 then env.now else rating.UpdatedAt }

/-- The statement `tx.Create(passenger)`. -/
def Tx.CreatePassenger (env : Env) (tx : Tx) (passenger : RidePassenger) : Except Error Tx :=
  match tx.err with
  | some e => .error e
  | none =>
    if env.fails .createPassenger then .error (.storage .createPassenger)
    else if tx.cur.passengers.any (fun q => q.ID == (passenger.inserted env).ID) then
      .error .duplicateKey
    else .ok { tx with cur := { tx.cur with
      passengers := tx.cur.passengers ++ [passenger.inserted env] } }

/-- The statement `tx.Delete(&passenger)`: the rows with the primary key of
`passenger` are removed (the model has no `DeletedAt` column, the delete is a real
one). -/
def Tx.DeletePassenger (env : Env) (tx : Tx) (passenger : RidePassenger) : Except Error Tx :=
  match tx.err with
  | some e => .error e
  | none =>
    if env.fails .deletePassenger then .error (.storage .deletePassenger)
    else .ok { tx with cur := { tx.cur with
      passengers := tx.cur.passengers.filter (fun q => q.ID != passenger.ID) } }

/-! ## repository.RideRepository -/

namespace RideRepository

/-- The method `AddPassenger` of `RideRepository`: the returned error (`none` is Go's
`nil`) and the state of the database after the call. -/
def AddPassenger (m : IntMode) (env : Env) (db : Store) (passenger : RidePassenger) :
    Option Error × Store :=
  -- Start a transaction
  let tx := Begin env db
  -- Get the ride
  match tx.FirstRide env passenger.RideID with
  | .error err => (some err, tx.Rollback)
  | .ok ride =>
    -- Check if there are enough seats available
    if m.add ride.SeatsBooked passenger.Seats > ride.SeatsAvailable then
      (some .notEnoughSeats, tx.Rollback)
    else
      -- Update the ride's booked seats
      match tx.UpdateSeatsBooked env ride (m.add ride.SeatsBooked passenger.Seats) with
      | .error err => (some err, tx.Rollback)
      | .ok tx1 =>
        -- Add the passenger
        match tx1.CreatePassenger env passenger with
        | .error err => (some err, tx1.Rollback)
        | .ok tx2 =>
          -- Commit the transaction
          tx2.Commit env

/-- The method `RemovePassenger` of `RideRepository`. -/
def RemovePassenger (m : IntMode) (env : Env) (db : Store) (passengerID : Nat) :
    Option Error × Store :=
  -- Start a transaction
  let tx := Begin env db
  -- Get the passenger
  match tx.FirstPassenger env passengerID with
  | .error err => (some err, tx.Rollback)
  | .ok passenger =>
    -- Get the ride
    match tx.FirstRide env passenger.RideID with
    | .error err => (some err, tx.Rollback)
    | .ok ride =>
      -- Update the ride's booked seats
      match tx.UpdateSeatsBooked env ride (m.sub ride.SeatsBooked passenger.Seats) with
      | .error err => (some err, tx.Rollback)
      | .ok tx1 =>
        -- Delete the passenger
        match tx1.DeletePassenger env passenger with
        | .error err => (some err, tx1.Rollback)
        | .ok tx2 =>
          -- Commit the transaction
          tx2.Commit env

/-- The method `CreateRide` of `RideRepository`, `r.db.Create(ride).Error`: the error
or the ride with the primary key and timestamps written back into it, and the state of
the database after the call. -/
def CreateRide (env : Env) (db : Store) (ride : Ride) : Except Error Ride × Store :=
  if env.fails .createRide then (.error (.storage .createRide), db)
  else if db.rides.any (fun r => r.ID == (ride.inserted env).ID) then
    (.error .duplicateKey, db)
  else (.ok (ride.inserted env), { db with rides := db.rides ++ [ride.inserted env] })

/-- The method `UpdateRideStatus` of `RideRepository`,
`r.db.Model(&models.Ride{}).Where("id = ?", rideID).Update("status", status).Error`:
an update that matches no row is not an error. -/
def UpdateRideStatus (env : Env) (db : Store) (rideID : Nat) (status : RideStatus) :
    Option Error × Store :=
  if env.fails .updateStatus then (some (.storage .updateStatus), db)
  else (none, { db with
    rides := db.rides.map (fun r =>
      if r.ID = rideID then { r with Status := status, UpdatedAt := env.now } else r) })

/-- The clause `Preload("Rider")`: the user the ride's `rider_id` refers to is put in
the `Rider` field, which keeps its zero value when there is no such user. -/
def preloadRider (db : Store) (r : Ride) : LoadedRide :=
  { row := r
    Rider := (db.users.find? (fun u => u.ID == r.RiderID)).getD User.zero
    Driver := none
    Passengers := [] }

/-- The condition of `GetAvailableSharedRides`,
`ride_type = ? AND status = ? AND seats_available > seats_booked` with the arguments
`models.RideTypeShared` and `models.RideStatusPending`. -/
def availableShared (r : Ride) : Bool :=
  r.RideType == RideTypeShared && r.Status == RideStatusPending &&
    decide (r.SeatsAvailable > r.SeatsBooked)

/-- The method `GetAvailableSharedRides` of `RideRepository`. -/
def GetAvailableSharedRides (env : Env) (db : Store) :
    Except Error (List LoadedRide) × Store :=
  if env.fails .findRides then (.error (.storage .findRides), db)
  else if env.fails .preload then (.error (.storage .preload), db)
  else (.ok ((db.rides.filter availableShared).map (preloadRider db)), db)

/-- The user a foreign key refers to, as `Preload` fills a struct field with it: the
zero value when there is no such user. -/
def userOf (db : Store) (id : Nat) : User :=
  (db.users.find? (fun u => u.ID == id)).getD User.zero

/-- The clause `Preload("User")` on passenger records. -/
def preloadUser (db : Store) (p : RidePassenger) : RidePassenger × User :=
  (p, userOf db p.UserID)

/-- The clauses `Preload("Rider").Preload("Driver").Preload("Passengers.User")`: the
rider, the driver (a pointer, `nil` without a `driver_id` or without such a user) and
the passenger records of the ride, each with its user. -/
def preloadAll (db : Store) (r : Ride) : LoadedRide :=
  { row := r
    Rider := userOf db r.RiderID
    Driver := r.DriverID.bind (fun id => db.users.find? (fun u => u.ID == id))
    Passengers := (db.passengers.filter (fun p => p.RideID == r.ID)).map (preloadUser db) }

/-- The method `GetRideByID` of `RideRepository`: `gorm.ErrRecordNotFound` becomes the
error "ride not found", the preloads run once the ride was found. -/
def GetRideByID (env : Env) (db : Store) (id : Nat) : Except Error LoadedRide × Store :=
  if env.fails .firstRide then (.error (.storage .firstRide), db)
  else match db.findRide id with
    | none => (.error .rideNotFound, db)
    | some ride =>
      if env.fails .preload then (.error (.storage .preload), db)
      else (.ok (preloadAll db ride), db)

/-- The method `GetRidesByRiderID` of `RideRepository`, the rows with `rider_id = ?`. -/
def GetRidesByRiderID (env : Env) (db : Store) (riderID : Nat) :
    Except Error (List LoadedRide) × Store :=
  if env.fails .findRides then (.error (.storage .findRides), db)
  else if env.fails .preload then (.error (.storage .preload), db)
  else (.ok ((db.rides.filter (fun r => r.RiderID == riderID)).map (preloadAll db)), db)

/-- The method `GetRidesByDriverID` of `RideRepository`, the rows with `driver_id = ?`
(a row without a driver has `driver_id` null and matches no identifier). -/
def GetRidesByDriverID (env : Env) (db : Store) (driverID : Nat) :
    Except Error (List LoadedRide) × Store :=
  if env.fails .findRides then (.error (.storage .findRides), db)
  else if env.fails .preload then (.error (.storage .preload), db)
  else (.ok ((db.rides.filter (fun r => r.DriverID == some driverID)).map (preloadAll db)), db)

/-- The method `GetPassengersByRideID` of `RideRepository`, the rows with
`ride_id = ?`, each with its user. -/
def GetPassengersByRideID (env : Env) (db : Store) (rideID : Nat) :
    Except Error (List (RidePassenger × User)) × Store :=
  if env.fails .findPassengers then (.error (.storage .findPassengers), db)
  else if env.fails .preload then (.error (.storage .preload), db)
  else (.ok ((db.passengers.filter (fun p => p.RideID == rideID)).map (preloadUser db)), db)

/-- The method `AddRating` of `RideRepository`, `r.db.Create(rating).Error`. -/
def AddRating (env : Env) (db : Store) (rating : Rating) : Option Error × Store :=
  if env.fails .createRating then (some (.storage .createRating), db)
  else if db.ratings.any (fun r => r.ID == (rating.inserted env).ID) then
    (some .duplicateKey, db)
  else (none, { db with ratings := db.ratings ++ [rating.inserted env] })

end RideRepository

/-! ## handlers -/

namespace handlers

/-- The value of `strconv.ParseUint(s, 10, 32)` on a string of decimal digits. -/
def digitsValue : List Char → Nat → Option Nat
  | [], acc => some acc
  | c :: cs, acc =>
    if c.isDigit then digitsValue cs (acc * 10 + (c.toNat - 48)) else none

/-- The call `strconv.ParseUint(s, 10, 32)`: `none` when it returns an error (an empty
string, a character that is not a decimal digit, a value that does not fit 32 bits). -/
def ParseUint32 (s : String) : Option Nat :=
  match s.data with
  | [] => none
  | cs =>
    match digitsValue cs 0 with
    | some n => if n < 4294967296 then some n else none
    | none => none

/-- The JSON body of a response. -/
inductive Body where
  /-- The body `gin.H{"error": text}`. -/
  | error (text : String)
  /-- The body `gin.H{"error": err.Error()}` of a request that did not bind. -/
  | bindError
  /-- The body `gin.H{"message": text}`. -/
  | message (text : String)
  /-- The body `gin.H{"message": text, "ride": ride}`. -/
  | ride (text : String) (ride : Ride)
  /-- A sequence of rides. -/
  | rides (rides : List LoadedRide)
  deriving DecidableEq, Repr

/-- The response a handler writes with `c.JSON(status, body)`. -/
structure Response where
  status : Nat
  body : Body
  deriving DecidableEq, Repr

def StatusOK : Nat := 200
def StatusCreated : Nat := 201
def StatusBadRequest : Nat := 400
def StatusUnauthorized : Nat := 401
def StatusNotFound : Nat := 404
def StatusInternalServerError : Nat := 500

/-- The text of `err.Error()`. -/
def errorText : Error → String
  | .recordNotFound => "record not found"
  | .notEnoughSeats => "not enough seats available"
  | .rideNotFound => "ride not found"
  | .duplicateKey => "duplicate key value violates unique constraint"
  | .storage _ => "storage failure"

/-- Whether a `float64` is the zero value the `required` rule rejects. -/
def Float64.isZero (f : Float64) : Bool :=
  f.bits == 0 || f.bits == 9223372036854775808

/-- The struct `CreateRideRequest`, as decoded from the JSON body (a key the body does
not have leaves the zero value in its field). -/
structure CreateRideRequest where
  RideType : String
  PickupLat : Float64
  PickupLng : Float64
  DropoffLat : Float64
  DropoffLng : Float64
  PickupAddress : String
  DropoffAddress : String
  Price : Float64
  Distance : Float64
  Duration : Int
  SeatsAvailable : Int
  DepartureTime : TimeValue
  PaymentMethod : String
  deriving DecidableEq, Repr

/-- The `binding` rules of `CreateRideRequest`: `required` rejects the zero value of the
field's type (for the `time.Time` of `DepartureTime` the struct `time.Time{}`, written
`0`: a time at the zero instant that has a location is not rejected), `oneof` accepts
the listed words, `required_if=RideType shared` is `required` when `RideType` is
`shared`. -/
def CreateRideRequest.valid (req : CreateRideRequest) : Bool :=
  (req.RideType != "" && (req.RideType == "shared" || req.RideType == "on_demand")) &&
  !Float64.isZero req.PickupLat &&
  !Float64.isZero req.PickupLng &&
  !Float64.isZero req.DropoffLat &&
  !Float64.isZero req.DropoffLng &&
  req.PickupAddress != "" &&
  req.DropoffAddress != "" &&
  !Float64.isZero req.Price &&
  !Float64.isZero req.Distance &&
  req.Duration != 0 &&
  (req.RideType != "shared" || req.SeatsAvailable != 0) &&
  (req.RideType != "shared" || req.DepartureTime != 0) &&
  (req.PaymentMethod != "" &&
    (req.PaymentMethod == "cash" || req.PaymentMethod == "card" || req.PaymentMethod == "wallet"))

/-- The ride `CreateRide` builds from a bound request and the caller. -/
def newRide (req : CreateRideRequest) (userID : Nat) : Ride :=
  let ride : Ride :=
    { ID := 0
      RideType := req.RideType
      RiderID := userID
      DriverID := none
      PickupLat := req.PickupLat
      PickupLng := req.PickupLng
      DropoffLat := req.DropoffLat
      DropoffLng := req.DropoffLng
      PickupAddress := req.PickupAddress
      DropoffAddress := req.DropoffAddress
      Status := RideStatusPending
      Price := req.Price
      Distance := req.Distance
      Duration := req.Duration
      SeatsAvailable := 0
      SeatsBooked := 0
      DepartureTime := 0
      PaymentMethod := req.PaymentMethod
      StartedAt := none
      CompletedAt := none
      CreatedAt := 0
      UpdatedAt := 0 }
  -- Set shared ride specific fields
  if req.RideType = RideTypeShared then
    { ride with
      SeatsAvailable := req.SeatsAvailable
      SeatsBooked := 0
      DepartureTime := req.DepartureTime }
  else ride

/-- The handler `CreateRide`.  `body` is the request body decoded into the struct
(`none` when it does not decode), `userID` the entry the auth middleware left in the
context. -/
def CreateRide (env : Env) (db : Store) (body : Option CreateRideRequest)
    (userID : Option Nat) : Response × Store :=
  match body with
  | none => (⟨StatusBadRequest, .bindError⟩, db)
  | some req =>
    if !req.valid then (⟨StatusBadRequest, .bindError⟩, db)
    else
      -- Get user ID from context (set by auth middleware)
      match userID with
      | none => (⟨StatusUnauthorized, .error "User not authenticated"⟩, db)
      | some uid =>
        -- Save ride to database
        match RideRepository.CreateRide env db (newRide req uid) with
        | (.error _, db1) => (⟨StatusInternalServerError, .error "Failed to create ride"⟩, db1)
        | (.ok ride, db1) => (⟨StatusCreated, .ride "Ride created successfully" ride⟩, db1)

/-- The words the anonymous request struct of `UpdateRideStatus` accepts
(`required,oneof=pending accepted started completed cancelled`). -/
def statusValid (status : String) : Bool :=
  status != "" &&
    (status == "pending" || status == "accepted" || status == "started" ||
      status == "completed" || status == "cancelled")

/-- The handler `UpdateRideStatus`.  `id` is the path parameter, `body` the `status`
field of the decoded request body. -/
def UpdateRideStatus (env : Env) (db : Store) (id : String) (body : Option String) :
    Response × Store :=
  -- Get ride ID from path
  match ParseUint32 id with
  | none => (⟨StatusBadRequest, .error "Invalid ride ID"⟩, db)
  | some rideID =>
    match body with
    | none => (⟨StatusBadRequest, .bindError⟩, db)
    | some status =>
      if !statusValid status then (⟨StatusBadRequest, .bindError⟩, db)
      else
        -- Update ride status in database
        match RideRepository.UpdateRideStatus env db rideID status with
        | (some _, db1) =>
          (⟨StatusInternalServerError, .error "Failed to update ride status"⟩, db1)
        | (none, db1) => (⟨StatusOK, .message "Ride status updated successfully"⟩, db1)

/-- The struct `JoinRideRequest`. -/
structure JoinRideRequest where
  Seats : Int
  deriving DecidableEq, Repr

/-- The `binding` rules of `JoinRideRequest`, `required,min=1`. -/
def JoinRideRequest.valid (req : JoinRideRequest) : Bool :=
  req.Seats != 0 && decide (req.Seats ≥ 1)

/-- The passenger `JoinRide` builds from the ride of the path, the caller and the bound
request. -/
def newPassenger (rideID uid : Nat) (req : JoinRideRequest) : RidePassenger :=
  { ID := 0
    RideID := rideID
    UserID := uid
    Seats := req.Seats
    Status := RideStatusPending
    CreatedAt := 0
    UpdatedAt := 0 }

/-- The handler `JoinRide`. -/
def JoinRide (m : IntMode) (env : Env) (db : Store) (id : String) (userID : Option Nat)
    (body : Option JoinRideRequest) : Response × Store :=
  -- Get ride ID from path
  match ParseUint32 id with
  | none => (⟨StatusBadRequest, .error "Invalid ride ID"⟩, db)
  | some rideID =>
    -- Get user ID from context (set by auth middleware)
    match userID with
    | none => (⟨StatusUnauthorized, .error "User not authenticated"⟩, db)
    | some uid =>
      -- Get request body
      match body with
      | none => (⟨StatusBadRequest, .bindError⟩, db)
      | some req =>
        if !req.valid then (⟨StatusBadRequest, .bindError⟩, db)
        else
          -- Add passenger to ride
          match RideRepository.AddPassenger m env db (newPassenger rideID uid req) with
          | (some err, db1) =>
            (⟨StatusInternalServerError, .error ("Failed to join ride: " ++ errorText err)⟩, db1)
          | (none, db1) => (⟨StatusOK, .message "Joined ride successfully"⟩, db1)

/-- The handler `LeaveRide`. -/
def LeaveRide (m : IntMode) (env : Env) (db : Store) (passengerId : String) :
    Response × Store :=
  -- Get passenger ID from path
  match ParseUint32 passengerId with
  | none => (⟨StatusBadRequest, .error "Invalid passenger ID"⟩, db)
  | some passengerID =>
    -- Remove passenger from ride
    match RideRepository.RemovePassenger m env db passengerID with
    | (some _, db1) => (⟨StatusInternalServerError, .error "Failed to leave ride"⟩, db1)
    | (none, db1) => (⟨StatusOK, .message "Left ride successfully"⟩, db1)

/-- The handler `GetAvailableSharedRides`. -/
def GetAvailableSharedRides (env : Env) (db : Store) : Response × Store :=
  match RideRepository.GetAvailableSharedRides env db with
  | (.error _, db1) =>
    (⟨StatusInternalServerError, .error "Failed to get available rides"⟩, db1)
  | (.ok rides, db1) => (⟨StatusOK, .rides rides⟩, db1)

/-- The rules of `CreateRideRequest` that do not depend on the ride type: those of
`valid` without the two `required_if` rules. -/
def CreateRideRequest.commonValid (req : CreateRideRequest) : Bool :=
  (req.RideType != "" && (req.RideType == "shared" || req.RideType == "on_demand")) &&
  !Float64.isZero req.PickupLat &&
  !Float64.isZero req.PickupLng &&
  !Float64.isZero req.DropoffLat &&
  !Float64.isZero req.DropoffLng &&
  req.PickupAddress != "" &&
  req.DropoffAddress != "" &&
  !Float64.isZero req.Price &&
  !Float64.isZero req.Distance &&
  req.Duration != 0 &&
  (req.PaymentMethod != "" &&
    (req.PaymentMethod == "cash" || req.PaymentMethod == "card" || req.PaymentMethod == "wallet"))

/-- The struct `RateRideRequest`. -/
structure RateRideRequest where
  Rating : Int
  Comment : String
  deriving DecidableEq, Repr

/-- The `binding` rules of `RateRideRequest`, `required,min=1,max=5` on `Rating`. -/
def RateRideRequest.valid (req : RateRideRequest) : Bool :=
  req.Rating != 0 && decide (req.Rating ≥ 1) && decide (req.Rating ≤ 5)

/-- The rating `RateRide` builds from the ride of the path, the caller, the rider of
the ride and the bound request. -/
def newRating (rideID uid : Nat) (ride : Ride) (req : RateRideRequest) : Rating :=
  { ID := 0
    RideID := rideID
    FromUserID := uid
    ToUserID := ride.RiderID
    Rating := req.Rating
    Comment := req.Comment
    UserID := none
    CreatedAt := 0
    UpdatedAt := 0 }

/-- The handler `RateRide`. -/
def RateRide (env : Env) (db : Store) (id : String) (userID : Option Nat)
    (body : Option RateRideRequest) : Response × Store :=
  -- Get ride ID from path
  match ParseUint32 id with
  | none => (⟨StatusBadRequest, .error "Invalid ride ID"⟩, db)
  | some rideID =>
    -- Get user ID from context (set by auth middleware)
    match userID with
    | none => (⟨StatusUnauthorized, .error "User not authenticated"⟩, db)
    | some uid =>
      -- Get request body
      match body with
      | none => (⟨StatusBadRequest, .bindError⟩, db)
      | some req =>
        if !req.valid then (⟨StatusBadRequest, .bindError⟩, db)
        else
          -- Get ride to find the rider
          match RideRepository.GetRideByID env db rideID with
          | (.error _, db1) => (⟨StatusNotFound, .error "Ride not found"⟩, db1)
          | (.ok ride, db1) =>
            -- Save rating to database
            match RideRepository.AddRating env db1 (newRating rideID uid ride.row req) with
            | (some _, db2) =>
              (⟨StatusInternalServerError, .error "Failed to add rating"⟩, db2)
            | (none, db2) => (⟨StatusOK, .message "Rating added successfully"⟩, db2)

end handlers

/-! ## utils (jwt.go) -/

/-- The `float64` nearest to a natural number, ties to the even mantissa: the value
`encoding/json` decodes the digits of a non-negative integer into when the target is an
`interface{}`. -/
def Float64.ofNat (n : Nat) : Float64 :=
  if n = 0 then ⟨0⟩
  else
    let k := Nat.log2 n
    if k ≥ 1024 then ⟨2047 * 2 ^ 52⟩
    else if k ≤ 52 then ⟨(k + 1023) * 2 ^ 52 + (n * 2 ^ (52 - k) - 2 ^ 52)⟩
    else
      let shift := k - 52
      let q := n / 2 ^ shift
      let rest := n % 2 ^ shift
      let half := 2 ^ (shift - 1)
      let q1 := if rest > half ∨ (rest = half ∧ q % 2 = 1) then q + 1 else q
      -- a mantissa that rounds up to `2^53` carries into the exponent
      ⟨(k + 1023) * 2 ^ 52 + (q1 - 2 ^ 52)⟩

/-- Go's conversion `uint(f)` of a `float64` to the 64-bit `uint`: the fraction is
discarded.  For a value that `uint` cannot hold (negative, `2^64` or more, infinite, not
a number) Go leaves the result to the implementation; the model gives `0` there. -/
def Float64.toUint (f : Float64) : Nat :=
  let e := f.bits / 2 ^ 52 % 2 ^ 11
  let mant := f.bits % 2 ^ 52
  if f.bits / 2 ^ 63 % 2 = 1 then 0
  else if e = 0 then 0
  else if e = 2047 then 0
  else if e < 1075 then (2 ^ 52 + mant) / 2 ^ (1075 - e)
  else if e - 1075 ≥ 12 then 0
  else (2 ^ 52 + mant) * 2 ^ (e - 1075)

namespace utils

/-- The fields of `jwt.RegisteredClaims` that `GenerateToken` sets, in seconds since the
Unix epoch (`jwt.NumericDate`, of second precision); `nil` is `none`.  The other fields
keep their zero value and are left out of the JSON (`omitempty`). -/
structure RegisteredClaims where
  ExpiresAt : Option Nat
  IssuedAt : Option Nat
  deriving DecidableEq, Repr

/-- The struct `Claims`. -/
structure Claims where
  UserID : Nat
  Email : String
  Role : String
  Registered : RegisteredClaims
  deriving DecidableEq, Repr

/-- A value of a `jwt.MapClaims` entry, as `encoding/json` decodes it into an
`interface{}`: every JSON number is a `float64`.  Arrays and objects do not occur in the
claims of this program. -/
inductive ClaimValue where
  | float64 (f : Float64)
  | string (s : String)
  | bool (b : Bool)
  | null
  deriving DecidableEq, Repr

/-- The type `jwt.MapClaims`, a `map[string]interface{}`, as its entries. -/
abbrev MapClaims := List (String × ClaimValue)

/-- The index expression `claims[key]` of Go: `none` is the `nil` of a missing key. -/
def MapClaims.get (claims : MapClaims) (key : String) : Option ClaimValue :=
  claims.lookup key

/-- The dynamic type of the field `Claims` of a `jwt.Token`: the struct `Claims` of this
package (what `ValidateToken` parses into) or a `jwt.MapClaims`. -/
inductive TokenClaims where
  | custom (c : Claims)
  | mapClaims (claims : MapClaims)
  deriving DecidableEq, Repr

/-- A `jwt.Token`, of which the functions of this package read the field `Claims`. -/
structure Token where
  Claims : TokenClaims
  deriving DecidableEq, Repr

/-- The claims `GenerateToken` signs for `user`; `now1` and `now2` are the two readings
of the clock, in seconds since the Unix epoch.  The token string is the library's
encoding of these claims with its HS256 signature, which the model leaves out. -/
def GenerateToken (user : User) (now1 now2 : Nat) : utils.Claims :=
  -- Set expiration time
  let expirationTime := now1 + 24 * 3600
  -- Create claims
  { UserID := user.ID
    Email := user.Email
    Role := user.Role
    Registered := { ExpiresAt := some expirationTime, IssuedAt := some now2 } }

/-- The claims of a token read back as a `jwt.MapClaims`: the JSON object has the keys of
the struct tags, `user_id`, `email`, `role`, and `exp`, `iat` when set. -/
def Claims.toMapClaims (c : utils.Claims) : MapClaims :=
  [("user_id", .float64 (Float64.ofNat c.UserID)),
   ("email", .string c.Email),
   ("role", .string c.Role)] ++
  (match c.Registered.ExpiresAt with
   | some t => [("exp", .float64 (Float64.ofNat t))]
   | none => []) ++
  (match c.Registered.IssuedAt with
   | some t => [("iat", .float64 (Float64.ofNat t))]
   | none => [])

/-- The function `ExtractUserID`: the user ID or the text of the error. -/
def ExtractUserID (token : Token) : Except String Nat :=
  match token.Claims with
  | .mapClaims claims =>
    -- Convert the ID to float64 first (JSON numbers are decoded as float64)
    match claims.get "id" with
    | some (.float64 idFloat) => .ok idFloat.toUint
    | _ => .error "invalid user ID in token"
  | _ => .error "invalid token claims"

/-- The function `ExtractUserRole`: the role or the text of the error. -/
def ExtractUserRole (token : Token) : Except String UserRole :=
  match token.Claims with
  | .mapClaims claims =>
    match claims.get "role" with
    | some (.string role) => .ok role
    | _ => .error "invalid user role in token"
  | _ => .error "invalid token claims"

end utils

/-! ## Calls made one after the other -/

/-- A request to one of the ride endpoints that change the store. -/
inductive Call where
  | createRide (body : Option handlers.CreateRideRequest) (userID : Option Nat)
  | joinRide (id : String) (userID : Option Nat) (body : Option handlers.JoinRideRequest)
  | leaveRide (passengerId : String)
  | updateStatus (id : String) (body : Option String)
  deriving DecidableEq, Repr

/-- The handler that serves a call. -/
def Call.run (m : IntMode) (env : Env) (db : Store) : Call → handlers.Response × Store
  | .createRide body userID => handlers.CreateRide env db body userID
  | .joinRide id userID body => handlers.JoinRide m env db id userID body
  | .leaveRide passengerId => handlers.LeaveRide m env db passengerId
  | .updateStatus id body => handlers.UpdateRideStatus env db id body

/-- The store after the calls of a list were served in order, each in its own
environment. -/
def runCalls (m : IntMode) (db : Store) : List (Env × Call) → Store
  | [] => db
  | (env, c) :: rest => runCalls m (c.run m env db).2 rest

/-- The seats the passenger records of a table reserve on the ride `id`. -/
def seatsReserved (passengers : List RidePassenger) (id : Nat) : Int :=
  ((passengers.filter (fun p => p.RideID == id)).map (fun p => p.Seats)).sum

/-- What the sequential calls keep true of the store: primary keys are unique, every
passenger record reserves at least one seat on a ride that exists, and the counter of a
ride is the number of seats reserved on it. -/
structure Store.Consistent (db : Store) : Prop where
  rideKeys : (db.rides.map (fun r => r.ID)).Nodup
  passengerKeys : (db.passengers.map (fun p => p.ID)).Nodup
  seatsPos : ∀ p ∈ db.passengers, 1 ≤ p.Seats
  owner : ∀ p ∈ db.passengers, ∃ r ∈ db.rides, r.ID = p.RideID
  counter : ∀ r ∈ db.rides, r.SeatsBooked = seatsReserved db.passengers r.ID

/-- The capacity invariant of the specification, `0 <= seats_booked <= seats_available`
for every ride. -/
def Store.WithinCapacity (db : Store) : Prop :=
  ∀ r ∈ db.rides, 0 ≤ r.SeatsBooked ∧ r.SeatsBooked ≤ r.SeatsAvailable

/-- A shared ride is created with a number of seats that is not negative. -/
def Call.seatsNonneg : Call → Prop
  | .createRide (some req) _ => req.RideType = RideTypeShared → 0 ≤ req.SeatsAvailable
  | _ => True

instance (c : Call) : Decidable c.seatsNonneg := by
  unfold Call.seatsNonneg
  split <;> infer_instance

/-- The seats a join asks for are a value of Go's `int`. -/
def Call.seatsInRange (m : IntMode) : Call → Prop
  | .joinRide _ _ (some req) => m.InRange req.Seats
  | _ => True

instance (m : IntMode) (c : Call) : Decidable (c.seatsInRange m) := by
  unfold Call.seatsInRange
  split <;> infer_instance

/-- A call of `CreateRide`, of `JoinRide` with `seats >= 1`, or of `LeaveRide`. -/
def Call.createJoinLeave : Call → Bool
  | .createRide _ _ => true
  | .joinRide _ _ (some req) => decide (1 ≤ req.Seats)
  | .joinRide _ _ none => false
  | .leaveRide _ => true
  | .updateStatus _ _ => false

/-- What the sequential calls keep true of the rides that are not shared: ride keys are
unique, every passenger record is on a ride that exists, and a ride of another type
than `shared` has no seats, none booked, and no passenger record. -/
structure Store.Idle (db : Store) : Prop where
  rideKeys : (db.rides.map (fun r => r.ID)).Nodup
  owner : ∀ p ∈ db.passengers, ∃ r ∈ db.rides, r.ID = p.RideID
  idle : ∀ r ∈ db.rides, r.RideType ≠ RideTypeShared →
    r.SeatsAvailable = 0 ∧ r.SeatsBooked = 0 ∧ ∀ p ∈ db.passengers, p.RideID ≠ r.ID

/-! ## Calls of `AddPassenger` that run at the same time

Each call runs the statements of `AddPassenger` in order; between two statements of one
call the other calls may run theirs.  The database is PostgreSQL at its default
isolation level, read committed: the lookup of a call reads the committed rows, the
update and the insert of a call stay inside its transaction, and its commit writes them
to the committed rows.  (An update of a row that another open transaction has updated
waits for that transaction to end; the schedules below are not restricted by it.) -/

/-- Where a running call of `AddPassenger` stands. -/
inductive JoinPc where
  /-- Nothing was issued yet. -/
  | start
  /-- The statement `tx.First(&ride, passenger.RideID)` returned `ride`. -/
  | loaded (ride : Ride)
  /-- The capacity check on `ride` passed. -/
  | checked (ride : Ride)
  /-- The update of `seats_booked` was issued. -/
  | updated (ride : Ride)
  /-- The insert of the passenger was issued. -/
  | inserted (ride : Ride)
  /-- The call returned. -/
  | returned (err : Option Error)
  deriving DecidableEq, Repr

/-- A running call of `AddPassenger`. -/
structure JoinCall where
  env : Env
  passenger : RidePassenger
  pc : JoinPc

/-- The next statement of a call, on the committed rows `db`. -/
def JoinCall.step (m : IntMode) (db : Store) (c : JoinCall) : Store × JoinCall :=
  match c.pc with
  | .start =>
    -- tx := r.db.Begin(); tx.First(&ride, passenger.RideID)
    if c.env.fails .begin then (db, { c with pc := .returned (some (.storage .begin)) })
    else if c.env.fails .firstRide then
      (db, { c with pc := .returned (some (.storage .firstRide)) })
    else match db.findRide c.passenger.RideID with
      | none => (db, { c with pc := .returned (some .recordNotFound) })
      | some ride => (db, { c with pc := .loaded ride })
  | .loaded ride =>
    -- if ride.SeatsBooked+passenger.Seats > ride.SeatsAvailable
    if m.add ride.SeatsBooked c.passenger.Seats > ride.SeatsAvailable then
      (db, { c with pc := .returned (some .notEnoughSeats) })
    else (db, { c with pc := .checked ride })
  | .checked ride =>
    -- tx.Model(&ride).Update("seats_booked", ride.SeatsBooked+passenger.Seats)
    if c.env.fails .updateSeatsBooked then
      (db, { c with pc := .returned (some (.storage .updateSeatsBooked)) })
    else (db, { c with pc := .updated ride })
  | .updated ride =>
    -- tx.Create(passenger)
    if c.env.fails .createPassenger then
      (db, { c with pc := .returned (some (.storage .createPassenger)) })
    else if db.passengers.any (fun q => q.ID == (c.passenger.inserted c.env).ID) then
      (db, { c with pc := .returned (some .duplicateKey) })
    else (db, { c with pc := .inserted ride })
  | .inserted ride =>
    -- tx.Commit()
    if c.env.fails .commit then (db, { c with pc := .returned (some (.storage .commit)) })
    else
      ({ db with
          rides := setSeatsBooked c.env.now ride.ID
            (m.add ride.SeatsBooked c.passenger.Seats) db.rides
          passengers := db.passengers ++ [c.passenger.inserted c.env] },
        { c with pc := .returned none })
  | .returned err => (db, { c with pc := .returned err })

/-- The committed rows and the calls in flight. -/
structure Concurrent where
  db : Store
  calls : List JoinCall

/-- The call number `i` runs its next statement. -/
def Concurrent.step (m : IntMode) (s : Concurrent) (i : Nat) : Concurrent :=
  match s.calls.get? i with
  | none => s
  | some c => { db := (c.step m s.db).1, calls := s.calls.set i (c.step m s.db).2 }

/-- The calls run their statements in the order of a schedule, a list of call
numbers. -/
def Concurrent.run (m : IntMode) (s : Concurrent) : List Nat → Concurrent
  | [] => s
  | i :: rest => Concurrent.run m (s.step m i) rest

/-- The ride a call has loaded, once it is past its lookup. -/
def JoinPc.ride? : JoinPc → Option Ride
  | .loaded r => some r
  | .checked r => some r
  | .updated r => some r
  | .inserted r => some r
  | _ => none

/-- Whether a call is past its capacity check and has not returned. -/
def JoinPc.passedCheck : JoinPc → Bool
  | .checked _ => true
  | .updated _ => true
  | .inserted _ => true
  | _ => false

/-- What a running call knows of the committed rows: the ride it loaded has the capacity
its row still has, and once past the check its sum is within that capacity. -/
def JoinCall.Sound (m : IntMode) (rides : List Ride) (c : JoinCall) : Prop :=
  ∀ ride, c.pc.ride? = some ride →
    (∀ r ∈ rides, r.ID = ride.ID → r.SeatsAvailable = ride.SeatsAvailable) ∧
    (c.pc.passedCheck = true → m.add ride.SeatsBooked c.passenger.Seats ≤ ride.SeatsAvailable)

/-- What every schedule keeps true: the keys of the rides are unique, every counter is
within the capacity of its ride, and what the running calls know is true. -/
structure Concurrent.Safe (m : IntMode) (s : Concurrent) : Prop where
  keys : (s.db.rides.map (fun r => r.ID)).Nodup
  le : ∀ r ∈ s.db.rides, r.SeatsBooked ≤ r.SeatsAvailable
  sound : ∀ c ∈ s.calls, c.Sound m s.db.rides

/-! ## Example data -/

namespace Example

/-- An environment in which the database refuses nothing. -/
def env (now : Time) (newID : Nat) : Env := { now := now, newID := newID, fails := noFailure }

/-- An environment in which the database refuses exactly the statement `op`. -/
def envFailing (now : Time) (newID : Nat) (op : DbOp) : Env :=
  { now := now, newID := newID, fails := fun o => o == op }

/-- A shared ride with the given key, capacity and counter, last written at time 100. -/
def ride (id : Nat) (seatsAvailable seatsBooked : Int) : Ride :=
  { ID := id, RideType := RideTypeShared, RiderID := 7, DriverID := none,
    PickupLat := ⟨1⟩, PickupLng := ⟨2⟩, DropoffLat := ⟨3⟩, DropoffLng := ⟨4⟩,
    PickupAddress := "campus", DropoffAddress := "station", Status := RideStatusPending,
    Price := ⟨5⟩, Distance := ⟨6⟩, Duration := 15, SeatsAvailable := seatsAvailable,
    SeatsBooked := seatsBooked, DepartureTime := 500, PaymentMethod := "cash",
    StartedAt := none, CompletedAt := none, CreatedAt := 100, UpdatedAt := 100 }

/-- A passenger record with the given key, ride and seats. -/
def passenger (id rideID : Nat) (seats : Int) : RidePassenger :=
  { ID := id, RideID := rideID, UserID := 8, Seats := seats, Status := RideStatusPending,
    CreatedAt := 100, UpdatedAt := 100 }

/-- The passenger struct the handler `JoinRide` builds for the user 9. -/
def joining (rideID : Nat) (seats : Int) : RidePassenger :=
  { ID := 0, RideID := rideID, UserID := 9, Seats := seats, Status := RideStatusPending,
    CreatedAt := 0, UpdatedAt := 0 }

/-- A store with one ride of two seats, both booked by the passenger 1. -/
def fullStore : Store :=
  { users := [], rides := [ride 1 2 2], passengers := [passenger 1 1 2], ratings := [] }

/-- A store with one ride of two seats, none booked. -/
def freeStore : Store :=
  { users := [], rides := [ride 1 2 0], passengers := [], ratings := [] }

/-- A store with three rides: a shared one with a free seat, a shared one that is full
and an on-demand one. -/
def mixedStore : Store :=
  { users := []
    rides := [ride 1 2 1, ride 2 2 2, { ride 3 0 0 with RideType := RideTypeOnDemand }]
    passengers := [passenger 1 1 1, passenger 2 2 2]
    ratings := [] }

/-- A request to create a ride of the given type and number of seats. -/
def request (rideType : String) (seats : Int) : handlers.CreateRideRequest :=
  { RideType := rideType, PickupLat := ⟨1⟩, PickupLng := ⟨2⟩, DropoffLat := ⟨3⟩,
    DropoffLng := ⟨4⟩, PickupAddress := "campus", DropoffAddress := "station",
    Price := ⟨5⟩, Distance := ⟨6⟩, Duration := 15, SeatsAvailable := seats,
    DepartureTime := 500, PaymentMethod := "cash" }

/-- The scenario of the specification, with a repeated leave: a ride of two seats is
created, a join for two seats, a join for one seat (refused), the first passenger
leaves, leaves again (refused), a join for one seat. -/
def scenario : List (Env × Call) :=
  [ (env 100 1, .createRide (some (request "shared" 2)) (some 7)),
    (env 110 1, .joinRide "1" (some 8) (some ⟨2⟩)),
    (env 120 2, .joinRide "1" (some 9) (some ⟨1⟩)),
    (env 130 0, .leaveRide "1"),
    (env 140 0, .leaveRide "1"),
    (env 150 3, .joinRide "1" (some 9) (some ⟨1⟩)) ]

/-- A store with one ride of one seat, not booked. -/
def lastSeatStore : Store :=
  { users := [], rides := [ride 1 1 0], passengers := [], ratings := [] }

/-- Two calls `JoinRide(seats=1)` on the ride 1, about to start. -/
def race : Concurrent :=
  { db := lastSeatStore
    calls := [ { env := env 200 1, passenger := joining 1 1, pc := .start },
               { env := env 201 2, passenger := joining 1 1, pc := .start } ] }

/-- A schedule of `race`: both calls look the ride up and pass the capacity check, then
the first call updates, inserts and commits, then the second one does. -/
def raceSchedule : List Nat := [0, 1, 0, 1, 0, 0, 0, 1, 1, 1]

/-- A store with one ride of two seats, one booked by the passenger 1. -/
def halfStore : Store :=
  { users := [], rides := [ride 1 2 1], passengers := [passenger 1 1 1], ratings := [] }

/-- The largest `int` of a 64-bit platform, a number of seats `JoinRideRequest` accepts. -/
def maxSeats : Int := 9223372036854775807

/-- A ride of two seats is created, a join for one seat, a join for `maxSeats` seats. -/
def overflowCalls : List (Env × Call) :=
  [ (env 100 1, .createRide (some (request "shared" 2)) (some 7)),
    (env 110 1, .joinRide "1" (some 8) (some ⟨1⟩)),
    (env 120 2, .joinRide "1" (some 9) (some ⟨maxSeats⟩)) ]

/-- A store with two rides of the rider 7, the first driven by the user 5, and a
passenger on each. -/
def drivenStore : Store :=
  { users := []
    rides := [{ ride 1 2 1 with DriverID := some 5 }, ride 2 2 2]
    passengers := [passenger 1 1 1, passenger 2 2 2]
    ratings := [] }

/-- A ride of two seats is created; a leave is tried before anyone has joined; a join
for one seat, the passenger leaves, leaves again; a join for one seat, a join for
`maxSeats` seats. -/
def repeatedLeaveCalls : List (Env × Call) :=
  [ (env 100 1, .createRide (some (request "shared" 2)) (some 7)),
    (env 105 0, .leaveRide "1"),
    (env 110 1, .joinRide "1" (some 8) (some ⟨1⟩)),
    (env 120 0, .leaveRide "1"),
    (env 130 0, .leaveRide "1"),
    (env 140 2, .joinRide "1" (some 8) (some ⟨1⟩)),
    (env 150 3, .joinRide "1" (some 9) (some ⟨maxSeats⟩)) ]

/-- A rider account with the key 7. -/
def rider : User :=
  { User.zero with ID := 7, Email := "ada@example.com", Role := "rider" }

/-- The on-demand ride of the rider 7 that `CreateRide` stores at time 100 under the
key 1. -/
def onDemandRide : Ride :=
  { ride 1 0 0 with RideType := RideTypeOnDemand, DepartureTime := 0 }

/-- An on-demand ride is created, then two joins on it are tried and a leave. -/
def onDemandCalls : List (Env × Call) :=
  [ (env 100 1, .createRide (some (request "on_demand" 0)) (some 7)),
    (env 110 1, .joinRide "1" (some 8) (some ⟨1⟩)),
    (env 120 1, .joinRide "1" (some 9) (some ⟨3⟩)),
    (env 130 0, .leaveRide "1") ]

end Example

/-! ## Properties -/

/-! ### Integers, lookups, updates -/

theorem IntMode.add_unbounded (a b : Int) : IntMode.unbounded.add a b = a + b := rfl

theorem IntMode.sub_unbounded (a b : Int) : IntMode.unbounded.sub a b = a - b := rfl

/-- A value of `int` is stored as it is. -/
theorem IntMode.norm_of_inRange (m : IntMode) (x : Int) (h : m.InRange x) : m.norm x = x := by
  cases m with
  | unbounded => rfl
  | int64 =>
    simp only [IntMode.InRange] at h
    simp only [IntMode.norm, wrapInt64]
    omega

/-- Subtracting what was added gives back a value an `int` can hold. -/
theorem IntMode.sub_add_cancel (m : IntMode) (b n : Int) (hb : m.InRange b) :
    m.sub (m.add b n) n = b := by
  cases m with
  | unbounded => simp [IntMode.sub, IntMode.add, IntMode.norm]
  | int64 =>
    simp only [IntMode.InRange] at hb
    simp only [IntMode.sub, IntMode.add, IntMode.norm, wrapInt64]
    omega

theorem Store.findRide_some {db : Store} {id : Nat} {ride : Ride}
    (h : db.findRide id = some ride) : ride ∈ db.rides ∧ ride.ID = id := by
  unfold Store.findRide at h
  refine ⟨List.mem_of_find?_eq_some h, ?_⟩
  have := List.find?_some h
  simpa using this

theorem Store.findPassenger_some {db : Store} {id : Nat} {p : RidePassenger}
    (h : db.findPassenger id = some p) : p ∈ db.passengers ∧ p.ID = id := by
  unfold Store.findPassenger at h
  refine ⟨List.mem_of_find?_eq_some h, ?_⟩
  have := List.find?_some h
  simpa using this

@[simp] theorem Ride.setSeatsBooked_ID (now : Time) (id : Nat) (v : Int) (r : Ride) :
    (r.setSeatsBooked now id v).ID = r.ID := by
  unfold Ride.setSeatsBooked
  split <;> rfl

@[simp] theorem Ride.setSeatsBooked_SeatsAvailable (now : Time) (id : Nat) (v : Int) (r : Ride) :
    (r.setSeatsBooked now id v).SeatsAvailable = r.SeatsAvailable := by
  unfold Ride.setSeatsBooked
  split <;> rfl

theorem Ride.setSeatsBooked_of_ne (now : Time) (id : Nat) (v : Int) (r : Ride)
    (h : r.ID ≠ id) : r.setSeatsBooked now id v = r := by
  unfold Ride.setSeatsBooked
  rw [if_neg h]

theorem Ride.setSeatsBooked_of_eq (now : Time) (id : Nat) (v : Int) (r : Ride)
    (h : r.ID = id) :
    r.setSeatsBooked now id v = { r with SeatsBooked := v, UpdatedAt := now } := by
  unfold Ride.setSeatsBooked
  rw [if_pos h]

theorem Ride.setSeatsBooked_SeatsBooked (now : Time) (id : Nat) (v : Int) (r : Ride)
    (h : r.ID = id) : (r.setSeatsBooked now id v).SeatsBooked = v := by
  rw [Ride.setSeatsBooked_of_eq _ _ _ _ h]

theorem setSeatsBooked_map_ID (now : Time) (id : Nat) (v : Int) (rs : List Ride) :
    (setSeatsBooked now id v rs).map (fun r => r.ID) = rs.map (fun r => r.ID) := by
  simp [setSeatsBooked, List.map_map, Function.comp_def]

/-- Looking a ride up after the update finds the updated version of the row that was
found before. -/
theorem setSeatsBooked_find (now : Time) (id : Nat) (v : Int) (rs : List Ride) (id' : Nat) :
    (setSeatsBooked now id v rs).find? (fun r => r.ID == id') =
      (rs.find? (fun r => r.ID == id')).map (Ride.setSeatsBooked now id v) := by
  induction rs with
  | nil => rfl
  | cons r rs ih =>
    unfold setSeatsBooked at ih ⊢
    simp only [List.map_cons, List.find?_cons, Ride.setSeatsBooked_ID]
    split
    · rfl
    · exact ih

/-- The update leaves the rows of the other rides as they are. -/
theorem setSeatsBooked_filter_ne (now : Time) (id : Nat) (v : Int) (rs : List Ride) :
    (setSeatsBooked now id v rs).filter (fun r => r.ID != id) =
      rs.filter (fun r => r.ID != id) := by
  induction rs with
  | nil => rfl
  | cons r rs ih =>
    unfold setSeatsBooked at ih ⊢
    by_cases h : r.ID = id
    · simp [h, ih]
    · simp [h, ih, Ride.setSeatsBooked_of_ne _ _ _ _ h]

theorem mem_setSeatsBooked {now : Time} {id : Nat} {v : Int} {rs : List Ride} {r : Ride}
    (h : r ∈ setSeatsBooked now id v rs) :
    ∃ r0 ∈ rs, r = r0.setSeatsBooked now id v := by
  unfold setSeatsBooked at h
  obtain ⟨r0, h0, e⟩ := List.mem_map.mp h
  exact ⟨r0, h0, e.symm⟩

/-- Two rows of a table with unique keys that have the same key are the same row. -/
theorem ride_eq_of_ID {rs : List Ride} (hkeys : (rs.map (fun r => r.ID)).Nodup)
    {r1 r2 : Ride} (h1 : r1 ∈ rs) (h2 : r2 ∈ rs) (h : r1.ID = r2.ID) : r1 = r2 :=
  List.inj_on_of_nodup_map hkeys h1 h2 h

/-- No row with the deleted key is left. -/
theorem find_filter_ne (ps : List RidePassenger) (pid : Nat) :
    (ps.filter (fun q => q.ID != pid)).find? (fun q => q.ID == pid) = none := by
  rw [List.find?_eq_none]
  intro q hq
  have := (List.mem_filter.mp hq).2
  simpa using this

theorem find_append_fresh (ps : List RidePassenger) (p : RidePassenger)
    (hfresh : ∀ q ∈ ps, q.ID ≠ p.ID) :
    (ps ++ [p]).find? (fun q => q.ID == p.ID) = some p := by
  rw [List.find?_append]
  have : ps.find? (fun q => q.ID == p.ID) = none := by
    rw [List.find?_eq_none]
    intro q hq
    simpa using hfresh q hq
  rw [this]
  simp

theorem filter_append_fresh (ps : List RidePassenger) (p : RidePassenger)
    (hfresh : ∀ q ∈ ps, q.ID ≠ p.ID) :
    (ps ++ [p]).filter (fun q => q.ID != p.ID) = ps := by
  rw [List.filter_append]
  have : ps.filter (fun q => q.ID != p.ID) = ps := by
    rw [List.filter_eq_self]
    intro q hq
    simpa using hfresh q hq
  rw [this]
  simp

/-! ### The outcomes of `AddPassenger` and `RemovePassenger` -/

/-- The outcome of `AddPassenger`, statement by statement: every failure hands back the
store the transaction started from. -/
theorem RideRepository.AddPassenger_eq (m : IntMode) (env : Env) (db : Store)
    (passenger : RidePassenger) :
    AddPassenger m env db passenger =
      if env.fails .begin then (some (.storage .begin), db)
      else if env.fails .firstRide then (some (.storage .firstRide), db)
      else match db.findRide passenger.RideID with
        | none => (some .recordNotFound, db)
        | some ride =>
          if m.add ride.SeatsBooked passenger.Seats > ride.SeatsAvailable then
            (some .notEnoughSeats, db)
          else if env.fails .updateSeatsBooked then (some (.storage .updateSeatsBooked), db)
          else if env.fails .createPassenger then (some (.storage .createPassenger), db)
          else if db.passengers.any (fun q => q.ID == (passenger.inserted env).ID) then
            (some .duplicateKey, db)
          else if env.fails .commit then (some (.storage .commit), db)
          else (none, { db with
            rides := setSeatsBooked env.now ride.ID
              (m.add ride.SeatsBooked passenger.Seats) db.rides
            passengers := db.passengers ++ [passenger.inserted env] }) := by
  unfold AddPassenger
  simp only [Begin, Tx.FirstRide, Tx.UpdateSeatsBooked, Tx.CreatePassenger, Tx.Commit,
    Tx.Rollback]
  cases env.fails .begin <;> simp
  cases env.fails .firstRide <;> simp
  cases db.findRide passenger.RideID <;> simp
  rename_i ride
  by_cases hcap : ride.SeatsAvailable < m.add ride.SeatsBooked passenger.Seats
  · simp [hcap]
  · simp only [hcap, if_false]
    cases env.fails .updateSeatsBooked <;> simp
    cases env.fails .createPassenger <;> simp
    by_cases hdup : ∃ x ∈ db.passengers, x.ID = (RidePassenger.inserted env passenger).ID
    · simp [hdup]
    · simp only [hdup, if_false]

/-- The outcome of `RemovePassenger`, statement by statement. -/
theorem RideRepository.RemovePassenger_eq (m : IntMode) (env : Env) (db : Store)
    (passengerID : Nat) :
    RemovePassenger m env db passengerID =
      if env.fails .begin then (some (.storage .begin), db)
      else if env.fails .firstPassenger then (some (.storage .firstPassenger), db)
      else match db.findPassenger passengerID with
        | none => (some .recordNotFound, db)
        | some passenger =>
          if env.fails .firstRide then (some (.storage .firstRide), db)
          else match db.findRide passenger.RideID with
            | none => (some .recordNotFound, db)
            | some ride =>
              if env.fails .updateSeatsBooked then (some (.storage .updateSeatsBooked), db)
              else if env.fails .deletePassenger then (some (.storage .deletePassenger), db)
              else if env.fails .commit then (some (.storage .commit), db)
              else (none, { db with
                rides := setSeatsBooked env.now ride.ID
                  (m.sub ride.SeatsBooked passenger.Seats) db.rides
                passengers := db.passengers.filter (fun q => q.ID != passenger.ID) }) := by
  unfold RemovePassenger
  simp only [Begin, Tx.FirstRide, Tx.FirstPassenger, Tx.UpdateSeatsBooked, Tx.DeletePassenger,
    Tx.Commit, Tx.Rollback]
  cases env.fails .begin <;> simp
  cases env.fails .firstPassenger <;> simp
  cases db.findPassenger passengerID <;> simp
  cases env.fails .firstRide <;> simp
  rename_i passenger
  cases db.findRide passenger.RideID <;> simp
  cases env.fails .updateSeatsBooked <;> simp
  cases env.fails .deletePassenger <;> simp

/-- What a successful `AddPassenger` did. -/
theorem RideRepository.AddPassenger_ok {m : IntMode} {env : Env} {db : Store}
    {passenger : RidePassenger} (h : (AddPassenger m env db passenger).1 = none) :
    ∃ ride, db.findRide passenger.RideID = some ride ∧
      m.add ride.SeatsBooked passenger.Seats ≤ ride.SeatsAvailable ∧
      (∀ q ∈ db.passengers, q.ID ≠ (passenger.inserted env).ID) ∧
      (AddPassenger m env db passenger).2 = { db with
        rides := setSeatsBooked env.now ride.ID
          (m.add ride.SeatsBooked passenger.Seats) db.rides
        passengers := db.passengers ++ [passenger.inserted env] } := by
  rw [AddPassenger_eq] at h ⊢
  cases hb : env.fails .begin <;> simp only [hb, if_true, if_false, Bool.false_eq_true] at h ⊢
  · cases hf : env.fails .firstRide <;>
      simp only [hf, if_true, if_false, Bool.false_eq_true] at h ⊢
    · cases hr : db.findRide passenger.RideID with
      | none => simp [hr] at h
      | some ride =>
        simp only [hr] at h ⊢
        by_cases hcap : m.add ride.SeatsBooked passenger.Seats > ride.SeatsAvailable
        · simp [hcap] at h
        · simp only [hcap, if_false] at h ⊢
          cases hu : env.fails .updateSeatsBooked <;>
            simp only [hu, if_true, if_false, Bool.false_eq_true] at h ⊢
          · cases hc : env.fails .createPassenger <;>
              simp only [hc, if_true, if_false, Bool.false_eq_true] at h ⊢
            · cases hd : db.passengers.any (fun q => q.ID == (passenger.inserted env).ID) <;>
                simp only [hd, if_true, if_false, Bool.false_eq_true] at h ⊢
              · cases hk : env.fails .commit <;>
                  simp only [hk, if_true, if_false, Bool.false_eq_true] at h ⊢
                · refine ⟨ride, rfl, not_lt.mp hcap, ?_, rfl⟩
                  intro q hq
                  have := List.any_eq_false.mp hd q hq
                  simpa using this
                · simp at h
              · simp at h
            · simp at h
          · simp at h
    · simp at h
  · simp at h

/-- What a successful `RemovePassenger` did. -/
theorem RideRepository.RemovePassenger_ok {m : IntMode} {env : Env} {db : Store}
    {passengerID : Nat} (h : (RemovePassenger m env db passengerID).1 = none) :
    ∃ passenger ride, db.findPassenger passengerID = some passenger ∧
      db.findRide passenger.RideID = some ride ∧
      (RemovePassenger m env db passengerID).2 = { db with
        rides := setSeatsBooked env.now ride.ID
          (m.sub ride.SeatsBooked passenger.Seats) db.rides
        passengers := db.passengers.filter (fun q => q.ID != passenger.ID) } := by
  rw [RemovePassenger_eq] at h ⊢
  cases hb : env.fails .begin <;> simp only [hb, if_true, if_false, Bool.false_eq_true] at h ⊢
  · cases hf : env.fails .firstPassenger <;>
      simp only [hf, if_true, if_false, Bool.false_eq_true] at h ⊢
    · cases hp : db.findPassenger passengerID with
      | none => simp [hp] at h
      | some passenger =>
        simp only [hp] at h ⊢
        cases hf2 : env.fails .firstRide <;>
          simp only [hf2, if_true, if_false, Bool.false_eq_true] at h ⊢
        · cases hr : db.findRide passenger.RideID with
          | none => simp [hr] at h
          | some ride =>
            simp only [hr] at h ⊢
            cases hu : env.fails .updateSeatsBooked <;>
              simp only [hu, if_true, if_false, Bool.false_eq_true] at h ⊢
            · cases hc : env.fails .deletePassenger <;>
                simp only [hc, if_true, if_false, Bool.false_eq_true] at h ⊢
              · cases hk : env.fails .commit <;>
                  simp only [hk, if_true, if_false, Bool.false_eq_true] at h ⊢
                · exact ⟨passenger, ride, rfl, hr, rfl⟩
                · simp at h
              · simp at h
            · simp at h
        · simp at h
    · simp at h
  · simp at h

/-- A failed `AddPassenger` hands back the store it started from. -/
theorem RideRepository.AddPassenger_error {m : IntMode} {env : Env} {db : Store}
    {passenger : RidePassenger} {e : Error}
    (h : (AddPassenger m env db passenger).1 = some e) :
    (AddPassenger m env db passenger).2 = db := by
  revert h
  rw [AddPassenger_eq]
  repeat' split
  all_goals simp

/-- A failed `RemovePassenger` hands back the store it started from. -/
theorem RideRepository.RemovePassenger_error {m : IntMode} {env : Env} {db : Store}
    {passengerID : Nat} {e : Error}
    (h : (RemovePassenger m env db passengerID).1 = some e) :
    (RemovePassenger m env db passengerID).2 = db := by
  revert h
  rw [RemovePassenger_eq]
  repeat' split
  all_goals simp

/-- After a successful `RemovePassenger` no record has the key. -/
theorem RideRepository.RemovePassenger_ok_absent {m : IntMode} {env : Env} {db : Store}
    {passengerID : Nat} (h : (RemovePassenger m env db passengerID).1 = none) :
    (RemovePassenger m env db passengerID).2.findPassenger passengerID = none := by
  obtain ⟨passenger, ride, hp, _, hdb⟩ := RemovePassenger_ok h
  have hid : passenger.ID = passengerID := (Store.findPassenger_some hp).2
  rw [hdb, ← hid]
  exact find_filter_ne _ _

/-- A `RemovePassenger` of a key that has no record fails. -/
theorem RideRepository.RemovePassenger_absent {m : IntMode} {env : Env} {db : Store}
    {passengerID : Nat} (h : db.findPassenger passengerID = none) :
    ∃ e, RemovePassenger m env db passengerID = (some e, db) := by
  rw [RemovePassenger_eq]
  simp only [h]
  repeat' split
  all_goals simp

/-! ### C1, C2: the capacity check of `AddPassenger` -/

/-- Claim C1 fails on the code for Go's 64-bit `int`.  When the ride of the passenger
exists (and the database answers the lookup), `AddPassenger` returns the error "not
enough seats available" exactly when Go's sum `ride.SeatsBooked+passenger.Seats` is
greater than `ride.SeatsAvailable`, and with that error the store is the one before the
call.  As long as `seats_booked + seats` is a value of `int` (always, for unbounded
integers) that is the claim's `seats_booked + seats > seats_available`.  When the sum of
the counter and `seats >= 1` is larger than every `int`, it exceeds `seats_available`
and yet, on a ride whose `seats_available` is not negative, the call does not fail with
that error: the sum has wrapped to a negative number. -/
theorem AddPassenger_notEnoughSeats_iff (m : IntMode) (env : Env) (db : Store)
    (passenger : RidePassenger) (ride : Ride)
    (hride : db.findRide passenger.RideID = some ride)
    (hbegin : env.fails .begin = false) (hfirst : env.fails .firstRide = false)
    (hb : m.InRange ride.SeatsBooked) (hs : m.InRange passenger.Seats)
    (ha : m.InRange ride.SeatsAvailable) :
    ((RideRepository.AddPassenger m env db passenger).1 = some .notEnoughSeats ↔
        m.add ride.SeatsBooked passenger.Seats > ride.SeatsAvailable) ∧
    (m.InRange (ride.SeatsBooked + passenger.Seats) →
      ((RideRepository.AddPassenger m env db passenger).1 = some .notEnoughSeats ↔
        ride.SeatsBooked + passenger.Seats > ride.SeatsAvailable)) ∧
    (¬ m.InRange (ride.SeatsBooked + passenger.Seats) → 1 ≤ passenger.Seats →
      0 ≤ ride.SeatsAvailable →
      ride.SeatsBooked + passenger.Seats > ride.SeatsAvailable ∧
      (RideRepository.AddPassenger m env db passenger).1 ≠ some .notEnoughSeats) ∧
    ((RideRepository.AddPassenger m env db passenger).1 = some .notEnoughSeats →
        (RideRepository.AddPassenger m env db passenger).2 = db) := by
  have hiff : (RideRepository.AddPassenger m env db passenger).1 = some .notEnoughSeats ↔
      m.add ride.SeatsBooked passenger.Seats > ride.SeatsAvailable := by
    rw [RideRepository.AddPassenger_eq]
    simp only [hbegin, hfirst, hride]
    by_cases hcap : m.add ride.SeatsBooked passenger.Seats > ride.SeatsAvailable
    · simp [hcap]
    · simp only [hcap, if_false]
      repeat' split
      all_goals simp
  refine ⟨hiff, ?_, ?_, fun h => RideRepository.AddPassenger_error h⟩
  · intro hin
    rw [hiff, IntMode.add, IntMode.norm_of_inRange m _ hin]
  · intro hout hs1 ha0
    cases m with
    | unbounded => exact absurd trivial hout
    | int64 =>
      simp only [IntMode.InRange] at hb hs ha hout
      have hbig : 9223372036854775808 ≤ ride.SeatsBooked + passenger.Seats := by omega
      refine ⟨by omega, ?_⟩
      intro herr
      have hgt := hiff.mp herr
      simp only [IntMode.add, IntMode.norm, wrapInt64] at hgt
      omega

/-- Claim C1, witness:
with 64-bit integers, on a ride with one of two seats booked a join for `2^63 - 1`
seats has `seats_booked + seats = 2^63 > 2` and is not refused: `AddPassenger` returns
`nil`.  On a ride of two seats, both booked, a join for one more seat fails with "not
enough seats available" and changes nothing. -/
theorem AddPassenger_notEnoughSeats_iff_witness :
    Example.halfStore.findRide (Example.joining 1 Example.maxSeats).RideID =
      some (Example.ride 1 2 1) ∧
    (Example.ride 1 2 1).SeatsBooked + (Example.joining 1 Example.maxSeats).Seats >
      (Example.ride 1 2 1).SeatsAvailable ∧
    (RideRepository.AddPassenger .int64 (Example.env 200 2) Example.halfStore
        (Example.joining 1 Example.maxSeats)).1 ≠ some .notEnoughSeats ∧
    (RideRepository.AddPassenger .int64 (Example.env 200 2) Example.halfStore
        (Example.joining 1 Example.maxSeats)).1 = none ∧
    (RideRepository.AddPassenger .int64 (Example.env 200 2) Example.fullStore
        (Example.joining 1 1)).1 = some .notEnoughSeats ∧
    (RideRepository.AddPassenger .int64 (Example.env 200 2) Example.fullStore
        (Example.joining 1 1)).2 = Example.fullStore :=
  have h := AddPassenger_notEnoughSeats_iff .int64 (Example.env 200 2) Example.halfStore
    (Example.joining 1 Example.maxSeats) (Example.ride 1 2 1) (by decide) (by decide)
    (by decide) (by decide) (by decide) (by decide)
  have h2 := AddPassenger_notEnoughSeats_iff .int64 (Example.env 200 2) Example.fullStore
    (Example.joining 1 1) (Example.ride 1 2 2) (by decide) (by decide) (by decide)
    (by decide) (by decide) (by decide)
  ⟨by decide, (h.2.2.1 (by decide) (by decide) (by decide)).1,
    (h.2.2.1 (by decide) (by decide) (by decide)).2, by decide,
    (h2.2.1 (by decide)).mpr (by decide), h2.2.2.2 ((h2.2.1 (by decide)).mpr (by decide))⟩

/-- Claim C2: when the ride exists, Go's sum `ride.SeatsBooked+passenger.Seats` is at most
`ride.SeatsAvailable`, the database refuses no statement and the identifier of the new
row is not taken, `AddPassenger` returns no error; afterwards the ride has the sum as
`seats_booked` (and the time of the call as `updated_at`), the passenger table has
exactly one more row, with the given ride, user and seats, and the other rides, the
other passenger rows, the users and the ratings are as before. -/
theorem AddPassenger_success (m : IntMode) (env : Env) (db : Store)
    (passenger : RidePassenger) (ride : Ride)
    (hride : db.findRide passenger.RideID = some ride)
    (hcap : m.add ride.SeatsBooked passenger.Seats ≤ ride.SeatsAvailable)
    (hok : ∀ op, env.fails op = false)
    (hfresh : ∀ q ∈ db.passengers, q.ID ≠ (passenger.inserted env).ID) :
    (RideRepository.AddPassenger m env db passenger).1 = none ∧
    (RideRepository.AddPassenger m env db passenger).2.findRide passenger.RideID =
      some { ride with
        SeatsBooked := m.add ride.SeatsBooked passenger.Seats, UpdatedAt := env.now } ∧
    (RideRepository.AddPassenger m env db passenger).2.passengers =
      db.passengers ++ [passenger.inserted env] ∧
    ((passenger.inserted env).RideID = passenger.RideID ∧
      (passenger.inserted env).UserID = passenger.UserID ∧
      (passenger.inserted env).Seats = passenger.Seats) ∧
    (RideRepository.AddPassenger m env db passenger).2.rides.map (fun r => r.ID) =
      db.rides.map (fun r => r.ID) ∧
    (RideRepository.AddPassenger m env db passenger).2.rides.filter
        (fun r => r.ID != passenger.RideID) =
      db.rides.filter (fun r => r.ID != passenger.RideID) ∧
    (RideRepository.AddPassenger m env db passenger).2.users = db.users ∧
    (RideRepository.AddPassenger m env db passenger).2.ratings = db.ratings := by
  have hid : ride.ID = passenger.RideID := (Store.findRide_some hride).2
  have hdup : db.passengers.any (fun q => q.ID == (passenger.inserted env).ID) = false := by
    rw [List.any_eq_false]
    intro q hq
    simpa using hfresh q hq
  have h : RideRepository.AddPassenger m env db passenger = (none, { db with
      rides := setSeatsBooked env.now ride.ID (m.add ride.SeatsBooked passenger.Seats) db.rides
      passengers := db.passengers ++ [passenger.inserted env] }) := by
    rw [RideRepository.AddPassenger_eq]
    simp only [hok, hride, hdup, not_lt.mpr hcap, gt_iff_lt, if_false, Bool.false_eq_true]
  rw [h]
  refine ⟨rfl, ?_, rfl, ⟨rfl, rfl, rfl⟩, ?_, ?_, rfl, rfl⟩
  · show List.find? _ (setSeatsBooked _ _ _ _) = _
    rw [setSeatsBooked_find]
    have : db.rides.find? (fun r => r.ID == passenger.RideID) = some ride := hride
    rw [this, Option.map_some', Ride.setSeatsBooked_of_eq _ _ _ _ rfl]
  · exact setSeatsBooked_map_ID _ _ _ _
  · rw [hid]; exact setSeatsBooked_filter_ne _ _ _ _

/-- Claim C2, witness:
the scenario of the specification: on a ride of two free seats a join for two seats
succeeds, the counter becomes 2 and the passenger table holds the new record. -/
theorem AddPassenger_success_witness :
    Example.freeStore.findRide (Example.joining 1 2).RideID = some (Example.ride 1 2 0) ∧
    IntMode.unbounded.add (Example.ride 1 2 0).SeatsBooked (Example.joining 1 2).Seats ≤
      (Example.ride 1 2 0).SeatsAvailable ∧
    (RideRepository.AddPassenger .unbounded (Example.env 200 5) Example.freeStore
        (Example.joining 1 2)).1 = none ∧
    (RideRepository.AddPassenger .unbounded (Example.env 200 5) Example.freeStore
        (Example.joining 1 2)).2.findRide 1 =
      some { Example.ride 1 2 0 with SeatsBooked := 2, UpdatedAt := 200 } ∧
    (RideRepository.AddPassenger .unbounded (Example.env 200 5) Example.freeStore
        (Example.joining 1 2)).2.passengers =
      [{ ID := 5, RideID := 1, UserID := 9, Seats := 2, Status := RideStatusPending,
         CreatedAt := 200, UpdatedAt := 200 }] :=
  have h := AddPassenger_success .unbounded (Example.env 200 5) Example.freeStore
    (Example.joining 1 2) (Example.ride 1 2 0) (by decide) (by decide) (fun _ => rfl)
    (by decide)
  ⟨by decide, by decide, h.1, h.2.1, h.2.2.1⟩

/-! ### What the sequential calls keep true -/

theorem seatsReserved_nil (id : Nat) : seatsReserved [] id = 0 := rfl

theorem seatsReserved_cons (p : RidePassenger) (ps : List RidePassenger) (id : Nat) :
    seatsReserved (p :: ps) id =
      (if p.RideID = id then p.Seats else 0) + seatsReserved ps id := by
  unfold seatsReserved
  by_cases h : p.RideID = id <;> simp [List.filter_cons, h]

theorem seatsReserved_append (ps qs : List RidePassenger) (id : Nat) :
    seatsReserved (ps ++ qs) id = seatsReserved ps id + seatsReserved qs id := by
  unfold seatsReserved
  simp [List.filter_append, List.map_append, List.sum_append]

theorem seatsReserved_nonneg (ps : List RidePassenger) (id : Nat)
    (h : ∀ p ∈ ps, 1 ≤ p.Seats) : 0 ≤ seatsReserved ps id := by
  induction ps with
  | nil => simp [seatsReserved_nil]
  | cons p ps ih =>
    rw [seatsReserved_cons]
    have hp := h p (List.mem_cons_self _ _)
    have := ih (fun q hq => h q (List.mem_cons_of_mem _ hq))
    split <;> omega

/-- Deleting the record `p` of a table with unique keys takes its seats off its ride
and off no other. -/
theorem seatsReserved_delete (ps : List RidePassenger) (p : RidePassenger) (id : Nat)
    (hkeys : (ps.map (fun q => q.ID)).Nodup) (hp : p ∈ ps) :
    seatsReserved (ps.filter (fun q => q.ID != p.ID)) id =
      seatsReserved ps id - (if p.RideID = id then p.Seats else 0) := by
  induction ps with
  | nil => simp at hp
  | cons q qs ih =>
    rw [List.map_cons, List.nodup_cons] at hkeys
    rw [seatsReserved_cons]
    by_cases hq : q.ID = p.ID
    · -- `q` is the record, the rest has no row with this key
      have hqp : q = p := by
        rcases List.mem_cons.mp hp with h | h
        · exact h.symm
        · exact absurd (hq ▸ List.mem_map_of_mem (fun q => q.ID) h) hkeys.1
      have hrest : qs.filter (fun q => q.ID != p.ID) = qs := by
        rw [List.filter_eq_self]
        intro r hr
        have : r.ID ≠ q.ID := fun e => hkeys.1 (e ▸ List.mem_map_of_mem (fun q => q.ID) hr)
        simpa [← hq] using this
      rw [List.filter_cons_of_neg (by simp [hq]), hrest, hqp]
      omega
    · have hmem : p ∈ qs := by
        rcases List.mem_cons.mp hp with h | h
        · exact absurd (h ▸ rfl) hq
        · exact h
      rw [List.filter_cons_of_pos (by simpa using hq), seatsReserved_cons, ih hkeys.2 hmem]
      omega

theorem Store.Consistent.empty : Store.empty.Consistent :=
  { rideKeys := List.nodup_nil
    passengerKeys := List.nodup_nil
    seatsPos := fun _ h => by simp [Store.empty] at h
    owner := fun _ h => by simp [Store.empty] at h
    counter := fun _ h => by simp [Store.empty] at h }

/-- A join that reserves at least one seat keeps the store consistent. -/
theorem Store.Consistent.AddPassenger {db : Store} (hc : db.Consistent) (env : Env)
    (passenger : RidePassenger) (hseats : 1 ≤ passenger.Seats) :
    (RideRepository.AddPassenger .unbounded env db passenger).2.Consistent := by
  cases hres : (RideRepository.AddPassenger .unbounded env db passenger).1 with
  | some e =>
    rw [RideRepository.AddPassenger_error hres]; exact hc
  | none =>
    obtain ⟨ride, hride, _, hfresh, hdb⟩ := RideRepository.AddPassenger_ok hres
    have hmem := (Store.findRide_some hride).1
    have hid := (Store.findRide_some hride).2
    rw [hdb]
    refine ⟨?_, ?_, ?_, ?_, ?_⟩
    · show (List.map _ (setSeatsBooked _ _ _ _)).Nodup
      rw [setSeatsBooked_map_ID]; exact hc.rideKeys
    · show (List.map _ (db.passengers ++ [passenger.inserted env])).Nodup
      rw [List.map_append, List.nodup_append]
      refine ⟨hc.passengerKeys, by simp, ?_⟩
      intro a ha hb
      simp only [List.map_cons, List.map_nil, List.mem_singleton] at hb
      obtain ⟨q, hq, e⟩ := List.mem_map.mp ha
      exact hfresh q hq (e.trans hb)
    · intro p hp
      rcases List.mem_append.mp hp with h | h
      · exact hc.seatsPos p h
      · rw [List.mem_singleton.mp h]; exact hseats
    · intro p hp
      have key : ∀ r ∈ db.rides, ∃ r1 ∈ setSeatsBooked env.now ride.ID
          (IntMode.unbounded.add ride.SeatsBooked passenger.Seats) db.rides, r1.ID = r.ID := by
        intro r hr
        exact ⟨r.setSeatsBooked _ _ _, List.mem_map_of_mem _ hr, Ride.setSeatsBooked_ID _ _ _ _⟩
      rcases List.mem_append.mp hp with h | h
      · obtain ⟨r, hr, e⟩ := hc.owner p h
        obtain ⟨r1, hr1, e1⟩ := key r hr
        exact ⟨r1, hr1, e1.trans e⟩
      · obtain ⟨r1, hr1, e1⟩ := key ride hmem
        rw [List.mem_singleton.mp h]
        exact ⟨r1, hr1, e1.trans hid⟩
    · intro r hr
      obtain ⟨r0, hr0, e⟩ := mem_setSeatsBooked hr
      show r.SeatsBooked = seatsReserved (db.passengers ++ [passenger.inserted env]) r.ID
      rw [seatsReserved_append, seatsReserved_cons, seatsReserved_nil, e,
        Ride.setSeatsBooked_ID]
      have hins : (passenger.inserted env).RideID = passenger.RideID := rfl
      have hs : (passenger.inserted env).Seats = passenger.Seats := rfl
      rw [hins, hs]
      by_cases h : r0.ID = ride.ID
      · rw [Ride.setSeatsBooked_SeatsBooked _ _ _ _ h, if_pos (hid.symm.trans h.symm),
          IntMode.add_unbounded, hc.counter ride hmem, h]
        omega
      · rw [Ride.setSeatsBooked_of_ne _ _ _ _ h, if_neg (fun e => h (e.symm.trans hid.symm)),
          hc.counter r0 hr0]
        omega

/-- A leave keeps the store consistent. -/
theorem Store.Consistent.RemovePassenger {db : Store} (hc : db.Consistent) (env : Env)
    (passengerID : Nat) :
    (RideRepository.RemovePassenger .unbounded env db passengerID).2.Consistent := by
  cases hres : (RideRepository.RemovePassenger .unbounded env db passengerID).1 with
  | some e =>
    rw [RideRepository.RemovePassenger_error hres]; exact hc
  | none =>
    obtain ⟨passenger, ride, hp, hride, hdb⟩ := RideRepository.RemovePassenger_ok hres
    have hmem := (Store.findRide_some hride).1
    have hid := (Store.findRide_some hride).2
    have hpmem := (Store.findPassenger_some hp).1
    rw [hdb]
    refine ⟨?_, ?_, ?_, ?_, ?_⟩
    · show (List.map _ (setSeatsBooked _ _ _ _)).Nodup
      rw [setSeatsBooked_map_ID]; exact hc.rideKeys
    · show (List.map _ (List.filter _ db.passengers)).Nodup
      exact (List.Nodup.sublist ((List.filter_sublist _).map _) hc.passengerKeys)
    · intro p hp
      exact hc.seatsPos p (List.mem_filter.mp hp).1
    · intro p hp
      obtain ⟨r, hr, e⟩ := hc.owner p (List.mem_filter.mp hp).1
      exact ⟨r.setSeatsBooked _ _ _, List.mem_map_of_mem _ hr,
        (Ride.setSeatsBooked_ID _ _ _ _).trans e⟩
    · intro r hr
      obtain ⟨r0, hr0, e⟩ := mem_setSeatsBooked hr
      show r.SeatsBooked =
        seatsReserved (db.passengers.filter (fun q => q.ID != passenger.ID)) r.ID
      rw [seatsReserved_delete _ _ _ hc.passengerKeys hpmem, e, Ride.setSeatsBooked_ID]
      by_cases h : r0.ID = ride.ID
      · rw [Ride.setSeatsBooked_SeatsBooked _ _ _ _ h, if_pos (hid.symm.trans h.symm),
          IntMode.sub_unbounded, hc.counter ride hmem, h]
      · rw [Ride.setSeatsBooked_of_ne _ _ _ _ h, if_neg (fun e => h (e.symm.trans hid.symm)),
          hc.counter r0 hr0]
        omega

/-- Creating a ride whose counter is zero keeps the store consistent. -/
theorem Store.Consistent.CreateRide {db : Store} (hc : db.Consistent) (env : Env)
    (ride : Ride) (hzero : ride.SeatsBooked = 0) :
    (RideRepository.CreateRide env db ride).2.Consistent := by
  unfold RideRepository.CreateRide
  split
  · exact hc
  · split
    · exact hc
    · rename_i hdup
      have hfresh : ∀ r ∈ db.rides, r.ID ≠ (ride.inserted env).ID := by
        simpa using hdup
      refine ⟨?_, hc.passengerKeys, hc.seatsPos, ?_, ?_⟩
      · show (List.map _ (db.rides ++ [ride.inserted env])).Nodup
        rw [List.map_append, List.nodup_append]
        refine ⟨hc.rideKeys, by simp, ?_⟩
        intro a ha hb
        simp only [List.map_cons, List.map_nil, List.mem_singleton] at hb
        obtain ⟨q, hq, e⟩ := List.mem_map.mp ha
        exact hfresh q hq (e.trans hb)
      · intro p hp
        obtain ⟨r, hr, e⟩ := hc.owner p hp
        exact ⟨r, List.mem_append_left _ hr, e⟩
      · intro r hr
        rcases List.mem_append.mp hr with h | h
        · exact hc.counter r h
        · rw [List.mem_singleton.mp h]
          -- no record refers to the new key
          have hnone : seatsReserved db.passengers (ride.inserted env).ID = 0 := by
            unfold seatsReserved
            have : db.passengers.filter (fun p => p.RideID == (ride.inserted env).ID) = [] := by
              rw [List.filter_eq_nil_iff]
              intro p hp
              obtain ⟨r0, hr0, e⟩ := hc.owner p hp
              have := hfresh r0 hr0
              simpa [← e] using this
            rw [this]; rfl
          show (ride.inserted env).SeatsBooked = seatsReserved db.passengers _
          rw [hnone]
          exact hzero

/-- What `UPDATE rides SET status = s, updated_at = now WHERE id = id` keeps of a row. -/
theorem Store.Consistent.UpdateRideStatus {db : Store} (hc : db.Consistent) (env : Env)
    (rideID : Nat) (status : RideStatus) :
    (RideRepository.UpdateRideStatus env db rideID status).2.Consistent := by
  unfold RideRepository.UpdateRideStatus
  split
  · exact hc
  · have hID : ∀ r : Ride, (if r.ID = rideID then
        { r with Status := status, UpdatedAt := env.now } else r).ID = r.ID := by
      intro r; split <;> rfl
    have hSB : ∀ r : Ride, (if r.ID = rideID then
        { r with Status := status, UpdatedAt := env.now } else r).SeatsBooked = r.SeatsBooked := by
      intro r; split <;> rfl
    refine ⟨?_, hc.passengerKeys, hc.seatsPos, ?_, ?_⟩
    · show (List.map _ (List.map _ db.rides)).Nodup
      rw [List.map_map]
      have : ((fun r : Ride => r.ID) ∘ fun r => if r.ID = rideID then
          { r with Status := status, UpdatedAt := env.now } else r) = fun r => r.ID := by
        funext r; exact hID r
      rw [this]; exact hc.rideKeys
    · intro p hp
      obtain ⟨r, hr, e⟩ := hc.owner p hp
      exact ⟨_, List.mem_map_of_mem _ hr, (hID r).trans e⟩
    · intro r hr
      obtain ⟨r0, hr0, e⟩ := List.mem_map.mp hr
      show r.SeatsBooked = seatsReserved db.passengers r.ID
      rw [← e, hID, hSB]
      exact hc.counter r0 hr0

theorem handlers.JoinRide_store (m : IntMode) (env : Env) (db : Store) (id : String)
    (userID : Option Nat) (body : Option JoinRideRequest) :
    (JoinRide m env db id userID body).2 = db ∨
    ∃ passenger : RidePassenger, 1 ≤ passenger.Seats ∧
      (JoinRide m env db id userID body).2 =
        (RideRepository.AddPassenger m env db passenger).2 := by
  unfold JoinRide
  cases ParseUint32 id with
  | none => exact Or.inl rfl
  | some rideID =>
    cases userID with
    | none => exact Or.inl rfl
    | some uid =>
      cases body with
      | none => exact Or.inl rfl
      | some req =>
        by_cases hv : req.valid = true
        · right
          refine ⟨newPassenger rideID uid req, ?_, ?_⟩
          · simp only [JoinRideRequest.valid, Bool.and_eq_true, decide_eq_true_eq] at hv
            exact hv.2
          · simp only [hv, Bool.not_true, Bool.false_eq_true, if_false]
            split <;> simp_all
        · left
          simp [hv]

theorem handlers.LeaveRide_store (m : IntMode) (env : Env) (db : Store) (passengerId : String) :
    (LeaveRide m env db passengerId).2 = db ∨
    ∃ passengerID : Nat, (LeaveRide m env db passengerId).2 =
        (RideRepository.RemovePassenger m env db passengerID).2 := by
  unfold LeaveRide
  cases ParseUint32 passengerId with
  | none => exact Or.inl rfl
  | some passengerID =>
    right
    refine ⟨passengerID, ?_⟩
    simp only []
    split <;> simp_all

theorem handlers.LeaveRide_ok {m : IntMode} {env : Env} {db : Store} {passengerId : String}
    (h : (LeaveRide m env db passengerId).1.status = StatusOK) :
    ∃ passengerID, ParseUint32 passengerId = some passengerID ∧
      (RideRepository.RemovePassenger m env db passengerID).1 = none ∧
      (LeaveRide m env db passengerId).2 =
        (RideRepository.RemovePassenger m env db passengerID).2 := by
  unfold LeaveRide at h ⊢
  cases hp : ParseUint32 passengerId with
  | none => simp [hp, StatusOK, StatusBadRequest] at h
  | some passengerID =>
    simp only [hp] at h ⊢
    refine ⟨passengerID, rfl, ?_⟩
    cases hr : RideRepository.RemovePassenger m env db passengerID with
    | mk err db1 =>
      cases err with
      | none => simp
      | some e => simp [hr, StatusOK, StatusInternalServerError] at h

theorem handlers.CreateRide_store (env : Env) (db : Store) (body : Option CreateRideRequest)
    (userID : Option Nat) :
    (CreateRide env db body userID).2 = db ∨
    ∃ req uid, body = some req ∧ (CreateRide env db body userID).2 =
        (RideRepository.CreateRide env db (newRide req uid)).2 := by
  unfold CreateRide
  cases body with
  | none => exact Or.inl rfl
  | some req =>
    by_cases hv : req.valid = true
    · cases userID with
      | none => left; simp [hv]
      | some uid =>
        right
        refine ⟨req, uid, rfl, ?_⟩
        simp only [hv, Bool.not_true, Bool.false_eq_true, if_false]
        split <;> simp_all
    · left
      simp [hv]

theorem handlers.UpdateRideStatus_store (env : Env) (db : Store) (id : String)
    (body : Option String) :
    (UpdateRideStatus env db id body).2 = db ∨
    ∃ rideID status, (UpdateRideStatus env db id body).2 =
        (RideRepository.UpdateRideStatus env db rideID status).2 := by
  unfold UpdateRideStatus
  cases ParseUint32 id with
  | none => exact Or.inl rfl
  | some rideID =>
    cases body with
    | none => exact Or.inl rfl
    | some status =>
      by_cases hv : statusValid status = true
      · right
        refine ⟨rideID, status, ?_⟩
        simp only [hv, Bool.not_true, Bool.false_eq_true, if_false]
        split <;> simp_all
      · left
        simp [hv]

theorem handlers.newRide_SeatsBooked (req : CreateRideRequest) (uid : Nat) :
    (newRide req uid).SeatsBooked = 0 := by
  unfold newRide
  simp only []
  split <;> rfl

theorem handlers.newRide_SeatsAvailable (req : CreateRideRequest) (uid : Nat) :
    (newRide req uid).SeatsAvailable =
      if req.RideType = RideTypeShared then req.SeatsAvailable else 0 := by
  unfold newRide
  simp only []
  split <;> rfl

/-- Every call keeps the store consistent. -/
theorem Store.Consistent.run_call {db : Store} (hc : db.Consistent) (env : Env) (c : Call) :
    (c.run .unbounded env db).2.Consistent := by
  cases c with
  | createRide body userID =>
    simp only [Call.run]
    rcases handlers.CreateRide_store env db body userID with h | ⟨req, uid, _, h⟩
    · rw [h]; exact hc
    · rw [h]; exact hc.CreateRide env _ (handlers.newRide_SeatsBooked req uid)
  | joinRide id userID body =>
    simp only [Call.run]
    rcases handlers.JoinRide_store .unbounded env db id userID body with h | ⟨p, hp, h⟩
    · rw [h]; exact hc
    · rw [h]; exact hc.AddPassenger env p hp
  | leaveRide passengerId =>
    simp only [Call.run]
    rcases handlers.LeaveRide_store .unbounded env db passengerId with h | ⟨pid, h⟩
    · rw [h]; exact hc
    · rw [h]; exact hc.RemovePassenger env pid
  | updateStatus id body =>
    simp only [Call.run]
    rcases handlers.UpdateRideStatus_store env db id body with h | ⟨rideID, status, h⟩
    · rw [h]; exact hc
    · rw [h]; exact hc.UpdateRideStatus env rideID status

/-- Calls made one after the other keep the store consistent. -/
theorem Store.Consistent.runCalls (calls : List (Env × Call)) {db : Store}
    (hc : db.Consistent) : (RidesApp.runCalls .unbounded db calls).Consistent := by
  induction calls generalizing db with
  | nil => exact hc
  | cons ec rest ih => exact ih (hc.run_call ec.1 ec.2)

/-- In a consistent store no counter is negative. -/
theorem Store.Consistent.seatsBooked_nonneg {db : Store} (hc : db.Consistent) :
    ∀ r ∈ db.rides, 0 ≤ r.SeatsBooked := by
  intro r hr
  rw [hc.counter r hr]
  exact seatsReserved_nonneg _ _ hc.seatsPos

/-- A join keeps every counter within the capacity of its ride. -/
theorem Store.Consistent.AddPassenger_le {db : Store} (hc : db.Consistent)
    (hle : ∀ r ∈ db.rides, r.SeatsBooked ≤ r.SeatsAvailable) (env : Env)
    (passenger : RidePassenger) :
    ∀ r ∈ (RideRepository.AddPassenger .unbounded env db passenger).2.rides,
      r.SeatsBooked ≤ r.SeatsAvailable := by
  cases hres : (RideRepository.AddPassenger .unbounded env db passenger).1 with
  | some e =>
    rw [RideRepository.AddPassenger_error hres]; exact hle
  | none =>
    obtain ⟨ride, hride, hcap, _, hdb⟩ := RideRepository.AddPassenger_ok hres
    have hmem := (Store.findRide_some hride).1
    rw [hdb]
    intro r hr
    obtain ⟨r0, hr0, e⟩ := mem_setSeatsBooked hr
    by_cases h : r0.ID = ride.ID
    · have h0 : r0 = ride := ride_eq_of_ID hc.rideKeys hr0 hmem h
      rw [e, h0, Ride.setSeatsBooked_of_eq _ _ _ _ rfl]
      exact hcap
    · rw [e, Ride.setSeatsBooked_of_ne _ _ _ _ h]
      exact hle r0 hr0

/-- A leave keeps every counter within the capacity of its ride. -/
theorem Store.Consistent.RemovePassenger_le {db : Store} (hc : db.Consistent)
    (hle : ∀ r ∈ db.rides, r.SeatsBooked ≤ r.SeatsAvailable) (env : Env)
    (passengerID : Nat) :
    ∀ r ∈ (RideRepository.RemovePassenger .unbounded env db passengerID).2.rides,
      r.SeatsBooked ≤ r.SeatsAvailable := by
  cases hres : (RideRepository.RemovePassenger .unbounded env db passengerID).1 with
  | some e =>
    rw [RideRepository.RemovePassenger_error hres]; exact hle
  | none =>
    obtain ⟨passenger, ride, hp, hride, hdb⟩ := RideRepository.RemovePassenger_ok hres
    have hmem := (Store.findRide_some hride).1
    have hpos := hc.seatsPos passenger (Store.findPassenger_some hp).1
    rw [hdb]
    intro r hr
    obtain ⟨r0, hr0, e⟩ := mem_setSeatsBooked hr
    by_cases h : r0.ID = ride.ID
    · have h0 : r0 = ride := ride_eq_of_ID hc.rideKeys hr0 hmem h
      rw [e, h0, Ride.setSeatsBooked_of_eq _ _ _ _ rfl]
      show IntMode.unbounded.sub ride.SeatsBooked passenger.Seats ≤ ride.SeatsAvailable
      have := hle ride hmem
      rw [IntMode.sub_unbounded]
      omega
    · rw [e, Ride.setSeatsBooked_of_ne _ _ _ _ h]
      exact hle r0 hr0

theorem RideRepository.CreateRide_le {db : Store}
    (hle : ∀ r ∈ db.rides, r.SeatsBooked ≤ r.SeatsAvailable) (env : Env) (ride : Ride)
    (h : ride.SeatsBooked ≤ ride.SeatsAvailable) :
    ∀ r ∈ (CreateRide env db ride).2.rides, r.SeatsBooked ≤ r.SeatsAvailable := by
  unfold CreateRide
  split
  · exact hle
  · split
    · exact hle
    · intro r hr
      rcases List.mem_append.mp hr with h1 | h1
      · exact hle r h1
      · rw [List.mem_singleton.mp h1]
        exact h

theorem RideRepository.UpdateRideStatus_le {db : Store}
    (hle : ∀ r ∈ db.rides, r.SeatsBooked ≤ r.SeatsAvailable) (env : Env) (rideID : Nat)
    (status : RideStatus) :
    ∀ r ∈ (UpdateRideStatus env db rideID status).2.rides,
      r.SeatsBooked ≤ r.SeatsAvailable := by
  unfold UpdateRideStatus
  split
  · exact hle
  · intro r hr
    obtain ⟨r0, hr0, e⟩ := List.mem_map.mp hr
    have := hle r0 hr0
    rw [← e]
    split <;> exact this

/-- A call keeps every counter within the capacity of its ride, when a shared ride is
not created with a negative number of seats. -/
theorem Store.Consistent.run_le {db : Store} (hc : db.Consistent)
    (hle : ∀ r ∈ db.rides, r.SeatsBooked ≤ r.SeatsAvailable) (env : Env) (c : Call)
    (hnn : c.seatsNonneg) :
    ∀ r ∈ (c.run .unbounded env db).2.rides, r.SeatsBooked ≤ r.SeatsAvailable := by
  cases c with
  | createRide body userID =>
    simp only [Call.run]
    rcases handlers.CreateRide_store env db body userID with h | ⟨req, uid, hb, h⟩
    · rw [h]; exact hle
    · rw [h]
      apply RideRepository.CreateRide_le hle
      rw [handlers.newRide_SeatsBooked, handlers.newRide_SeatsAvailable]
      subst hb
      split
      · exact hnn (by assumption)
      · exact le_refl 0
  | joinRide id userID body =>
    simp only [Call.run]
    rcases handlers.JoinRide_store .unbounded env db id userID body with h | ⟨p, _, h⟩
    · rw [h]; exact hle
    · rw [h]; exact hc.AddPassenger_le hle env p
  | leaveRide passengerId =>
    simp only [Call.run]
    rcases handlers.LeaveRide_store .unbounded env db passengerId with h | ⟨pid, h⟩
    · rw [h]; exact hle
    · rw [h]; exact hc.RemovePassenger_le hle env pid
  | updateStatus id body =>
    simp only [Call.run]
    rcases handlers.UpdateRideStatus_store env db id body with h | ⟨rideID, status, h⟩
    · rw [h]; exact hle
    · rw [h]; exact RideRepository.UpdateRideStatus_le hle env rideID status

theorem Store.Consistent.runCalls_le (calls : List (Env × Call)) {db : Store}
    (hc : db.Consistent) (hle : ∀ r ∈ db.rides, r.SeatsBooked ≤ r.SeatsAvailable)
    (hnn : ∀ ec ∈ calls, ec.2.seatsNonneg) :
    ∀ r ∈ (RidesApp.runCalls .unbounded db calls).rides,
      r.SeatsBooked ≤ r.SeatsAvailable := by
  induction calls generalizing db with
  | nil => exact hle
  | cons ec rest ih =>
    exact ih (hc.run_call ec.1 ec.2)
      (hc.run_le hle ec.1 ec.2 (hnn ec (List.mem_cons_self _ _)))
      (fun x hx => hnn x (List.mem_cons_of_mem _ hx))

/-! ### C3: the capacity invariant -/

/-- Claim C3: with unbounded integers, after any calls of `CreateRide`, `JoinRide`,
`LeaveRide` and `UpdateRideStatus` served one after the other on the empty store, none
of which creates a shared ride with a negative `seats_available`, every ride has
`0 <= seats_booked <= seats_available`.  (`JoinRide` only passes on requests with
`seats >= 1`, its `binding` rule.) -/
theorem seats_within_capacity (calls : List (Env × Call))
    (hnn : ∀ ec ∈ calls, ec.2.seatsNonneg) :
    (runCalls .unbounded Store.empty calls).WithinCapacity := by
  intro r hr
  exact ⟨(Store.Consistent.empty.runCalls calls).seatsBooked_nonneg r hr,
    Store.Consistent.empty.runCalls_le calls (fun _ h => by simp [Store.empty] at h) hnn r hr⟩

/-- Claim C3, witness:
the scenario of the specification, with a refused join and a repeated leave, ends
with one seat booked of two. -/
theorem seats_within_capacity_witness :
    (∀ ec ∈ Example.scenario, ec.2.seatsNonneg) ∧
    (runCalls .unbounded Store.empty Example.scenario).rides.map
      (fun r => (r.SeatsBooked, r.SeatsAvailable)) = [(1, 2)] ∧
    (runCalls .unbounded Store.empty Example.scenario).WithinCapacity :=
  ⟨by decide, by decide, seats_within_capacity Example.scenario (by decide)⟩

/-! ### C4: joins that run at the same time -/

theorem Concurrent.step_single (m : IntMode) (db : Store) (c : JoinCall) :
    Concurrent.step m { db := db, calls := [c] } 0 =
      { db := (c.step m db).1, calls := [(c.step m db).2] } := rfl

/-- A call that runs its five statements with no other call in between does what
`AddPassenger` does: the concurrent model extends the sequential one. -/
theorem Concurrent.run_single (m : IntMode) (env : Env) (db : Store)
    (passenger : RidePassenger) :
    Concurrent.run m { db := db, calls := [{ env := env, passenger := passenger, pc := .start }] }
      [0, 0, 0, 0, 0] =
    { db := (RideRepository.AddPassenger m env db passenger).2
      calls := [{ env := env, passenger := passenger,
                  pc := .returned (RideRepository.AddPassenger m env db passenger).1 }] } := by
  rw [RideRepository.AddPassenger_eq]
  simp only [Concurrent.run, Concurrent.step_single]
  cases hb : env.fails .begin
  · cases hf : env.fails .firstRide
    · cases hr : db.findRide passenger.RideID with
      | none => simp [JoinCall.step, hb, hf, hr]
      | some ride =>
        by_cases hcap : ride.SeatsAvailable < m.add ride.SeatsBooked passenger.Seats
        · simp [JoinCall.step, hb, hf, hr, hcap]
        · cases hu : env.fails .updateSeatsBooked
          · cases hc : env.fails .createPassenger
            · by_cases hdup : ∃ x ∈ db.passengers,
                  x.ID = (RidePassenger.inserted env passenger).ID
              · simp [JoinCall.step, hb, hf, hr, hcap, hu, hc, hdup]
              · cases hk : env.fails .commit
                · simp [JoinCall.step, hb, hf, hr, hcap, hu, hc, hdup, hk]
                · simp [JoinCall.step, hb, hf, hr, hcap, hu, hc, hdup, hk]
            · simp [JoinCall.step, hb, hf, hr, hcap, hu, hc]
          · simp [JoinCall.step, hb, hf, hr, hcap, hu]
    · simp [JoinCall.step, hb, hf]
  · simp [JoinCall.step, hb]

/-- A statement of a call changes the rides by its commit only. -/
theorem JoinCall.step_rides (m : IntMode) (db : Store) (c : JoinCall) :
    (c.step m db).1.rides = db.rides ∨
    ∃ ride, c.pc = .inserted ride ∧
      (c.step m db).1.rides = setSeatsBooked c.env.now ride.ID
        (m.add ride.SeatsBooked c.passenger.Seats) db.rides := by
  unfold JoinCall.step
  cases hpc : c.pc with
  | start => left; simp only []; (repeat' split) <;> rfl
  | loaded ride => left; simp only []; (repeat' split) <;> rfl
  | checked ride => left; simp only []; (repeat' split) <;> rfl
  | updated ride => left; simp only []; (repeat' split) <;> rfl
  | inserted ride =>
    simp only []
    split
    · left; rfl
    · right; exact ⟨ride, rfl, rfl⟩
  | returned err => left; rfl

/-- The rides after a statement have the keys and the capacities they had. -/
theorem JoinCall.step_mem (m : IntMode) (db : Store) (c : JoinCall) :
    ∀ r1 ∈ (c.step m db).1.rides, ∃ r ∈ db.rides,
      r1.ID = r.ID ∧ r1.SeatsAvailable = r.SeatsAvailable := by
  intro r1 h1
  rcases JoinCall.step_rides m db c with h | ⟨ride, _, h⟩
  · rw [h] at h1; exact ⟨r1, h1, rfl, rfl⟩
  · rw [h] at h1
    obtain ⟨r0, hr0, e⟩ := mem_setSeatsBooked h1
    exact ⟨r0, hr0, by rw [e, Ride.setSeatsBooked_ID],
      by rw [e, Ride.setSeatsBooked_SeatsAvailable]⟩

theorem JoinCall.step_keys (m : IntMode) (db : Store) (c : JoinCall) :
    (c.step m db).1.rides.map (fun r => r.ID) = db.rides.map (fun r => r.ID) := by
  rcases JoinCall.step_rides m db c with h | ⟨ride, _, h⟩
  · rw [h]
  · rw [h, setSeatsBooked_map_ID]

/-- What another call knows stays true. -/
theorem JoinCall.Sound.other {m : IntMode} {db : Store} {c2 : JoinCall}
    (h2 : c2.Sound m db.rides) (c : JoinCall) : c2.Sound m (c.step m db).1.rides := by
  intro ride hride
  refine ⟨?_, (h2 ride hride).2⟩
  intro r1 h1 hid
  obtain ⟨r, hr, e1, e2⟩ := JoinCall.step_mem m db c r1 h1
  rw [e2]
  exact (h2 ride hride).1 r hr (e1.symm.trans hid)

/-- What the call that ran the statement knows is true after it. -/
theorem JoinCall.Sound.self {m : IntMode} {db : Store} {c : JoinCall}
    (hkeys : (db.rides.map (fun r => r.ID)).Nodup) (h : c.Sound m db.rides) :
    (c.step m db).2.Sound m (c.step m db).1.rides := by
  unfold JoinCall.Sound at h ⊢
  unfold JoinCall.step
  cases hpc : c.pc with
  | start =>
    simp only []
    split
    · intro ride hr; simp [JoinPc.ride?] at hr
    · split
      · intro ride hr; simp [JoinPc.ride?] at hr
      · split
        · intro ride hr; simp [JoinPc.ride?] at hr
        · rename_i ride0 hfind
          intro ride hr
          simp only [JoinPc.ride?, Option.some.injEq] at hr
          subst hr
          refine ⟨?_, by simp [JoinPc.passedCheck]⟩
          intro r hr hid
          rw [ride_eq_of_ID hkeys hr (Store.findRide_some hfind).1 hid]
  | loaded ride0 =>
    have h0 := h ride0 (by rw [hpc]; rfl)
    simp only []
    split
    · intro ride hr; simp [JoinPc.ride?] at hr
    · rename_i hcap
      intro ride hr
      simp only [JoinPc.ride?, Option.some.injEq] at hr
      subst hr
      exact ⟨h0.1, fun _ => not_lt.mp hcap⟩
  | checked ride0 =>
    have h0 := h ride0 (by rw [hpc]; rfl)
    simp only []
    split
    · intro ride hr; simp [JoinPc.ride?] at hr
    · intro ride hr
      simp only [JoinPc.ride?, Option.some.injEq] at hr
      subst hr
      exact ⟨h0.1, fun _ => h0.2 (by rw [hpc]; rfl)⟩
  | updated ride0 =>
    have h0 := h ride0 (by rw [hpc]; rfl)
    simp only []
    split
    · intro ride hr; simp [JoinPc.ride?] at hr
    · split
      · intro ride hr; simp [JoinPc.ride?] at hr
      · intro ride hr
        simp only [JoinPc.ride?, Option.some.injEq] at hr
        subst hr
        exact ⟨h0.1, fun _ => h0.2 (by rw [hpc]; rfl)⟩
  | inserted ride0 =>
    simp only []
    split
    · intro ride hr; simp [JoinPc.ride?] at hr
    · intro ride hr; simp [JoinPc.ride?] at hr
  | returned err =>
    simp only []
    intro ride hr; simp [JoinPc.ride?] at hr

/-- A statement keeps every counter within the capacity of its ride. -/
theorem JoinCall.step_le {m : IntMode} {db : Store} {c : JoinCall}
    (hle : ∀ r ∈ db.rides, r.SeatsBooked ≤ r.SeatsAvailable) (h : c.Sound m db.rides) :
    ∀ r ∈ (c.step m db).1.rides, r.SeatsBooked ≤ r.SeatsAvailable := by
  intro r1 h1
  rcases JoinCall.step_rides m db c with hr | ⟨ride, hpc, hr⟩
  · rw [hr] at h1; exact hle r1 h1
  · rw [hr] at h1
    obtain ⟨r0, hr0, e⟩ := mem_setSeatsBooked h1
    have h0 := h ride (by rw [hpc]; rfl)
    by_cases hid : r0.ID = ride.ID
    · rw [e, Ride.setSeatsBooked_SeatsBooked _ _ _ _ hid, Ride.setSeatsBooked_SeatsAvailable,
        h0.1 r0 hr0 hid]
      exact h0.2 (by rw [hpc]; rfl)
    · rw [e, Ride.setSeatsBooked_of_ne _ _ _ _ hid]
      exact hle r0 hr0

theorem Concurrent.Safe.step {m : IntMode} {s : Concurrent} (hs : s.Safe m) (i : Nat) :
    (s.step m i).Safe m := by
  unfold Concurrent.step
  cases hget : s.calls.get? i with
  | none => exact hs
  | some c =>
    have hc : c ∈ s.calls := List.get?_mem hget
    refine ⟨?_, ?_, ?_⟩
    · show ((c.step m s.db).1.rides.map _).Nodup
      rw [JoinCall.step_keys]; exact hs.keys
    · exact JoinCall.step_le hs.le (hs.sound c hc)
    · intro c2 h2
      rcases List.mem_or_eq_of_mem_set h2 with h | h
      · exact (hs.sound c2 h).other c
      · rw [h]; exact (hs.sound c hc).self hs.keys

theorem Concurrent.Safe.run_schedule {m : IntMode} (schedule : List Nat) {s : Concurrent}
    (hs : s.Safe m) : (Concurrent.run m s schedule).Safe m := by
  induction schedule generalizing s with
  | nil => exact hs
  | cons i rest ih => exact ih (hs.step i)

/-- Whatever the schedule, no commit of a join writes a counter above the capacity of
the ride: calls that start on a store whose counters are within capacity leave them
within capacity. -/
theorem Concurrent.schedule_le (m : IntMode) (s : Concurrent) (schedule : List Nat)
    (hkeys : (s.db.rides.map (fun r => r.ID)).Nodup)
    (hle : ∀ r ∈ s.db.rides, r.SeatsBooked ≤ r.SeatsAvailable)
    (hstart : ∀ c ∈ s.calls, c.pc = .start) :
    ∀ r ∈ (Concurrent.run m s schedule).db.rides, r.SeatsBooked ≤ r.SeatsAvailable := by
  have hs : s.Safe m :=
    { keys := hkeys, le := hle
      sound := fun c hc ride hr => by rw [hstart c hc] at hr; simp [JoinPc.ride?] at hr }
  exact (hs.run_schedule schedule).le

/-- Claim C4 fails on the code.  A call that runs alone does what `AddPassenger` does, and
whatever the schedule of calls that run at the same time, from a store whose counters
are within capacity the commits leave every `seats_booked` within `seats_available`:
the first half of the claim holds.  But two calls `JoinRide(seats=1)` on a ride with
`seats_available = 1` and `seats_booked = 0`, both past the lookup and the capacity
check before either commits, both return `nil`; the ride ends with `seats_booked = 1`
and two passenger records of one seat each, where the claim has one call fail with
"not enough seats available", as the second one does when they are served one after
the other. -/
theorem concurrent_joins_both_succeed :
    (∀ (m : IntMode) (env : Env) (db : Store) (passenger : RidePassenger),
      Concurrent.run m
        { db := db, calls := [{ env := env, passenger := passenger, pc := .start }] }
        [0, 0, 0, 0, 0] =
      { db := (RideRepository.AddPassenger m env db passenger).2
        calls := [{ env := env, passenger := passenger,
                    pc := .returned (RideRepository.AddPassenger m env db passenger).1 }] }) ∧
    (∀ (m : IntMode) (s : Concurrent) (schedule : List Nat),
      (s.db.rides.map (fun r => r.ID)).Nodup →
      (∀ r ∈ s.db.rides, r.SeatsBooked ≤ r.SeatsAvailable) →
      (∀ c ∈ s.calls, c.pc = .start) →
      ∀ r ∈ (Concurrent.run m s schedule).db.rides, r.SeatsBooked ≤ r.SeatsAvailable) ∧
    (Concurrent.run .int64 Example.race Example.raceSchedule).calls.map (fun c => c.pc) =
      [.returned none, .returned none] ∧
    (Concurrent.run .int64 Example.race Example.raceSchedule).db.rides.map
      (fun r => (r.ID, r.SeatsBooked, r.SeatsAvailable)) = [(1, 1, 1)] ∧
    (Concurrent.run .int64 Example.race Example.raceSchedule).db.passengers.map
      (fun p => (p.ID, p.RideID, p.Seats)) = [(1, 1, 1), (2, 1, 1)] ∧
    (Concurrent.run .int64 Example.race [0, 0, 0, 0, 0, 1, 1, 1, 1, 1]).calls.map
      (fun c => c.pc) = [.returned none, .returned (some .notEnoughSeats)] :=
  ⟨Concurrent.run_single, Concurrent.schedule_le, by decide, by decide, by decide, by decide⟩

/-- Claim C4, witness:
the two calls of the race start on a store within capacity, and the counter of the
ride is within capacity after their schedule, 1 of 1, with two passengers on board. -/
theorem concurrent_joins_both_succeed_witness :
    (Example.race.db.rides.map (fun r => r.ID)).Nodup ∧
    (∀ r ∈ Example.race.db.rides, r.SeatsBooked ≤ r.SeatsAvailable) ∧
    (∀ c ∈ Example.race.calls, c.pc = .start) ∧
    (∀ r ∈ (Concurrent.run .int64 Example.race Example.raceSchedule).db.rides,
      r.SeatsBooked ≤ r.SeatsAvailable) ∧
    (Concurrent.run .int64 Example.race Example.raceSchedule).db.passengers.length = 2 :=
  ⟨by decide, by decide, by decide,
    concurrent_joins_both_succeed.2.1 .int64 Example.race Example.raceSchedule
      (by decide) (by decide) (by decide),
    by decide⟩

/-! ### C5: join, then leave -/

/-- Claim C5: after a successful `AddPassenger`, a `RemovePassenger` of the record it
created (no statement refused) succeeds, the ride has the `seats_booked` it had before
the join, and the passenger table is the table before the join.  The counters of the
store are values an `int` can hold. -/
theorem join_then_leave_restores (m : IntMode) (env1 env2 : Env) (db : Store)
    (passenger : RidePassenger)
    (hjoin : (RideRepository.AddPassenger m env1 db passenger).1 = none)
    (hok : ∀ op, env2.fails op = false)
    (hrange : ∀ r ∈ db.rides, m.InRange r.SeatsBooked) :
    (RideRepository.RemovePassenger m env2
      (RideRepository.AddPassenger m env1 db passenger).2 (passenger.inserted env1).ID).1
        = none ∧
    ((RideRepository.RemovePassenger m env2
      (RideRepository.AddPassenger m env1 db passenger).2
        (passenger.inserted env1).ID).2.findRide passenger.RideID).map (fun r => r.SeatsBooked)
        = (db.findRide passenger.RideID).map (fun r => r.SeatsBooked) ∧
    (RideRepository.RemovePassenger m env2
      (RideRepository.AddPassenger m env1 db passenger).2
        (passenger.inserted env1).ID).2.passengers = db.passengers := by
  obtain ⟨ride, hride, _, hfresh, hdb1⟩ := RideRepository.AddPassenger_ok hjoin
  have hid : ride.ID = passenger.RideID := (Store.findRide_some hride).2
  have hp1 : (RideRepository.AddPassenger m env1 db passenger).2.findPassenger
      (passenger.inserted env1).ID = some (passenger.inserted env1) := by
    rw [hdb1]
    exact find_append_fresh _ _ hfresh
  have hr1 : (RideRepository.AddPassenger m env1 db passenger).2.findRide
      (passenger.inserted env1).RideID =
        some (ride.setSeatsBooked env1.now ride.ID (m.add ride.SeatsBooked passenger.Seats)) := by
    rw [hdb1]
    show List.find? _ (setSeatsBooked _ _ _ _) = _
    rw [setSeatsBooked_find]
    have : db.rides.find? (fun r => r.ID == passenger.RideID) = some ride := hride
    show Option.map _ (List.find? (fun r => r.ID == passenger.RideID) db.rides) = _
    rw [this, Option.map_some']
  have h2 : RideRepository.RemovePassenger m env2
      (RideRepository.AddPassenger m env1 db passenger).2 (passenger.inserted env1).ID =
      (none, { (RideRepository.AddPassenger m env1 db passenger).2 with
        rides := setSeatsBooked env2.now
          (ride.setSeatsBooked env1.now ride.ID (m.add ride.SeatsBooked passenger.Seats)).ID
          (m.sub (ride.setSeatsBooked env1.now ride.ID
            (m.add ride.SeatsBooked passenger.Seats)).SeatsBooked
            (passenger.inserted env1).Seats)
          (RideRepository.AddPassenger m env1 db passenger).2.rides
        passengers := (RideRepository.AddPassenger m env1 db passenger).2.passengers.filter
          (fun q => q.ID != (passenger.inserted env1).ID) }) := by
    rw [RideRepository.RemovePassenger_eq]
    simp only [hok, hp1, hr1, if_false, Bool.false_eq_true]
  rw [h2]
  refine ⟨rfl, ?_, ?_⟩
  · show Option.map _ (List.find? _ (setSeatsBooked _ _ _ _)) = _
    rw [setSeatsBooked_find, hdb1]
    show Option.map _ (Option.map _ (List.find? _ (setSeatsBooked _ _ _ _))) = _
    rw [setSeatsBooked_find]
    have : db.rides.find? (fun r => r.ID == passenger.RideID) = some ride := hride
    rw [this, hride]
    simp only [Option.map_some', Ride.setSeatsBooked_ID]
    rw [Ride.setSeatsBooked_SeatsBooked _ _ _ _ (Ride.setSeatsBooked_ID _ _ _ _),
      Ride.setSeatsBooked_SeatsBooked _ _ _ _ rfl]
    show some (m.sub (m.add ride.SeatsBooked passenger.Seats) passenger.Seats) = _
    rw [IntMode.sub_add_cancel _ _ _ (hrange ride (Store.findRide_some hride).1)]
  · show List.filter _ _ = _
    rw [hdb1]
    exact filter_append_fresh _ _ hfresh

/-- Claim C5, witness:
the round trip on a ride of two free seats: join for two seats, leave, and the
counter is 0 again with no passenger record. -/
theorem join_then_leave_restores_witness :
    (RideRepository.AddPassenger .int64 (Example.env 200 5) Example.freeStore
      (Example.joining 1 2)).1 = none ∧
    ((Example.joining 1 2).inserted (Example.env 200 5)).ID = 5 ∧
    (RideRepository.RemovePassenger .int64 (Example.env 300 6)
      (RideRepository.AddPassenger .int64 (Example.env 200 5) Example.freeStore
        (Example.joining 1 2)).2 5).1 = none ∧
    ((RideRepository.RemovePassenger .int64 (Example.env 300 6)
      (RideRepository.AddPassenger .int64 (Example.env 200 5) Example.freeStore
        (Example.joining 1 2)).2 5).2.findRide 1).map (fun r => r.SeatsBooked) = some 0 ∧
    (RideRepository.RemovePassenger .int64 (Example.env 300 6)
      (RideRepository.AddPassenger .int64 (Example.env 200 5) Example.freeStore
        (Example.joining 1 2)).2 5).2.passengers = [] :=
  have h := join_then_leave_restores .int64 (Example.env 200 5) (Example.env 300 6)
    Example.freeStore (Example.joining 1 2) (by decide) (fun _ => rfl) (by decide)
  ⟨by decide, by decide, h.1, h.2.1, h.2.2⟩

/-! ### C6: leaving a ride -/

/-- Claim C6 as stated fails: the ride a leave has updated differs from the ride before
in more than `seats_booked`, its `updated_at` is the time of the call. -/
theorem RemovePassenger_rewrites_updated_at :
    Example.fullStore.findPassenger 1 = some (Example.passenger 1 1 2) ∧
    Example.fullStore.findRide 1 = some (Example.ride 1 2 2) ∧
    (RideRepository.RemovePassenger .unbounded (Example.env 200 5) Example.fullStore 1).1
      = none ∧
    (RideRepository.RemovePassenger .unbounded (Example.env 200 5) Example.fullStore 1).2.findRide 1
      ≠ some { Example.ride 1 2 2 with SeatsBooked := 2 - 2 } ∧
    (Example.ride 1 2 2).UpdatedAt = 100 ∧
    ((RideRepository.RemovePassenger .unbounded (Example.env 200 5)
      Example.fullStore 1).2.findRide 1).map (fun r => r.UpdatedAt) = some 200 := by
  decide

/-- Claim C6, amended: when the passenger record `passengerID` exists and its ride
exists (no statement refused), `RemovePassenger` succeeds; the ride gets Go's difference
`ride.SeatsBooked-passenger.Seats` as `seats_booked` and the time of the call as
`updated_at`, its other columns are unchanged; the difference is exactly `b - s`, with
no clamping at zero, whenever `b - s` is a value of `int`, and with 64-bit integers and
`s >= 0` it is `b - s + 2^64` when `b - s` is below `-2^63`; no record with the key is
left, the other passenger records, the other rides, the users and the ratings are
unchanged. -/
theorem RemovePassenger_success (m : IntMode) (env : Env) (db : Store) (passengerID : Nat)
    (passenger : RidePassenger) (ride : Ride)
    (hp : db.findPassenger passengerID = some passenger)
    (hr : db.findRide passenger.RideID = some ride)
    (hok : ∀ op, env.fails op = false) :
    (RideRepository.RemovePassenger m env db passengerID).1 = none ∧
    (RideRepository.RemovePassenger m env db passengerID).2.findRide passenger.RideID =
      some { ride with
        SeatsBooked := m.sub ride.SeatsBooked passenger.Seats, UpdatedAt := env.now } ∧
    (m.InRange (ride.SeatsBooked - passenger.Seats) →
      ((RideRepository.RemovePassenger m env db passengerID).2.findRide passenger.RideID).map
        (fun r => r.SeatsBooked) = some (ride.SeatsBooked - passenger.Seats)) ∧
    (¬ m.InRange (ride.SeatsBooked - passenger.Seats) → m.InRange ride.SeatsBooked →
      m.InRange passenger.Seats → 0 ≤ passenger.Seats →
      ((RideRepository.RemovePassenger m env db passengerID).2.findRide passenger.RideID).map
        (fun r => r.SeatsBooked) =
          some (ride.SeatsBooked - passenger.Seats + 18446744073709551616)) ∧
    (RideRepository.RemovePassenger m env db passengerID).2.findPassenger passengerID = none ∧
    (RideRepository.RemovePassenger m env db passengerID).2.passengers =
      db.passengers.filter (fun q => q.ID != passengerID) ∧
    (RideRepository.RemovePassenger m env db passengerID).2.rides.map (fun r => r.ID) =
      db.rides.map (fun r => r.ID) ∧
    (RideRepository.RemovePassenger m env db passengerID).2.rides.filter
        (fun r => r.ID != passenger.RideID) =
      db.rides.filter (fun r => r.ID != passenger.RideID) ∧
    (RideRepository.RemovePassenger m env db passengerID).2.users = db.users ∧
    (RideRepository.RemovePassenger m env db passengerID).2.ratings = db.ratings := by
  have hid : ride.ID = passenger.RideID := (Store.findRide_some hr).2
  have hpid : passenger.ID = passengerID := (Store.findPassenger_some hp).2
  have h : RideRepository.RemovePassenger m env db passengerID = (none, { db with
      rides := setSeatsBooked env.now ride.ID (m.sub ride.SeatsBooked passenger.Seats) db.rides
      passengers := db.passengers.filter (fun q => q.ID != passenger.ID) }) := by
    rw [RideRepository.RemovePassenger_eq]
    simp only [hok, hp, hr, if_false, Bool.false_eq_true]
  have hfind : ({ db with
      rides := setSeatsBooked env.now ride.ID (m.sub ride.SeatsBooked passenger.Seats) db.rides
      passengers := db.passengers.filter (fun q => q.ID != passenger.ID) } : Store).findRide
        passenger.RideID = some { ride with
          SeatsBooked := m.sub ride.SeatsBooked passenger.Seats, UpdatedAt := env.now } := by
    show List.find? _ (setSeatsBooked _ _ _ _) = _
    rw [setSeatsBooked_find]
    have : db.rides.find? (fun r => r.ID == passenger.RideID) = some ride := hr
    rw [this, Option.map_some', Ride.setSeatsBooked_of_eq _ _ _ _ rfl]
  rw [h]
  refine ⟨rfl, hfind, ?_, ?_, ?_, ?_, ?_, ?_, rfl, rfl⟩
  · intro hin
    rw [hfind, Option.map_some']
    show some (m.sub ride.SeatsBooked passenger.Seats) = _
    rw [IntMode.sub, IntMode.norm_of_inRange m _ hin]
  · intro hout hb hs hs0
    rw [hfind, Option.map_some']
    show some (m.sub ride.SeatsBooked passenger.Seats) = _
    cases m with
    | unbounded => exact absurd trivial hout
    | int64 =>
      simp only [IntMode.InRange] at hb hs hout
      simp only [IntMode.sub, IntMode.norm, wrapInt64]
      congr 1
      omega
  · show List.find? _ (List.filter _ _) = none
    rw [hpid]
    exact find_filter_ne _ _
  · show List.filter _ _ = _
    rw [hpid]
  · exact setSeatsBooked_map_ID _ _ _ _
  · rw [hid]; exact setSeatsBooked_filter_ne _ _ _ _

/-- Claim C6, witness:
with 64-bit integers, a leave on a ride whose counter is lower than the seats of the
record writes the negative difference: nothing clamps it. -/
theorem RemovePassenger_success_witness :
    Example.freeStore.findRide 1 = some (Example.ride 1 2 0) ∧
    (RideRepository.RemovePassenger .int64 (Example.env 200 5)
      { Example.freeStore with passengers := [Example.passenger 4 1 1] } 4).1 = none ∧
    ((RideRepository.RemovePassenger .int64 (Example.env 200 5)
      { Example.freeStore with passengers := [Example.passenger 4 1 1] } 4).2.findRide 1).map
        (fun r => r.SeatsBooked) = some (-1) :=
  have h := RemovePassenger_success .int64 (Example.env 200 5)
    { Example.freeStore with passengers := [Example.passenger 4 1 1] } 4
    (Example.passenger 4 1 1) (Example.ride 1 2 0) (by decide) (by decide) (fun _ => rfl)
  ⟨by decide, h.1, h.2.2.1 (by decide)⟩

/-! ### C7: all or nothing -/

/-- Claim C7: join and leave are all-or-nothing.  Whatever statements the database
refuses (the lookups, the update of `seats_booked`, the insert or the delete, the
commit, or `Begin` itself) and whatever the capacity check says, when `AddPassenger` or
`RemovePassenger` returns an error the store is the store before the call; and a call in
which one of its statements is refused does return an error. -/
theorem join_leave_all_or_nothing (m : IntMode) (env : Env) (db : Store) :
    (∀ passenger e, (RideRepository.AddPassenger m env db passenger).1 = some e →
      (RideRepository.AddPassenger m env db passenger).2 = db) ∧
    (∀ passengerID e, (RideRepository.RemovePassenger m env db passengerID).1 = some e →
      (RideRepository.RemovePassenger m env db passengerID).2 = db) ∧
    (∀ passenger, ∀ op ∈ [DbOp.begin, .firstRide, .updateSeatsBooked, .createPassenger, .commit],
      env.fails op = true →
      ∃ e, (RideRepository.AddPassenger m env db passenger).1 = some e) ∧
    (∀ passengerID,
      ∀ op ∈ [DbOp.begin, .firstPassenger, .firstRide, .updateSeatsBooked, .deletePassenger,
        .commit],
      env.fails op = true →
      ∃ e, (RideRepository.RemovePassenger m env db passengerID).1 = some e) := by
  refine ⟨?_, ?_, ?_, ?_⟩
  · intro passenger e h
    exact RideRepository.AddPassenger_error h
  · intro passengerID e h
    exact RideRepository.RemovePassenger_error h
  · intro passenger op hop hf
    rw [RideRepository.AddPassenger_eq]
    simp only [List.mem_cons, List.mem_singleton, List.not_mem_nil, or_false] at hop
    rcases hop with h | h | h | h | h <;> subst h <;> repeat' split
    all_goals simp_all
  · intro passengerID op hop hf
    rw [RideRepository.RemovePassenger_eq]
    simp only [List.mem_cons, List.mem_singleton, List.not_mem_nil, or_false] at hop
    rcases hop with h | h | h | h | h | h <;> subst h <;> repeat' split
    all_goals simp_all

/-- Claim C7, witness:
a join whose commit is refused after the counter was updated and the record
inserted, and a leave whose delete is refused after the counter was updated: both
return the storage error and leave the store as it was. -/
theorem join_leave_all_or_nothing_witness :
    (RideRepository.AddPassenger .unbounded (Example.envFailing 200 5 .commit)
        Example.freeStore (Example.joining 1 2)).1 = some (.storage .commit) ∧
    (RideRepository.AddPassenger .unbounded (Example.envFailing 200 5 .commit)
        Example.freeStore (Example.joining 1 2)).2 = Example.freeStore ∧
    (RideRepository.RemovePassenger .unbounded (Example.envFailing 200 5 .deletePassenger)
        Example.fullStore 1).1 = some (.storage .deletePassenger) ∧
    (RideRepository.RemovePassenger .unbounded (Example.envFailing 200 5 .deletePassenger)
        Example.fullStore 1).2 = Example.fullStore :=
  ⟨by decide,
   (join_leave_all_or_nothing .unbounded (Example.envFailing 200 5 .commit)
      Example.freeStore).1 (Example.joining 1 2) (.storage .commit) (by decide),
   by decide,
   (join_leave_all_or_nothing .unbounded (Example.envFailing 200 5 .deletePassenger)
      Example.fullStore).2.1 1 (.storage .deletePassenger) (by decide)⟩

/-! ### C8: leaving without a record -/

/-- Claim C8: when no passenger record has the key `passengerID`, `RemovePassenger`
returns an error (`gorm.ErrRecordNotFound` when the database answers the lookup) and the
store is unchanged; in particular, after a successful `RemovePassenger` a second one
with the same key returns an error and leaves the store, and so the counter of the
ride, as the first one left it. -/
theorem RemovePassenger_missing (m : IntMode) (env : Env) (db : Store) (passengerID : Nat) :
    (db.findPassenger passengerID = none →
      (∃ e, (RideRepository.RemovePassenger m env db passengerID).1 = some e) ∧
      (RideRepository.RemovePassenger m env db passengerID).2 = db ∧
      (env.fails .begin = false → env.fails .firstPassenger = false →
        (RideRepository.RemovePassenger m env db passengerID).1 = some .recordNotFound)) ∧
    ((RideRepository.RemovePassenger m env db passengerID).1 = none →
      ∀ env2 : Env,
        (∃ e, (RideRepository.RemovePassenger m env2
            (RideRepository.RemovePassenger m env db passengerID).2 passengerID).1 = some e) ∧
        (RideRepository.RemovePassenger m env2
            (RideRepository.RemovePassenger m env db passengerID).2 passengerID).2 =
          (RideRepository.RemovePassenger m env db passengerID).2 ∧
        (env2.fails .begin = false → env2.fails .firstPassenger = false →
          (RideRepository.RemovePassenger m env2
            (RideRepository.RemovePassenger m env db passengerID).2 passengerID).1 =
              some .recordNotFound)) := by
  have key : ∀ (env : Env) (db : Store), db.findPassenger passengerID = none →
      (∃ e, (RideRepository.RemovePassenger m env db passengerID).1 = some e) ∧
      (RideRepository.RemovePassenger m env db passengerID).2 = db ∧
      (env.fails .begin = false → env.fails .firstPassenger = false →
        (RideRepository.RemovePassenger m env db passengerID).1 = some .recordNotFound) := by
    intro env db hnone
    rw [RideRepository.RemovePassenger_eq]
    simp only [hnone]
    refine ⟨?_, ?_, ?_⟩
    · repeat' split
      all_goals simp
    · repeat' split
      all_goals simp
    · intro h1 h2
      simp [h1, h2]
  refine ⟨key env db, ?_⟩
  intro hok env2
  apply key
  -- the first call removed every row with this key
  obtain ⟨passenger, ride, hp, _, hdb⟩ := RideRepository.RemovePassenger_ok hok
  have hid : passenger.ID = passengerID := (Store.findPassenger_some hp).2
  rw [hdb, ← hid]
  exact find_filter_ne _ _

/-- Claim C8, witness:
a leave of a key that has no record, and a second leave of the passenger 1:
both return `gorm.ErrRecordNotFound` and change nothing. -/
theorem RemovePassenger_missing_witness :
    Example.fullStore.findPassenger 3 = none ∧
    (RideRepository.RemovePassenger .unbounded (Example.env 200 5) Example.fullStore 3).1
      = some .recordNotFound ∧
    (RideRepository.RemovePassenger .unbounded (Example.env 200 5) Example.fullStore 3).2
      = Example.fullStore ∧
    (RideRepository.RemovePassenger .unbounded (Example.env 200 5) Example.fullStore 1).1
      = none ∧
    (RideRepository.RemovePassenger .unbounded (Example.env 300 5)
      (RideRepository.RemovePassenger .unbounded (Example.env 200 5) Example.fullStore 1).2
        1).1 = some .recordNotFound ∧
    (RideRepository.RemovePassenger .unbounded (Example.env 300 5)
      (RideRepository.RemovePassenger .unbounded (Example.env 200 5) Example.fullStore 1).2
        1).2 =
      (RideRepository.RemovePassenger .unbounded (Example.env 200 5) Example.fullStore 1).2 :=
  have h3 := (RemovePassenger_missing .unbounded (Example.env 200 5) Example.fullStore 3).1
    (by decide)
  have h1 := (RemovePassenger_missing .unbounded (Example.env 200 5) Example.fullStore 1).2
    (by decide) (Example.env 300 5)
  ⟨by decide, h3.2.2 rfl rfl, h3.2.1, by decide, h1.2.2 rfl rfl, h1.2.1⟩

/-! ### C9: repeated leaves -/

/-- With unbounded integers there is no sequence of calls that, served one after the
other on the empty store, leaves a ride with a negative `seats_booked`, whether or not
it contains repeated or out-of-order leaves. -/
theorem no_calls_make_seats_negative :
    ¬ ∃ calls : List (Env × Call),
      ∃ r ∈ (runCalls .unbounded Store.empty calls).rides, r.SeatsBooked < 0 := by
  rintro ⟨calls, r, hr, hneg⟩
  have := (Store.Consistent.empty.runCalls calls).seatsBooked_nonneg r hr
  omega

/-- With unbounded integers, after any calls served one after the other on the empty
store no ride has a negative `seats_booked`; a repeated leave does not decrement the
counter: once `LeaveRide` has answered 200 for a passenger, the same request again is
answered 500 and changes nothing. -/
theorem leaves_keep_seats_nonneg (calls : List (Env × Call)) :
    (∀ r ∈ (runCalls .unbounded Store.empty calls).rides, 0 ≤ r.SeatsBooked) ∧
    (∀ (env1 env2 : Env) (passengerId : String),
      (handlers.LeaveRide .unbounded env1
        (runCalls .unbounded Store.empty calls) passengerId).1.status = handlers.StatusOK →
      handlers.LeaveRide .unbounded env2
        (handlers.LeaveRide .unbounded env1
          (runCalls .unbounded Store.empty calls) passengerId).2 passengerId =
        (⟨handlers.StatusInternalServerError, .error "Failed to leave ride"⟩,
          (handlers.LeaveRide .unbounded env1
            (runCalls .unbounded Store.empty calls) passengerId).2)) := by
  refine ⟨(Store.Consistent.empty.runCalls calls).seatsBooked_nonneg, ?_⟩
  intro env1 env2 passengerId h
  obtain ⟨passengerID, hparse, hnone, hdb⟩ := handlers.LeaveRide_ok h
  obtain ⟨e, he⟩ := @RideRepository.RemovePassenger_absent .unbounded env2 _ _
    (RideRepository.RemovePassenger_ok_absent hnone)
  rw [hdb]
  unfold handlers.LeaveRide
  simp only [hparse, he]

/-- The scenario of the specification up to the first leave: the counter goes from 2
to 0, and the repeated leave is refused and leaves it at 0. -/
theorem leaves_keep_seats_nonneg_witness :
    (runCalls .unbounded Store.empty (Example.scenario.take 3)).rides.map
      (fun r => r.SeatsBooked) = [2] ∧
    (handlers.LeaveRide .unbounded (Example.env 130 0)
      (runCalls .unbounded Store.empty (Example.scenario.take 3)) "1").1.status
        = handlers.StatusOK ∧
    ((handlers.LeaveRide .unbounded (Example.env 130 0)
      (runCalls .unbounded Store.empty (Example.scenario.take 3)) "1").2.rides.map
        (fun r => r.SeatsBooked)) = [0] ∧
    handlers.LeaveRide .unbounded (Example.env 140 0)
      (handlers.LeaveRide .unbounded (Example.env 130 0)
        (runCalls .unbounded Store.empty (Example.scenario.take 3)) "1").2 "1" =
      (⟨handlers.StatusInternalServerError, .error "Failed to leave ride"⟩,
        (handlers.LeaveRide .unbounded (Example.env 130 0)
          (runCalls .unbounded Store.empty (Example.scenario.take 3)) "1").2) :=
  ⟨by decide, by decide, by decide,
    (leaves_keep_seats_nonneg (Example.scenario.take 3)).2 (Example.env 130 0)
      (Example.env 140 0) "1" (by decide)⟩

/-- Claim C9: with Go's 64-bit `int` there is a sequence of calls of `CreateRide`,
`JoinRide` with `seats >= 1` (a value of `int`) and `LeaveRide`, none refused by the
database, that contains the same leave more than once and after which, served one after
the other on the empty store, a ride has a negative `seats_booked`. -/
theorem repeated_leaves_sequence_ends_negative :
    ∃ calls : List (Env × Call),
      (∀ ec ∈ calls, ec.2.createJoinLeave = true ∧ ec.2.seatsInRange .int64) ∧
      (∀ ec ∈ calls, ∀ op, ec.1.fails op = false) ∧
      (∃ passengerId,
        2 ≤ (calls.filter (fun ec => decide (ec.2 = .leaveRide passengerId))).length) ∧
      ∃ r ∈ (runCalls .int64 Store.empty calls).rides, r.SeatsBooked < 0 := by
  refine ⟨Example.repeatedLeaveCalls, by decide, ?_, ⟨"1", by decide⟩, by decide⟩
  intro ec hec op
  simp only [Example.repeatedLeaveCalls, List.mem_cons, List.mem_singleton,
    List.not_mem_nil, or_false] at hec
  rcases hec with h | h | h | h | h | h | h <;> rw [h] <;> rfl

/-- Claim C9, witness:
the sequence `Example.repeatedLeaveCalls`: the leave before any join and the repeated
leave are answered 500 and change nothing, the counter is 1 after the second join, and
the join for `2^63 - 1` seats leaves it at `-2^63`. -/
theorem repeated_leaves_sequence_ends_negative_witness :
    (runCalls .int64 Store.empty (Example.repeatedLeaveCalls.take 1)).rides.map
      (fun r => r.SeatsBooked) = [0] ∧
    runCalls .int64 Store.empty (Example.repeatedLeaveCalls.take 2) =
      runCalls .int64 Store.empty (Example.repeatedLeaveCalls.take 1) ∧
    runCalls .int64 Store.empty (Example.repeatedLeaveCalls.take 5) =
      runCalls .int64 Store.empty (Example.repeatedLeaveCalls.take 4) ∧
    (runCalls .int64 Store.empty (Example.repeatedLeaveCalls.take 6)).rides.map
      (fun r => r.SeatsBooked) = [1] ∧
    (runCalls .int64 Store.empty Example.repeatedLeaveCalls).rides.map
      (fun r => r.SeatsBooked) = [-9223372036854775808] ∧
    ∃ calls : List (Env × Call),
      (∀ ec ∈ calls, ec.2.createJoinLeave = true ∧ ec.2.seatsInRange .int64) ∧
      (∀ ec ∈ calls, ∀ op, ec.1.fails op = false) ∧
      (∃ passengerId,
        2 ≤ (calls.filter (fun ec => decide (ec.2 = .leaveRide passengerId))).length) ∧
      ∃ r ∈ (runCalls .int64 Store.empty calls).rides, r.SeatsBooked < 0 :=
  ⟨by decide, by decide, by decide, by decide, by decide,
    repeated_leaves_sequence_ends_negative⟩

/-! ### C10: available shared rides -/

/-- Claim C10: `GetAvailableSharedRides` never changes the store; when the database
answers, it returns the rides with `ride_type = shared`, `status = pending` and
`seats_booked < seats_available`, all of them and no other, so none whose
`seats_booked >= seats_available`. -/
theorem GetAvailableSharedRides_spec (env : Env) (db : Store) :
    (RideRepository.GetAvailableSharedRides env db).2 = db ∧
    (handlers.GetAvailableSharedRides env db).2 = db ∧
    (env.fails .findRides = false → env.fails .preload = false →
      ∃ rides, (RideRepository.GetAvailableSharedRides env db).1 = .ok rides) ∧
    (∀ rides, (RideRepository.GetAvailableSharedRides env db).1 = .ok rides →
      rides.map (fun l => l.row) =
        db.rides.filter (fun r => decide (r.RideType = RideTypeShared ∧
          r.Status = RideStatusPending ∧ r.SeatsBooked < r.SeatsAvailable)) ∧
      (∀ r, r ∈ rides.map (fun l => l.row) ↔
        r ∈ db.rides ∧ r.RideType = RideTypeShared ∧ r.Status = RideStatusPending ∧
          r.SeatsBooked < r.SeatsAvailable) ∧
      (∀ l ∈ rides, ¬ l.row.SeatsBooked ≥ l.row.SeatsAvailable)) := by
  have hrow : ∀ rs : List Ride,
      (rs.map (RideRepository.preloadRider db)).map (fun l => l.row) = rs := by
    intro rs
    simp [List.map_map, Function.comp_def, RideRepository.preloadRider]
  have hfilter : db.rides.filter RideRepository.availableShared =
      db.rides.filter (fun r => decide (r.RideType = RideTypeShared ∧
          r.Status = RideStatusPending ∧ r.SeatsBooked < r.SeatsAvailable)) := by
    apply List.filter_congr
    intro r _
    rw [Bool.eq_iff_iff]
    simp [RideRepository.availableShared, and_assoc]
  refine ⟨?_, ?_, ?_, ?_⟩
  · unfold RideRepository.GetAvailableSharedRides
    repeat' split
    all_goals rfl
  · unfold handlers.GetAvailableSharedRides RideRepository.GetAvailableSharedRides
    cases env.fails .findRides <;> cases env.fails .preload <;> rfl
  · intro h1 h2
    unfold RideRepository.GetAvailableSharedRides
    simp [h1, h2]
  · intro rides h
    have hrides : rides = (db.rides.filter RideRepository.availableShared).map
        (RideRepository.preloadRider db) := by
      unfold RideRepository.GetAvailableSharedRides at h
      split at h
      · simp at h
      · split at h
        · simp at h
        · simp only [Except.ok.injEq] at h
          exact h.symm
    have hmap : rides.map (fun l => l.row) = db.rides.filter (fun r =>
        decide (r.RideType = RideTypeShared ∧
          r.Status = RideStatusPending ∧ r.SeatsBooked < r.SeatsAvailable)) := by
      rw [hrides, hrow, hfilter]
    refine ⟨hmap, ?_, ?_⟩
    · intro r
      rw [hmap, List.mem_filter]
      simp
    · intro l hl
      have : l.row ∈ rides.map (fun l => l.row) := List.mem_map_of_mem _ hl
      rw [hmap, List.mem_filter] at this
      have := this.2
      simp only [decide_eq_true_eq] at this
      omega

/-- Claim C10, witness:
of a shared ride with a free seat, a full shared ride and an on-demand ride, the
query returns the first only. -/
theorem GetAvailableSharedRides_spec_witness :
    (RideRepository.GetAvailableSharedRides (Example.env 200 0) Example.mixedStore).1 =
      .ok [RideRepository.preloadRider Example.mixedStore (Example.ride 1 2 1)] ∧
    (∀ l ∈ [RideRepository.preloadRider Example.mixedStore (Example.ride 1 2 1)],
      ¬ l.row.SeatsBooked ≥ l.row.SeatsAvailable) :=
  ⟨by rfl,
    ((GetAvailableSharedRides_spec (Example.env 200 0) Example.mixedStore).2.2.2
      [RideRepository.preloadRider Example.mixedStore (Example.ride 1 2 1)] (by rfl)).2.2⟩

/-! ### C11: the ride `CreateRide` persists -/

/-- What an accepted `CreateRide` did. -/
theorem handlers.CreateRide_created {env : Env} {db : Store}
    {body : Option CreateRideRequest} {userID : Option Nat}
    (h : (CreateRide env db body userID).1.status = StatusCreated) :
    ∃ req uid, body = some req ∧ userID = some uid ∧ req.valid = true ∧
      CreateRide env db body userID =
        (⟨StatusCreated, .ride "Ride created successfully" ((newRide req uid).inserted env)⟩,
          { db with rides := db.rides ++ [(newRide req uid).inserted env] }) := by
  unfold CreateRide at h ⊢
  cases body with
  | none => simp [StatusBadRequest, StatusCreated] at h
  | some req =>
    by_cases hv : req.valid = true
    · cases userID with
      | none => simp [hv, StatusUnauthorized, StatusCreated] at h
      | some uid =>
        refine ⟨req, uid, rfl, rfl, hv, ?_⟩
        simp only [hv, Bool.not_true, Bool.false_eq_true, if_false] at h ⊢
        unfold RideRepository.CreateRide at h ⊢
        cases hf : env.fails .createRide
        · simp only [hf, Bool.false_eq_true, if_false] at h ⊢
          cases hd : db.rides.any (fun r => r.ID == ((newRide req uid).inserted env).ID)
          · simp only [hd, Bool.false_eq_true, if_false]
          · simp [hd, StatusInternalServerError, StatusCreated] at h
        · simp [hf, StatusInternalServerError, StatusCreated] at h
    · simp [hv, StatusBadRequest, StatusCreated] at h

/-- Claim C11: a bound request of an authenticated caller is accepted (201) when the
database takes the insert, and whenever `CreateRide` answers 201 the store has exactly
one more ride: its status is `pending`, its `seats_booked` is 0, its rider is the
caller, its type, coordinates, addresses, price, distance, duration and payment method
are the request's; for a shared request `seats_available` and `departure_time` are the
request's, for an on-demand request they are 0 and the zero time whatever the request
carried. -/
theorem CreateRide_persists (env : Env) (db : Store) (body : Option handlers.CreateRideRequest)
    (userID : Option Nat) :
    (∀ req uid, body = some req → userID = some uid → req.valid = true →
      env.fails .createRide = false →
      (∀ r ∈ db.rides, r.ID ≠ ((handlers.newRide req uid).inserted env).ID) →
      (handlers.CreateRide env db body userID).1.status = handlers.StatusCreated) ∧
    ((handlers.CreateRide env db body userID).1.status = handlers.StatusCreated →
      ∃ req uid ride, body = some req ∧ userID = some uid ∧
        (handlers.CreateRide env db body userID).1.body =
          .ride "Ride created successfully" ride ∧
        (handlers.CreateRide env db body userID).2 = { db with rides := db.rides ++ [ride] } ∧
        ride.Status = RideStatusPending ∧ ride.SeatsBooked = 0 ∧ ride.RiderID = uid ∧
        ride.RideType = req.RideType ∧
        ride.PickupLat = req.PickupLat ∧ ride.PickupLng = req.PickupLng ∧
        ride.DropoffLat = req.DropoffLat ∧ ride.DropoffLng = req.DropoffLng ∧
        ride.PickupAddress = req.PickupAddress ∧ ride.DropoffAddress = req.DropoffAddress ∧
        ride.Price = req.Price ∧ ride.Distance = req.Distance ∧
        ride.Duration = req.Duration ∧ ride.PaymentMethod = req.PaymentMethod ∧
        (req.RideType = RideTypeShared →
          ride.SeatsAvailable = req.SeatsAvailable ∧
          ride.DepartureTime = req.DepartureTime) ∧
        (req.RideType = RideTypeOnDemand →
          ride.SeatsAvailable = 0 ∧ ride.DepartureTime = 0)) := by
  constructor
  · intro req uid hb hu hv hf hfresh
    subst hb; subst hu
    have hd : db.rides.any (fun r => r.ID == ((handlers.newRide req uid).inserted env).ID)
        = false := by
      rw [List.any_eq_false]
      intro r hr
      simpa using hfresh r hr
    unfold handlers.CreateRide RideRepository.CreateRide
    simp [hv, hf, hd]
  · intro h
    obtain ⟨req, uid, hb, hu, _, heq⟩ := handlers.CreateRide_created h
    refine ⟨req, uid, (handlers.newRide req uid).inserted env, hb, hu, ?_, ?_, ?_⟩
    · rw [heq]
    · rw [heq]
    · unfold handlers.newRide
      simp only []
      split
      · rename_i hs
        exact ⟨rfl, rfl, rfl, rfl, rfl, rfl, rfl, rfl, rfl, rfl, rfl, rfl, rfl, rfl,
          fun _ => ⟨rfl, rfl⟩, fun ho => absurd (hs.symm.trans ho) (by decide)⟩
      · rename_i hs
        exact ⟨rfl, rfl, rfl, rfl, rfl, rfl, rfl, rfl, rfl, rfl, rfl, rfl, rfl, rfl,
          fun h => absurd h hs, fun _ => ⟨rfl, rfl⟩⟩

/-- Claim C11, witness:
an on-demand request that carries five seats is accepted and persisted with no seats
and the zero departure time. -/
theorem CreateRide_persists_witness :
    (handlers.CreateRide (Example.env 100 1) Store.empty
      (some (Example.request "on_demand" 5)) (some 7)).1.status = handlers.StatusCreated ∧
    ∃ ride, (handlers.CreateRide (Example.env 100 1) Store.empty
        (some (Example.request "on_demand" 5)) (some 7)).2 =
          { Store.empty with rides := Store.empty.rides ++ [ride] } ∧
      ride.Status = RideStatusPending ∧ ride.SeatsBooked = 0 ∧ ride.RiderID = 7 ∧
      ride.SeatsAvailable = 0 ∧ ride.DepartureTime = 0 := by
  have h := CreateRide_persists (Example.env 100 1) Store.empty
    (some (Example.request "on_demand" 5)) (some 7)
  have hc := h.1 _ 7 rfl rfl (by decide) (by decide) (by decide)
  obtain ⟨req, uid, ride, hb, hu, _, hdb, h1, h2, h3, _, _, _, _, _, _, _, _, _, _, _, _, h5⟩ :=
    h.2 hc
  cases hb; cases hu
  exact ⟨hc, ride, hdb, h1, h2, h3, (h5 rfl).1, (h5 rfl).2⟩

/-! ### C12: the conditional fields of `CreateRideRequest` -/

/-- The rules of `CreateRideRequest` are the common rules and the two conditional ones. -/
theorem handlers.CreateRideRequest.valid_eq (req : CreateRideRequest) :
    req.valid = (req.commonValid &&
      ((req.RideType != "shared" || req.SeatsAvailable != 0) &&
       (req.RideType != "shared" || req.DepartureTime != 0))) := by
  rw [Bool.eq_iff_iff]
  unfold CreateRideRequest.valid CreateRideRequest.commonValid
  simp only [Bool.and_eq_true]
  tauto

/-- Claim C12: for a request whose common fields pass their rules, with
`ride_type = shared` the request binds exactly when `seats_available` is not 0 and
`departure_time` is not the zero value `time.Time{}` (what a missing key leaves in the
field), and `CreateRide` answers 400 without touching the store when one of them is
missing; with `ride_type = on_demand` the request binds whatever the two fields hold,
and is accepted (201) when the database takes the insert. -/
theorem CreateRideRequest_conditional_fields (req : handlers.CreateRideRequest)
    (hcommon : req.commonValid = true) :
    (req.RideType = "shared" →
      (req.valid = true ↔ req.SeatsAvailable ≠ 0 ∧ req.DepartureTime ≠ 0) ∧
      (req.DepartureTime = 0 ∨ req.SeatsAvailable = 0 →
        ∀ env db userID, handlers.CreateRide env db (some req) userID =
          (⟨handlers.StatusBadRequest, .bindError⟩, db))) ∧
    (req.RideType = "on_demand" →
      req.valid = true ∧
      ∀ env db uid, env.fails .createRide = false →
        (∀ r ∈ db.rides, r.ID ≠ ((handlers.newRide req uid).inserted env).ID) →
        (handlers.CreateRide env db (some req) (some uid)).1.status =
          handlers.StatusCreated) := by
  have hv := handlers.CreateRideRequest.valid_eq req
  rw [hcommon, Bool.true_and] at hv
  constructor
  · intro hs
    have hiff : req.valid = true ↔ req.SeatsAvailable ≠ 0 ∧ req.DepartureTime ≠ 0 := by
      rw [hv, hs]
      simp
    refine ⟨hiff, ?_⟩
    intro hmiss env db userID
    have hnv : req.valid = false := by
      rw [Bool.eq_false_iff, Ne, hiff]
      rintro ⟨h1, h2⟩
      rcases hmiss with h | h
      · exact h2 h
      · exact h1 h
    unfold handlers.CreateRide
    simp [hnv]
  · intro ho
    have hvalid : req.valid = true := by
      rw [hv, ho]
      simp
    refine ⟨hvalid, ?_⟩
    intro env db uid hf hfresh
    have hd : db.rides.any (fun r => r.ID == ((handlers.newRide req uid).inserted env).ID)
        = false := by
      rw [List.any_eq_false]
      intro r hr
      simpa using hfresh r hr
    unfold handlers.CreateRide RideRepository.CreateRide
    simp [hvalid, hf, hd]

/-- Claim C12, witness:
a shared request without `seats_available` is answered 400, and so is one without
`departure_time`; a shared request whose `departure_time` is present and denotes the
zero instant with an offset (`0001-01-01T01:00:00+01:00`) binds; an on-demand request
without `seats_available` and `departure_time` binds. -/
theorem CreateRideRequest_conditional_fields_witness :
    (Example.request "shared" 0).commonValid = true ∧
    handlers.CreateRide (Example.env 100 1) Store.empty
      (some (Example.request "shared" 0)) (some 7) =
        (⟨handlers.StatusBadRequest, .bindError⟩, Store.empty) ∧
    handlers.CreateRide (Example.env 100 1) Store.empty
      (some { Example.request "shared" 2 with DepartureTime := 0 }) (some 7) =
        (⟨handlers.StatusBadRequest, .bindError⟩, Store.empty) ∧
    ({ Example.request "shared" 2 with DepartureTime := ⟨0, false⟩ } :
      handlers.CreateRideRequest).valid = true ∧
    ({ Example.request "on_demand" 0 with DepartureTime := 0 } :
      handlers.CreateRideRequest).valid = true :=
  ⟨by decide,
    ((CreateRideRequest_conditional_fields (Example.request "shared" 0) (by decide)).1
      rfl).2 (Or.inr rfl) (Example.env 100 1) Store.empty (some 7),
    ((CreateRideRequest_conditional_fields
      { Example.request "shared" 2 with DepartureTime := 0 } (by decide)).1
      rfl).2 (Or.inl rfl) (Example.env 100 1) Store.empty (some 7),
    ((CreateRideRequest_conditional_fields
      { Example.request "shared" 2 with DepartureTime := ⟨0, false⟩ } (by decide)).1
      rfl).1.mpr (by decide),
    ((CreateRideRequest_conditional_fields
      { Example.request "on_demand" 0 with DepartureTime := 0 } (by decide)).2 rfl).1⟩

/-! ### C13, C14: rating a ride -/

/-- Claim C13: the rules of `RateRideRequest` accept a score exactly when
`1 <= score <= 5`.  With a rejected score `RateRide` never answers 200 and leaves the
store as it is, no rating is persisted, and it answers 400 once the path and the caller
are in order.  With a score from 1 to 5, a path and a caller in order, `RateRide` does
not answer 400: it goes on to the repository, and when the ride exists (nothing
refused, the identifier of the new row not taken) it answers 200 and persists the
rating with that score. -/
theorem RateRideRequest_score_range (req : handlers.RateRideRequest) :
    (req.valid = true ↔ 1 ≤ req.Rating ∧ req.Rating ≤ 5) ∧
    (req.valid = false →
      ∀ env db id userID, (handlers.RateRide env db id userID (some req)).2 = db ∧
        (handlers.RateRide env db id userID (some req)).1.status ≠ handlers.StatusOK ∧
        ∀ rideID uid, handlers.ParseUint32 id = some rideID → userID = some uid →
          handlers.RateRide env db id userID (some req) =
            (⟨handlers.StatusBadRequest, .bindError⟩, db)) ∧
    (1 ≤ req.Rating → req.Rating ≤ 5 →
      ∀ env db id rideID uid, handlers.ParseUint32 id = some rideID →
        (handlers.RateRide env db id (some uid) (some req)).1.status ≠
          handlers.StatusBadRequest ∧
        ∀ ride, db.findRide rideID = some ride → (∀ op, env.fails op = false) →
          (∀ r ∈ db.ratings,
            r.ID ≠ ((handlers.newRating rideID uid ride req).inserted env).ID) →
          handlers.RateRide env db id (some uid) (some req) =
            (⟨handlers.StatusOK, .message "Rating added successfully"⟩,
              { db with ratings := db.ratings ++
                [(handlers.newRating rideID uid ride req).inserted env] }) ∧
          ((handlers.newRating rideID uid ride req).inserted env).Rating = req.Rating) := by
  have hiff : req.valid = true ↔ 1 ≤ req.Rating ∧ req.Rating ≤ 5 := by
    unfold handlers.RateRideRequest.valid
    simp only [Bool.and_eq_true, bne_iff_ne, decide_eq_true_eq, ge_iff_le]
    omega
  refine ⟨hiff, ?_, ?_⟩
  · intro hnv env db id userID
    unfold handlers.RateRide
    cases handlers.ParseUint32 id with
    | none =>
      exact ⟨rfl, by simp [handlers.StatusBadRequest, handlers.StatusOK],
        fun _ _ h => by simp at h⟩
    | some rideID =>
      cases userID with
      | none =>
        exact ⟨rfl, by simp [handlers.StatusUnauthorized, handlers.StatusOK],
          fun _ _ _ h => by simp at h⟩
      | some uid =>
        simp [hnv, handlers.StatusBadRequest, handlers.StatusOK]
  · intro h1 h5 env db id rideID uid hid
    have hvalid : req.valid = true := hiff.mpr ⟨h1, h5⟩
    constructor
    · unfold handlers.RateRide
      simp only [hid, hvalid, Bool.not_true, Bool.false_eq_true, if_false]
      cases hg : RideRepository.GetRideByID env db rideID with
      | mk res db1 =>
        cases res with
        | error e => simp [handlers.StatusNotFound, handlers.StatusBadRequest]
        | ok ride =>
          simp only []
          cases ha : RideRepository.AddRating env db1
              (handlers.newRating rideID uid ride.row req) with
          | mk err db2 =>
            cases err with
            | none => simp [handlers.StatusOK, handlers.StatusBadRequest]
            | some e =>
              simp [handlers.StatusInternalServerError, handlers.StatusBadRequest]
    · intro ride hride hok hfresh
      have hd : db.ratings.any
          (fun r => r.ID == ((handlers.newRating rideID uid ride req).inserted env).ID)
            = false := by
        rw [List.any_eq_false]
        intro r hr
        simpa using hfresh r hr
      refine ⟨?_, rfl⟩
      unfold handlers.RateRide RideRepository.GetRideByID RideRepository.AddRating
      simp only [hid, hvalid, hok, hride, Bool.not_true, Bool.false_eq_true, if_false]
      have hrow : (RideRepository.preloadAll db ride).row = ride := rfl
      simp only [hrow, hd, Bool.false_eq_true, if_false]

/-- Claim C13, witness:
the scores 1 and 5 are accepted: `RateRide` answers 200 and persists a rating with
the score; the scores 0 and 6 are answered 400 with the store unchanged. -/
theorem RateRideRequest_score_range_witness :
    (⟨1, ""⟩ : handlers.RateRideRequest).valid = true ∧
    (⟨5, "fine"⟩ : handlers.RateRideRequest).valid = true ∧
    (handlers.RateRide (Example.env 100 1) Example.freeStore "1" (some 9)
      (some ⟨1, ""⟩)).1 = ⟨handlers.StatusOK, .message "Rating added successfully"⟩ ∧
    (handlers.RateRide (Example.env 100 1) Example.freeStore "1" (some 9)
      (some ⟨1, ""⟩)).2.ratings.map (fun r => r.Rating) = [1] ∧
    (handlers.RateRide (Example.env 100 1) Example.freeStore "1" (some 9)
      (some ⟨5, "fine"⟩)).1 = ⟨handlers.StatusOK, .message "Rating added successfully"⟩ ∧
    (handlers.RateRide (Example.env 100 1) Example.freeStore "1" (some 9)
      (some ⟨5, "fine"⟩)).2.ratings.map (fun r => r.Rating) = [5] ∧
    handlers.RateRide (Example.env 100 1) Example.freeStore "1" (some 9) (some ⟨0, ""⟩) =
      (⟨handlers.StatusBadRequest, .bindError⟩, Example.freeStore) ∧
    handlers.RateRide (Example.env 100 1) Example.freeStore "1" (some 9) (some ⟨6, ""⟩) =
      (⟨handlers.StatusBadRequest, .bindError⟩, Example.freeStore) :=
  have h1 := (((RateRideRequest_score_range ⟨1, ""⟩).2.2 (by decide) (by decide)
    (Example.env 100 1) Example.freeStore "1" 1 9 (by decide)).2 (Example.ride 1 2 0)
    (by decide) (fun _ => rfl) (by decide)).1
  have h5 := (((RateRideRequest_score_range ⟨5, "fine"⟩).2.2 (by decide) (by decide)
    (Example.env 100 1) Example.freeStore "1" 1 9 (by decide)).2 (Example.ride 1 2 0)
    (by decide) (fun _ => rfl) (by decide)).1
  ⟨(RateRideRequest_score_range ⟨1, ""⟩).1.mpr (by decide),
    (RateRideRequest_score_range ⟨5, "fine"⟩).1.mpr (by decide),
    by rw [h1], by rw [h1]; rfl, by rw [h5], by rw [h5]; rfl,
    ((RateRideRequest_score_range ⟨0, ""⟩).2.1 (by decide) (Example.env 100 1)
      Example.freeStore "1" (some 9)).2.2 1 9 (by decide) rfl,
    ((RateRideRequest_score_range ⟨6, ""⟩).2.1 (by decide) (Example.env 100 1)
      Example.freeStore "1" (some 9)).2.2 1 9 (by decide) rfl⟩

/-- Claim C14: for a valid request on the ride `rideID` by the caller `uid`: if the ride
exists (nothing refused, the identifier of the new row not taken) `RateRide` answers
200 and the ratings table has exactly one more row, whose ride is `rideID`, from-user
the caller, to-user the rider of the ride, score and comment the request's; if the ride
does not exist `RateRide` answers 404 "Ride not found" (`GetRideByID` returns "ride not
found") and the store is unchanged. -/
theorem RateRide_persists (env : Env) (db : Store) (id : String) (rideID uid : Nat)
    (req : handlers.RateRideRequest)
    (hid : handlers.ParseUint32 id = some rideID) (hvalid : req.valid = true) :
    (∀ ride, db.findRide rideID = some ride → (∀ op, env.fails op = false) →
      (∀ r ∈ db.ratings, r.ID ≠ ((handlers.newRating rideID uid ride req).inserted env).ID) →
      handlers.RateRide env db id (some uid) (some req) =
        (⟨handlers.StatusOK, .message "Rating added successfully"⟩,
          { db with
            ratings := db.ratings ++ [(handlers.newRating rideID uid ride req).inserted env] }) ∧
      ((handlers.newRating rideID uid ride req).inserted env).RideID = rideID ∧
      ((handlers.newRating rideID uid ride req).inserted env).FromUserID = uid ∧
      ((handlers.newRating rideID uid ride req).inserted env).ToUserID = ride.RiderID ∧
      ((handlers.newRating rideID uid ride req).inserted env).Rating = req.Rating ∧
      ((handlers.newRating rideID uid ride req).inserted env).Comment = req.Comment) ∧
    (db.findRide rideID = none →
      handlers.RateRide env db id (some uid) (some req) =
        (⟨handlers.StatusNotFound, .error "Ride not found"⟩, db) ∧
      (env.fails .firstRide = false →
        (RideRepository.GetRideByID env db rideID).1 = .error .rideNotFound)) := by
  constructor
  · intro ride hride hok hfresh
    have hd : db.ratings.any
        (fun r => r.ID == ((handlers.newRating rideID uid ride req).inserted env).ID) = false := by
      rw [List.any_eq_false]
      intro r hr
      simpa using hfresh r hr
    refine ⟨?_, rfl, rfl, rfl, rfl, rfl⟩
    unfold handlers.RateRide RideRepository.GetRideByID RideRepository.AddRating
    simp only [hid, hvalid, hok, hride, Bool.not_true, Bool.false_eq_true, if_false]
    have hrow : (RideRepository.preloadAll db ride).row = ride := rfl
    simp only [hrow, hd, Bool.false_eq_true, if_false]
  · intro hnone
    constructor
    · unfold handlers.RateRide RideRepository.GetRideByID
      simp only [hid, hvalid, hnone, Bool.not_true, Bool.false_eq_true, if_false]
      cases env.fails .firstRide <;> rfl
    · intro hf
      unfold RideRepository.GetRideByID
      simp only [hf, hnone, Bool.false_eq_true, if_false]

/-- Claim C14, witness:
the user 9 rates the ride 1 of the rider 7 with 5, one rating from 9 to 7 is
persisted; the same request on the ride 2, which does not exist, is answered 404. -/
theorem RateRide_persists_witness :
    (handlers.RateRide (Example.env 300 1) Example.freeStore "1" (some 9)
      (some ⟨5, "on time"⟩)).1 = ⟨handlers.StatusOK, .message "Rating added successfully"⟩ ∧
    (handlers.RateRide (Example.env 300 1) Example.freeStore "1" (some 9)
      (some ⟨5, "on time"⟩)).2.ratings =
      [{ ID := 1, RideID := 1, FromUserID := 9, ToUserID := 7, Rating := 5,
         Comment := "on time", UserID := none, CreatedAt := 300, UpdatedAt := 300 }] ∧
    handlers.RateRide (Example.env 300 1) Example.freeStore "2" (some 9)
      (some ⟨5, "on time"⟩) =
      (⟨handlers.StatusNotFound, .error "Ride not found"⟩, Example.freeStore) :=
  have h1 := (RateRide_persists (Example.env 300 1) Example.freeStore "1" 1 9
    ⟨5, "on time"⟩ (by decide) (by decide)).1 (Example.ride 1 2 0) (by decide)
    (fun _ => rfl) (by decide)
  have h2 := (RateRide_persists (Example.env 300 1) Example.freeStore "2" 2 9
    ⟨5, "on time"⟩ (by decide) (by decide)).2 (by decide)
  ⟨by rw [h1.1], by rw [h1.1]; rfl, h2.1⟩

/-! ### C15, C16: updating the status of a ride -/

theorem map_status_ID (now : Time) (rideID : Nat) (status : RideStatus) (r : Ride) :
    (if r.ID = rideID then { r with Status := status, UpdatedAt := now } else r).ID = r.ID := by
  split <;> rfl

/-- After `UPDATE rides SET status = ?, updated_at = ? WHERE id = ?` a lookup finds the
updated version of the row it found before. -/
theorem find_map_status (now : Time) (rideID : Nat) (status : RideStatus) (rs : List Ride)
    (id : Nat) :
    (rs.map (fun r =>
        if r.ID = rideID then { r with Status := status, UpdatedAt := now } else r)).find?
      (fun r => r.ID == id) =
    (rs.find? (fun r => r.ID == id)).map (fun r =>
        if r.ID = rideID then { r with Status := status, UpdatedAt := now } else r) := by
  induction rs with
  | nil => rfl
  | cons r rs ih =>
    simp only [List.map_cons, List.find?_cons, map_status_ID]
    split
    · rfl
    · exact ih

theorem filter_map_status (now : Time) (rideID : Nat) (status : RideStatus) (rs : List Ride) :
    (rs.map (fun r =>
        if r.ID = rideID then { r with Status := status, UpdatedAt := now } else r)).filter
      (fun r => r.ID != rideID) = rs.filter (fun r => r.ID != rideID) := by
  induction rs with
  | nil => rfl
  | cons r rs ih =>
    by_cases h : r.ID = rideID
    · simp [h, ih]
    · simp [h, ih]

/-- Claim C15 as stated fails: the ride an update of the status has written differs from
the ride before in more than the status, its `updated_at` is the time of the call. -/
theorem UpdateRideStatus_rewrites_updated_at :
    Example.freeStore.findRide 1 = some (Example.ride 1 2 0) ∧
    (RideRepository.UpdateRideStatus (Example.env 200 0) Example.freeStore 1
      RideStatusAccepted).1 = none ∧
    (RideRepository.UpdateRideStatus (Example.env 200 0) Example.freeStore 1
      RideStatusAccepted).2.findRide 1 ≠
        some { Example.ride 1 2 0 with Status := RideStatusAccepted } ∧
    (Example.ride 1 2 0).UpdatedAt = 100 ∧
    ((RideRepository.UpdateRideStatus (Example.env 200 0) Example.freeStore 1
      RideStatusAccepted).2.findRide 1).map (fun r => r.UpdatedAt) = some 200 := by
  decide

/-- Claim C15, amended: for an existing ride, whatever its status, and any new status
(the database not refusing the update) `UpdateRideStatus` returns no error; the ride
gets the new status and the time of the call as `updated_at`, its other columns, among
them `seats_booked` and `seats_available`, the other rides, the passenger records, the
users and the ratings are unchanged; for the five words the handler accepts it answers
200. -/
theorem UpdateRideStatus_overwrites (env : Env) (db : Store) (rideID : Nat)
    (status : RideStatus) (ride : Ride)
    (hride : db.findRide rideID = some ride) (hok : env.fails .updateStatus = false) :
    (RideRepository.UpdateRideStatus env db rideID status).1 = none ∧
    (RideRepository.UpdateRideStatus env db rideID status).2.findRide rideID =
      some { ride with Status := status, UpdatedAt := env.now } ∧
    (RideRepository.UpdateRideStatus env db rideID status).2.rides.map (fun r => r.ID) =
      db.rides.map (fun r => r.ID) ∧
    (RideRepository.UpdateRideStatus env db rideID status).2.rides.filter
        (fun r => r.ID != rideID) = db.rides.filter (fun r => r.ID != rideID) ∧
    (RideRepository.UpdateRideStatus env db rideID status).2.passengers = db.passengers ∧
    (RideRepository.UpdateRideStatus env db rideID status).2.users = db.users ∧
    (RideRepository.UpdateRideStatus env db rideID status).2.ratings = db.ratings ∧
    (∀ id, handlers.ParseUint32 id = some rideID → handlers.statusValid status = true →
      (handlers.UpdateRideStatus env db id (some status)).1 =
        ⟨handlers.StatusOK, .message "Ride status updated successfully"⟩ ∧
      (handlers.UpdateRideStatus env db id (some status)).2 =
        (RideRepository.UpdateRideStatus env db rideID status).2) := by
  have hid : ride.ID = rideID := (Store.findRide_some hride).2
  have h : RideRepository.UpdateRideStatus env db rideID status = (none, { db with
      rides := db.rides.map (fun r =>
        if r.ID = rideID then { r with Status := status, UpdatedAt := env.now } else r) }) := by
    unfold RideRepository.UpdateRideStatus
    simp only [hok, Bool.false_eq_true, if_false]
  refine ⟨by rw [h], ?_, ?_, ?_, by rw [h], by rw [h], by rw [h], ?_⟩
  · rw [h]
    show List.find? _ (List.map _ _) = _
    rw [find_map_status]
    have : db.rides.find? (fun r => r.ID == rideID) = some ride := hride
    rw [this, Option.map_some', if_pos hid]
  · rw [h]
    show List.map _ (List.map _ _) = _
    rw [List.map_map]
    apply List.map_congr_left
    intro r _
    exact map_status_ID _ _ _ _
  · rw [h]
    exact filter_map_status _ _ _ _
  · intro id hparse hv
    unfold handlers.UpdateRideStatus
    simp only [hparse, hv, Bool.not_true, Bool.false_eq_true, if_false, h, and_self]

/-- Claim C15, witness:
a completed ride is set back to `pending`, no transition is rejected, and its seat
columns stay. -/
theorem UpdateRideStatus_overwrites_witness :
    ({ Example.freeStore with
        rides := [{ Example.ride 1 2 0 with Status := RideStatusCompleted }] } :
      Store).findRide 1 = some { Example.ride 1 2 0 with Status := RideStatusCompleted } ∧
    ((RideRepository.UpdateRideStatus (Example.env 200 0)
      { Example.freeStore with
        rides := [{ Example.ride 1 2 0 with Status := RideStatusCompleted }] } 1
      RideStatusPending).2.findRide 1).map (fun r => (r.Status, r.SeatsBooked, r.SeatsAvailable))
        = some (RideStatusPending, 0, 2) :=
  have h := UpdateRideStatus_overwrites (Example.env 200 0)
    { Example.freeStore with
      rides := [{ Example.ride 1 2 0 with Status := RideStatusCompleted }] } 1
    RideStatusPending { Example.ride 1 2 0 with Status := RideStatusCompleted }
    (by decide) (by decide)
  ⟨by decide, by rw [h.2.1]; rfl⟩

/-- An update of the status of a ride that has no row changes no row. -/
theorem RideRepository.UpdateRideStatus_absent {env : Env} {db : Store} {rideID : Nat}
    (status : RideStatus) (hnone : db.findRide rideID = none)
    (hok : env.fails .updateStatus = false) :
    UpdateRideStatus env db rideID status = (none, db) := by
  unfold UpdateRideStatus
  simp only [hok, Bool.false_eq_true, if_false]
  have hne : ∀ r ∈ db.rides, r.ID ≠ rideID := by
    intro r hr
    have := List.find?_eq_none.mp hnone r hr
    simpa using this
  have hmap : db.rides.map (fun r =>
      if r.ID = rideID then { r with Status := status, UpdatedAt := env.now } else r)
      = db.rides := by
    conv_rhs => rw [← List.map_id db.rides]
    apply List.map_congr_left
    intro r hr
    rw [if_neg (hne r hr)]
    rfl
  rw [hmap]

/-- Claim C16 fails on the code: for a `rideID` that has no ride record the update
matches no row, which GORM does not report; `UpdateRideStatus` returns `nil`, the
handler answers 200 "Ride status updated successfully" and nothing was updated. -/
theorem UpdateRideStatus_missing_acknowledged (env : Env) (db : Store) (id : String)
    (rideID : Nat) (status : String)
    (hparse : handlers.ParseUint32 id = some rideID)
    (hnone : db.findRide rideID = none)
    (hvalid : handlers.statusValid status = true)
    (hok : env.fails .updateStatus = false) :
    RideRepository.UpdateRideStatus env db rideID status = (none, db) ∧
    handlers.UpdateRideStatus env db id (some status) =
      (⟨handlers.StatusOK, .message "Ride status updated successfully"⟩, db) := by
  have h := RideRepository.UpdateRideStatus_absent status hnone hok
  refine ⟨h, ?_⟩
  unfold handlers.UpdateRideStatus
  simp only [hparse, hvalid, Bool.not_true, Bool.false_eq_true, if_false, h]

/-- Claim C16, witness:
on the empty store the status of the ride 1 is "updated" to `completed` with a 200. -/
theorem UpdateRideStatus_missing_acknowledged_witness :
    Store.empty.findRide 1 = none ∧
    handlers.UpdateRideStatus (Example.env 200 0) Store.empty "1" (some "completed") =
      (⟨handlers.StatusOK, .message "Ride status updated successfully"⟩, Store.empty) :=
  ⟨by decide,
    (UpdateRideStatus_missing_acknowledged (Example.env 200 0) Store.empty "1" 1 "completed"
      (by decide) (by decide) (by decide) (by decide)).2⟩

/-! ### C17: the collection queries -/

theorem RideRepository.map_preloadAll_row (db : Store) (rs : List Ride) :
    (rs.map (preloadAll db)).map (fun l => l.row) = rs := by
  simp [List.map_map, Function.comp_def, preloadAll]

theorem RideRepository.map_preloadUser_fst (db : Store) (ps : List RidePassenger) :
    (ps.map (preloadUser db)).map (fun q => q.1) = ps := by
  simp [List.map_map, Function.comp_def, preloadUser]

/-- Claim C17: `GetRidesByRiderID`, `GetRidesByDriverID` and `GetPassengersByRideID`
never change the store; when the database answers they return, without error, exactly
the rows whose `rider_id`, `driver_id` or `ride_id` is the given identifier, and the
empty sequence when no row matches. -/
theorem collection_queries (env : Env) (db : Store) (id : Nat) :
    ((RideRepository.GetRidesByRiderID env db id).2 = db ∧
      (RideRepository.GetRidesByDriverID env db id).2 = db ∧
      (RideRepository.GetPassengersByRideID env db id).2 = db) ∧
    (env.fails .findRides = false → env.fails .preload = false →
      (∃ rides, (RideRepository.GetRidesByRiderID env db id).1 = .ok rides ∧
        rides.map (fun l => l.row) = db.rides.filter (fun r => decide (r.RiderID = id)) ∧
        ((∀ r ∈ db.rides, r.RiderID ≠ id) → rides = [])) ∧
      (∃ rides, (RideRepository.GetRidesByDriverID env db id).1 = .ok rides ∧
        rides.map (fun l => l.row) =
          db.rides.filter (fun r => decide (r.DriverID = some id)) ∧
        ((∀ r ∈ db.rides, r.DriverID ≠ some id) → rides = []))) ∧
    (env.fails .findPassengers = false → env.fails .preload = false →
      ∃ passengers, (RideRepository.GetPassengersByRideID env db id).1 = .ok passengers ∧
        passengers.map (fun q => q.1) =
          db.passengers.filter (fun p => decide (p.RideID = id)) ∧
        ((∀ p ∈ db.passengers, p.RideID ≠ id) → passengers = [])) := by
  refine ⟨⟨?_, ?_, ?_⟩, ?_, ?_⟩
  · unfold RideRepository.GetRidesByRiderID
    cases env.fails .findRides <;> cases env.fails .preload <;> rfl
  · unfold RideRepository.GetRidesByDriverID
    cases env.fails .findRides <;> cases env.fails .preload <;> rfl
  · unfold RideRepository.GetPassengersByRideID
    cases env.fails .findPassengers <;> cases env.fails .preload <;> rfl
  · intro h1 h2
    constructor
    · refine ⟨(db.rides.filter (fun r => r.RiderID == id)).map
        (RideRepository.preloadAll db), ?_, ?_, ?_⟩
      · unfold RideRepository.GetRidesByRiderID
        simp only [h1, h2, Bool.false_eq_true, if_false]
      · rw [RideRepository.map_preloadAll_row]
        apply List.filter_congr
        intro r _
        rw [Bool.eq_iff_iff]; simp
      · intro hnone
        have : db.rides.filter (fun r => r.RiderID == id) = [] := by
          rw [List.filter_eq_nil_iff]
          intro r hr
          simpa using hnone r hr
        rw [this]; rfl
    · refine ⟨(db.rides.filter (fun r => r.DriverID == some id)).map
        (RideRepository.preloadAll db), ?_, ?_, ?_⟩
      · unfold RideRepository.GetRidesByDriverID
        simp only [h1, h2, Bool.false_eq_true, if_false]
      · rw [RideRepository.map_preloadAll_row]
        apply List.filter_congr
        intro r _
        rw [Bool.eq_iff_iff]; simp
      · intro hnone
        have : db.rides.filter (fun r => r.DriverID == some id) = [] := by
          rw [List.filter_eq_nil_iff]
          intro r hr
          simpa using hnone r hr
        rw [this]; rfl
  · intro h1 h2
    refine ⟨(db.passengers.filter (fun p => p.RideID == id)).map
      (RideRepository.preloadUser db), ?_, ?_, ?_⟩
    · unfold RideRepository.GetPassengersByRideID
      simp only [h1, h2, Bool.false_eq_true, if_false]
    · rw [RideRepository.map_preloadUser_fst]
      apply List.filter_congr
      intro r _
      rw [Bool.eq_iff_iff]; simp
    · intro hnone
      have : db.passengers.filter (fun p => p.RideID == id) = [] := by
        rw [List.filter_eq_nil_iff]
        intro r hr
        simpa using hnone r hr
      rw [this]; rfl

/-- Claim C17, witness:
the rides of the driver 5, the rides of the rider 8 (none, no error) and the passengers
of the ride 2. -/
theorem collection_queries_witness :
    (∃ rides, (RideRepository.GetRidesByDriverID (Example.env 200 0) Example.drivenStore 5).1
        = .ok rides ∧
      rides.map (fun l => l.row.ID) = [1]) ∧
    (∃ rides, (RideRepository.GetRidesByRiderID (Example.env 200 0) Example.drivenStore 8).1
        = .ok rides ∧ rides = []) ∧
    (∃ passengers,
      (RideRepository.GetPassengersByRideID (Example.env 200 0) Example.drivenStore 2).1
        = .ok passengers ∧
      passengers.map (fun q => q.1) = [Example.passenger 2 2 2]) := by
  have h := collection_queries (Example.env 200 0) Example.drivenStore 5
  have h8 := collection_queries (Example.env 200 0) Example.drivenStore 8
  have h2 := collection_queries (Example.env 200 0) Example.drivenStore 2
  obtain ⟨rides, hr, hrows, _⟩ := (h.2.1 rfl rfl).2
  obtain ⟨rides8, hr8, _, hnil⟩ := (h8.2.1 rfl rfl).1
  obtain ⟨ps, hp, hprows, _⟩ := h2.2.2 rfl rfl
  refine ⟨⟨rides, hr, ?_⟩, ⟨rides8, hr8, hnil (by decide)⟩, ⟨ps, hp, ?_⟩⟩
  · have : rides.map (fun l => l.row.ID) = (rides.map (fun l => l.row)).map (fun r => r.ID) := by
      rw [List.map_map]; rfl
    rw [this, hrows]
    decide
  · rw [hprows]
    decide

/-! ### C18: the capacity of a created ride -/

/-- Claim C18 fails on the code: a shared request with a negative `seats_available`
passes the rules of `CreateRideRequest` (`required_if` only rejects zero), `CreateRide`
answers 201 and the persisted ride has `seats_booked = 0` above its
`seats_available`. -/
theorem CreateRide_accepts_negative_seats (env : Env) (db : Store)
    (req : handlers.CreateRideRequest) (uid : Nat)
    (hvalid : req.valid = true) (hshared : req.RideType = RideTypeShared)
    (hneg : req.SeatsAvailable < 0)
    (hok : env.fails .createRide = false)
    (hfresh : ∀ r ∈ db.rides, r.ID ≠ ((handlers.newRide req uid).inserted env).ID) :
    (handlers.CreateRide env db (some req) (some uid)).1.status = handlers.StatusCreated ∧
    ∃ ride ∈ (handlers.CreateRide env db (some req) (some uid)).2.rides,
      ride.SeatsBooked = 0 ∧ ride.SeatsAvailable = req.SeatsAvailable ∧
      ¬ (0 ≤ ride.SeatsBooked ∧ ride.SeatsBooked ≤ ride.SeatsAvailable) := by
  have hd : db.rides.any (fun r => r.ID == ((handlers.newRide req uid).inserted env).ID)
      = false := by
    rw [List.any_eq_false]
    intro r hr
    simpa using hfresh r hr
  have h : handlers.CreateRide env db (some req) (some uid) =
      (⟨handlers.StatusCreated,
          .ride "Ride created successfully" ((handlers.newRide req uid).inserted env)⟩,
        { db with rides := db.rides ++ [(handlers.newRide req uid).inserted env] }) := by
    unfold handlers.CreateRide RideRepository.CreateRide
    simp [hvalid, hok, hd]
  rw [h]
  refine ⟨rfl, (handlers.newRide req uid).inserted env, by simp, ?_⟩
  have hb : ((handlers.newRide req uid).inserted env).SeatsBooked = 0 :=
    handlers.newRide_SeatsBooked req uid
  have ha : ((handlers.newRide req uid).inserted env).SeatsAvailable = req.SeatsAvailable := by
    show (handlers.newRide req uid).SeatsAvailable = _
    rw [handlers.newRide_SeatsAvailable, if_pos hshared]
  refine ⟨hb, ha, ?_⟩
  rw [hb, ha]
  omega

/-- Claim C18, witness:
a shared request with `seats_available = -3` is accepted and persisted as it is. -/
theorem CreateRide_accepts_negative_seats_witness :
    (Example.request "shared" (-3)).valid = true ∧
    (handlers.CreateRide (Example.env 100 1) Store.empty
      (some (Example.request "shared" (-3))) (some 7)).1.status = handlers.StatusCreated ∧
    (handlers.CreateRide (Example.env 100 1) Store.empty
      (some (Example.request "shared" (-3))) (some 7)).2.rides.map
        (fun r => (r.SeatsBooked, r.SeatsAvailable)) = [(0, -3)] :=
  ⟨by decide,
    (CreateRide_accepts_negative_seats (Example.env 100 1) Store.empty
      (Example.request "shared" (-3)) 7 (by decide) rfl (by decide) (by decide)
      (by decide)).1,
    by decide⟩

/-! ### C19: the counter and the passenger records -/

/-- Claim C19: with unbounded integers, after any calls of `CreateRide`, `JoinRide`,
`LeaveRide` and `UpdateRideStatus` served one after the other on the empty store, the
`seats_booked` of every ride is the sum of the seats of the passenger records that
refer to the ride. -/
theorem seats_booked_is_sum_of_reservations (calls : List (Env × Call)) :
    ∀ r ∈ (runCalls .unbounded Store.empty calls).rides,
      r.SeatsBooked =
        (((runCalls .unbounded Store.empty calls).passengers.filter
          (fun p => p.RideID == r.ID)).map (fun p => p.Seats)).sum := by
  intro r hr
  exact (Store.Consistent.empty.runCalls calls).counter r hr

/-- Claim C19, witness:
after the scenario of the specification the ride 1 has one seat booked, the seat of its
one passenger record. -/
theorem seats_booked_is_sum_of_reservations_witness :
    (runCalls .unbounded Store.empty Example.scenario).rides.map
      (fun r => (r.ID, r.SeatsBooked)) = [(1, 1)] ∧
    (runCalls .unbounded Store.empty Example.scenario).passengers.map
      (fun p => (p.RideID, p.Seats)) = [(1, 1)] ∧
    ∀ r ∈ (runCalls .unbounded Store.empty Example.scenario).rides,
      r.SeatsBooked =
        (((runCalls .unbounded Store.empty Example.scenario).passengers.filter
          (fun p => p.RideID == r.ID)).map (fun p => p.Seats)).sum :=
  ⟨by decide, by decide, seats_booked_is_sum_of_reservations Example.scenario⟩

/-! ### C20: the capacity check and 64-bit overflow -/

/-- A join commits when the ride is found, Go's sum is within capacity, nothing is
refused and the key of the new row is not taken. -/
theorem RideRepository.AddPassenger_commits {m : IntMode} {env : Env} {db : Store}
    {passenger : RidePassenger} {ride : Ride}
    (hride : db.findRide passenger.RideID = some ride)
    (hcap : m.add ride.SeatsBooked passenger.Seats ≤ ride.SeatsAvailable)
    (hok : ∀ op, env.fails op = false)
    (hfresh : ∀ q ∈ db.passengers, q.ID ≠ (passenger.inserted env).ID) :
    AddPassenger m env db passenger = (none, { db with
      rides := setSeatsBooked env.now ride.ID (m.add ride.SeatsBooked passenger.Seats) db.rides
      passengers := db.passengers ++ [passenger.inserted env] }) := by
  have hdup : db.passengers.any (fun q => q.ID == (passenger.inserted env).ID) = false := by
    rw [List.any_eq_false]
    intro q hq
    simpa using hfresh q hq
  rw [AddPassenger_eq]
  simp only [hok, hride, hdup, not_lt.mpr hcap, gt_iff_lt, if_false, Bool.false_eq_true]

/-- Claim C20 fails on the code: with 64-bit integers, on a ride with
`0 <= seats_booked <= seats_available` a join for `seats >= 1` whose sum
`seats_booked + seats` passes `2^63 - 1` is not refused: Go's sum wraps to a negative
number, the capacity check lets it through, `AddPassenger` returns `nil` and the ride is
left with the negative `seats_booked = seats_booked + seats - 2^64`. -/
theorem AddPassenger_overflow_bypasses_check (env : Env) (db : Store)
    (passenger : RidePassenger) (ride : Ride)
    (hride : db.findRide passenger.RideID = some ride)
    (hb : 0 ≤ ride.SeatsBooked) (hle : ride.SeatsBooked ≤ ride.SeatsAvailable)
    (ha : ride.SeatsAvailable < 9223372036854775808)
    (hs1 : 1 ≤ passenger.Seats) (hs2 : passenger.Seats < 9223372036854775808)
    (hover : 9223372036854775808 ≤ ride.SeatsBooked + passenger.Seats)
    (hok : ∀ op, env.fails op = false)
    (hfresh : ∀ q ∈ db.passengers, q.ID ≠ (passenger.inserted env).ID) :
    (RideRepository.AddPassenger .int64 env db passenger).1 = none ∧
    ((RideRepository.AddPassenger .int64 env db passenger).2.findRide passenger.RideID).map
      (fun r => (r.SeatsBooked, r.SeatsAvailable)) =
      some (ride.SeatsBooked + passenger.Seats - 18446744073709551616, ride.SeatsAvailable) ∧
    ride.SeatsBooked + passenger.Seats - 18446744073709551616 < 0 := by
  have hsum : IntMode.int64.add ride.SeatsBooked passenger.Seats =
      ride.SeatsBooked + passenger.Seats - 18446744073709551616 := by
    simp only [IntMode.add, IntMode.norm, wrapInt64]
    omega
  have hcap : IntMode.int64.add ride.SeatsBooked passenger.Seats ≤ ride.SeatsAvailable := by
    rw [hsum]; omega
  rw [RideRepository.AddPassenger_commits hride hcap hok hfresh]
  refine ⟨rfl, ?_, by omega⟩
  show Option.map _ (List.find? _ (setSeatsBooked _ _ _ _)) = _
  rw [setSeatsBooked_find]
  have : db.rides.find? (fun r => r.ID == passenger.RideID) = some ride := hride
  rw [this, Option.map_some', Option.map_some', Ride.setSeatsBooked_of_eq _ _ _ _ rfl, hsum]

/-- Claim C20, witness:
on a ride with one of two seats booked a join for `2^63 - 1` seats succeeds and leaves
`seats_booked = -2^63`; the same through the handlers, from the empty store. -/
theorem AddPassenger_overflow_bypasses_check_witness :
    Example.halfStore.findRide 1 = some (Example.ride 1 2 1) ∧
    (handlers.JoinRideRequest.mk Example.maxSeats).valid = true ∧
    (RideRepository.AddPassenger .int64 (Example.env 200 2) Example.halfStore
      (Example.joining 1 Example.maxSeats)).1 = none ∧
    ((RideRepository.AddPassenger .int64 (Example.env 200 2) Example.halfStore
      (Example.joining 1 Example.maxSeats)).2.findRide 1).map
        (fun r => (r.SeatsBooked, r.SeatsAvailable)) = some (-9223372036854775808, 2) ∧
    (runCalls .int64 Store.empty Example.overflowCalls).rides.map
      (fun r => (r.SeatsBooked, r.SeatsAvailable)) = [(-9223372036854775808, 2)] :=
  have h := AddPassenger_overflow_bypasses_check (Example.env 200 2) Example.halfStore
    (Example.joining 1 Example.maxSeats) (Example.ride 1 2 1) (by decide) (by decide)
    (by decide) (by decide) (by decide) (by decide) (by decide) (fun _ => rfl) (by decide)
  ⟨by decide, by decide, h.1, h.2.1, by decide⟩


/-! ### C21: rides that are not shared -/

/-- A sum `0 + seats` of a positive `int` is positive: it does not wrap. -/
theorem IntMode.add_zero_pos (m : IntMode) (s : Int) (hs : 1 ≤ s) (hr : m.InRange s) :
    0 < m.add 0 s := by
  cases m with
  | unbounded => simp only [IntMode.add, IntMode.norm]; omega
  | int64 =>
    simp only [IntMode.InRange] at hr
    simp only [IntMode.add, IntMode.norm, wrapInt64]
    omega

theorem Ride.setSeatsBooked_RideType (now : Time) (id : Nat) (v : Int) (r : Ride) :
    (r.setSeatsBooked now id v).RideType = r.RideType := by
  unfold Ride.setSeatsBooked
  split <;> rfl

theorem Store.Idle.of_empty : Store.empty.Idle :=
  { rideKeys := List.nodup_nil
    owner := fun _ h => by simp [Store.empty] at h
    idle := fun _ h => by simp [Store.empty] at h }

/-- On a ride that is not shared a join for at least one seat is refused, whatever the
database answers, and with `ErrNotEnoughSeats` when it answers the lookup. -/
theorem Store.Idle.AddPassenger_refused {db : Store} (hc : db.Idle) (m : IntMode)
    (env : Env) (passenger : RidePassenger) (ride : Ride) (hmem : ride ∈ db.rides)
    (htype : ride.RideType ≠ RideTypeShared) (hid : passenger.RideID = ride.ID)
    (hseats : 1 ≤ passenger.Seats) (hrange : m.InRange passenger.Seats) :
    (∃ e, RideRepository.AddPassenger m env db passenger = (some e, db)) ∧
    (env.fails .begin = false → env.fails .firstRide = false →
      RideRepository.AddPassenger m env db passenger = (some .notEnoughSeats, db)) := by
  have hfind : db.findRide passenger.RideID = some ride := by
    cases hf : db.findRide passenger.RideID with
    | none =>
      unfold Store.findRide at hf
      have := List.find?_eq_none.mp hf ride hmem
      simp [hid] at this
    | some r0 =>
      have h0 := Store.findRide_some hf
      rw [ride_eq_of_ID hc.rideKeys h0.1 hmem (h0.2.trans hid)]
  obtain ⟨ha, hb, _⟩ := hc.idle ride hmem htype
  have hcap : m.add ride.SeatsBooked passenger.Seats > ride.SeatsAvailable := by
    rw [ha, hb]; exact IntMode.add_zero_pos m _ hseats hrange
  rw [RideRepository.AddPassenger_eq]
  simp only [hfind, hcap, if_true]
  constructor
  · split
    · exact ⟨_, rfl⟩
    · split
      · exact ⟨_, rfl⟩
      · exact ⟨_, rfl⟩
  · intro h1 h2
    simp [h1, h2]

/-- A join for a number of seats that is at least one and a value of `int` keeps the
rides that are not shared idle. -/
theorem Store.Idle.AddPassenger_idle {db : Store} (hc : db.Idle) (m : IntMode) (env : Env)
    (passenger : RidePassenger) (hseats : 1 ≤ passenger.Seats)
    (hrange : m.InRange passenger.Seats) :
    (RideRepository.AddPassenger m env db passenger).2.Idle := by
  cases hres : (RideRepository.AddPassenger m env db passenger).1 with
  | some e =>
    rw [RideRepository.AddPassenger_error hres]; exact hc
  | none =>
    obtain ⟨ride, hride, hcap, _, hdb⟩ := RideRepository.AddPassenger_ok hres
    have hmem := (Store.findRide_some hride).1
    have hid := (Store.findRide_some hride).2
    have hshared : ride.RideType = RideTypeShared := by
      by_contra hne
      obtain ⟨ha, hb, _⟩ := hc.idle ride hmem hne
      have := IntMode.add_zero_pos m _ hseats hrange
      rw [ha, hb] at hcap
      omega
    rw [hdb]
    refine ⟨?_, ?_, ?_⟩
    · show (List.map _ (setSeatsBooked _ _ _ _)).Nodup
      rw [setSeatsBooked_map_ID]; exact hc.rideKeys
    · intro p hp
      have key : ∀ r ∈ db.rides, ∃ r1 ∈ setSeatsBooked env.now ride.ID
          (m.add ride.SeatsBooked passenger.Seats) db.rides, r1.ID = r.ID := by
        intro r hr
        exact ⟨r.setSeatsBooked _ _ _, List.mem_map_of_mem _ hr, Ride.setSeatsBooked_ID _ _ _ _⟩
      rcases List.mem_append.mp hp with h | h
      · obtain ⟨r, hr, e⟩ := hc.owner p h
        obtain ⟨r1, hr1, e1⟩ := key r hr
        exact ⟨r1, hr1, e1.trans e⟩
      · obtain ⟨r1, hr1, e1⟩ := key ride hmem
        rw [List.mem_singleton.mp h]
        exact ⟨r1, hr1, e1.trans hid⟩
    · intro r hr hne
      obtain ⟨r0, hr0, e⟩ := mem_setSeatsBooked hr
      have hne0 : r0.RideType ≠ RideTypeShared := by
        rw [e, Ride.setSeatsBooked_RideType] at hne; exact hne
      have hkey : r0.ID ≠ ride.ID := by
        intro h
        exact hne0 (ride_eq_of_ID hc.rideKeys hr0 hmem h ▸ hshared)
      rw [Ride.setSeatsBooked_of_ne _ _ _ _ hkey] at e
      obtain ⟨ha, hb, hp⟩ := hc.idle r0 hr0 hne0
      rw [e]
      refine ⟨ha, hb, ?_⟩
      intro p hp1
      rcases List.mem_append.mp hp1 with h | h
      · exact hp p h
      · rw [List.mem_singleton.mp h]
        show passenger.RideID ≠ r0.ID
        rw [← hid]; exact fun h => hkey h.symm

/-- A leave keeps the rides that are not shared idle. -/
theorem Store.Idle.RemovePassenger_idle {db : Store} (hc : db.Idle) (m : IntMode) (env : Env)
    (passengerID : Nat) :
    (RideRepository.RemovePassenger m env db passengerID).2.Idle := by
  cases hres : (RideRepository.RemovePassenger m env db passengerID).1 with
  | some e =>
    rw [RideRepository.RemovePassenger_error hres]; exact hc
  | none =>
    obtain ⟨passenger, ride, hpass, hride, hdb⟩ := RideRepository.RemovePassenger_ok hres
    have hpmem := (Store.findPassenger_some hpass).1
    have hmem := (Store.findRide_some hride).1
    have hid := (Store.findRide_some hride).2
    have hshared : ride.RideType = RideTypeShared := by
      by_contra hne
      exact (hc.idle ride hmem hne).2.2 passenger hpmem hid.symm
    rw [hdb]
    refine ⟨?_, ?_, ?_⟩
    · show (List.map _ (setSeatsBooked _ _ _ _)).Nodup
      rw [setSeatsBooked_map_ID]; exact hc.rideKeys
    · intro p hp
      obtain ⟨r, hr, e⟩ := hc.owner p (List.mem_of_mem_filter hp)
      exact ⟨r.setSeatsBooked _ _ _, List.mem_map_of_mem _ hr,
        (Ride.setSeatsBooked_ID _ _ _ _).trans e⟩
    · intro r hr hne
      obtain ⟨r0, hr0, e⟩ := mem_setSeatsBooked hr
      have hne0 : r0.RideType ≠ RideTypeShared := by
        rw [e, Ride.setSeatsBooked_RideType] at hne; exact hne
      have hkey : r0.ID ≠ ride.ID := by
        intro h
        exact hne0 (ride_eq_of_ID hc.rideKeys hr0 hmem h ▸ hshared)
      rw [Ride.setSeatsBooked_of_ne _ _ _ _ hkey] at e
      obtain ⟨ha, hb, hp⟩ := hc.idle r0 hr0 hne0
      rw [e]
      exact ⟨ha, hb, fun p hp1 => hp p (List.mem_of_mem_filter hp1)⟩

/-- A ride created without booked seats, and without seats when it is not shared, keeps
the rides that are not shared idle. -/
theorem Store.Idle.CreateRide_idle {db : Store} (hc : db.Idle) (env : Env) (ride : Ride)
    (hzero : ride.SeatsBooked = 0)
    (havail : ride.RideType ≠ RideTypeShared → ride.SeatsAvailable = 0) :
    (RideRepository.CreateRide env db ride).2.Idle := by
  unfold RideRepository.CreateRide
  split
  · exact hc
  · split
    · exact hc
    · rename_i hdup
      have hfresh : ∀ r ∈ db.rides, r.ID ≠ (ride.inserted env).ID := by
        simpa using hdup
      refine ⟨?_, ?_, ?_⟩
      · show (List.map _ (db.rides ++ [ride.inserted env])).Nodup
        rw [List.map_append, List.nodup_append]
        refine ⟨hc.rideKeys, by simp, ?_⟩
        intro a ha hb
        simp only [List.map_cons, List.map_nil, List.mem_singleton] at hb
        obtain ⟨q, hq, e⟩ := List.mem_map.mp ha
        exact hfresh q hq (e.trans hb)
      · intro p hp
        obtain ⟨r, hr, e⟩ := hc.owner p hp
        exact ⟨r, List.mem_append_left _ hr, e⟩
      · intro r hr hne
        rcases List.mem_append.mp hr with h | h
        · exact hc.idle r h hne
        · rw [List.mem_singleton.mp h] at hne ⊢
          refine ⟨havail hne, hzero, ?_⟩
          intro p hp e
          obtain ⟨r0, hr0, e0⟩ := hc.owner p hp
          exact hfresh r0 hr0 (e0.trans e)

/-- An update of the status keeps the rides that are not shared idle. -/
theorem Store.Idle.UpdateRideStatus_idle {db : Store} (hc : db.Idle) (env : Env)
    (rideID : Nat) (status : RideStatus) :
    (RideRepository.UpdateRideStatus env db rideID status).2.Idle := by
  unfold RideRepository.UpdateRideStatus
  split
  · exact hc
  · have hID : ∀ r : Ride, (if r.ID = rideID then
        { r with Status := status, UpdatedAt := env.now } else r).ID = r.ID := by
      intro r; split <;> rfl
    have hT : ∀ r : Ride, (if r.ID = rideID then
        { r with Status := status, UpdatedAt := env.now } else r).RideType = r.RideType := by
      intro r; split <;> rfl
    have hSA : ∀ r : Ride, (if r.ID = rideID then
        { r with Status := status, UpdatedAt := env.now } else r).SeatsAvailable =
          r.SeatsAvailable := by
      intro r; split <;> rfl
    have hSB : ∀ r : Ride, (if r.ID = rideID then
        { r with Status := status, UpdatedAt := env.now } else r).SeatsBooked = r.SeatsBooked := by
      intro r; split <;> rfl
    refine ⟨?_, ?_, ?_⟩
    · show (List.map _ (List.map _ db.rides)).Nodup
      rw [List.map_map]
      have : ((fun r : Ride => r.ID) ∘ fun r => if r.ID = rideID then
          { r with Status := status, UpdatedAt := env.now } else r) = fun r => r.ID := by
        funext r; exact hID r
      rw [this]; exact hc.rideKeys
    · intro p hp
      obtain ⟨r, hr, e⟩ := hc.owner p hp
      exact ⟨_, List.mem_map_of_mem _ hr, (hID r).trans e⟩
    · intro r hr hne
      obtain ⟨r0, hr0, e⟩ := List.mem_map.mp hr
      rw [← e, hT] at hne
      obtain ⟨ha, hb, hp⟩ := hc.idle r0 hr0 hne
      rw [← e, hID, hSA, hSB]
      exact ⟨ha, hb, hp⟩

/-- The store `JoinRide` leaves: the one it was given, or the one `AddPassenger` leaves
for the passenger built from a request the `binding` rules accept. -/
theorem handlers.JoinRide_store_request (m : IntMode) (env : Env) (db : Store) (id : String)
    (userID : Option Nat) (body : Option JoinRideRequest) :
    (JoinRide m env db id userID body).2 = db ∨
    ∃ rideID uid req, body = some req ∧ 1 ≤ req.Seats ∧
      (JoinRide m env db id userID body).2 =
        (RideRepository.AddPassenger m env db (newPassenger rideID uid req)).2 := by
  unfold JoinRide
  cases ParseUint32 id with
  | none => exact Or.inl rfl
  | some rideID =>
    cases userID with
    | none => exact Or.inl rfl
    | some uid =>
      cases body with
      | none => exact Or.inl rfl
      | some req =>
        by_cases hv : req.valid = true
        · right
          refine ⟨rideID, uid, req, rfl, ?_, ?_⟩
          · simp only [JoinRideRequest.valid, Bool.and_eq_true, decide_eq_true_eq] at hv
            exact hv.2
          · simp only [hv, Bool.not_true, Bool.false_eq_true, if_false]
            split <;> simp_all
        · left
          simp [hv]

/-- Every call whose seats are a value of `int` keeps the rides that are not shared
idle. -/
theorem Store.Idle.run_idle {db : Store} (hc : db.Idle) (m : IntMode) (env : Env) (c : Call)
    (hr : c.seatsInRange m) : (c.run m env db).2.Idle := by
  cases c with
  | createRide body userID =>
    simp only [Call.run]
    rcases handlers.CreateRide_store env db body userID with h | ⟨req, uid, _, h⟩
    · rw [h]; exact hc
    · rw [h]
      refine hc.CreateRide_idle env _ (handlers.newRide_SeatsBooked req uid) ?_
      intro hne
      have hne1 : req.RideType ≠ RideTypeShared := by
        intro h1
        apply hne
        unfold handlers.newRide
        simp only [h1, if_true]
      rw [handlers.newRide_SeatsAvailable, if_neg hne1]
  | joinRide id userID body =>
    simp only [Call.run]
    rcases handlers.JoinRide_store_request m env db id userID body with
      h | ⟨rideID, uid, req, hb, hs, h⟩
    · rw [h]; exact hc
    · rw [h]
      subst hb
      exact hc.AddPassenger_idle m env _ hs hr
  | leaveRide passengerId =>
    simp only [Call.run]
    rcases handlers.LeaveRide_store m env db passengerId with h | ⟨pid, h⟩
    · rw [h]; exact hc
    · rw [h]; exact hc.RemovePassenger_idle m env pid
  | updateStatus id body =>
    simp only [Call.run]
    rcases handlers.UpdateRideStatus_store env db id body with h | ⟨rideID, status, h⟩
    · rw [h]; exact hc
    · rw [h]; exact hc.UpdateRideStatus_idle env rideID status

/-- Calls made one after the other keep the rides that are not shared idle. -/
theorem Store.Idle.runCalls_idle (m : IntMode) (calls : List (Env × Call)) {db : Store}
    (hc : db.Idle) (hr : ∀ ec ∈ calls, ec.2.seatsInRange m) :
    (runCalls m db calls).Idle := by
  induction calls generalizing db with
  | nil => exact hc
  | cons ec rest ih =>
    exact ih (hc.run_idle m ec.1 ec.2 (hr ec (List.mem_cons_self _ _)))
      (fun x hx => hr x (List.mem_cons_of_mem _ hx))

/-- Claim C21: in every store that calls of `CreateRide`, `JoinRide`, `LeaveRide` and
`UpdateRideStatus` served one after the other reach from the empty store (the seats of
every join being a value of Go's `int`), a ride of type `on_demand` has no passenger
record, and a `JoinRide` on it for `seats >= 1` leaves the store as it is and answers
500; when the database answers the start of the transaction and the lookup of the ride,
`AddPassenger` returns `ErrNotEnoughSeats` and the answer reads "Failed to join ride: not
enough seats available". -/
theorem on_demand_ride_refuses_joins (m : IntMode) (calls : List (Env × Call))
    (hrange : ∀ ec ∈ calls, ec.2.seatsInRange m) (ride : Ride)
    (hmem : ride ∈ (runCalls m Store.empty calls).rides)
    (htype : ride.RideType = RideTypeOnDemand) :
    (∀ p ∈ (runCalls m Store.empty calls).passengers, p.RideID ≠ ride.ID) ∧
    ∀ (env : Env) (id : String) (uid : Nat) (req : handlers.JoinRideRequest),
      handlers.ParseUint32 id = some ride.ID → 1 ≤ req.Seats → m.InRange req.Seats →
      (handlers.JoinRide m env (runCalls m Store.empty calls) id (some uid) (some req)).2 =
        runCalls m Store.empty calls ∧
      (handlers.JoinRide m env (runCalls m Store.empty calls) id (some uid)
        (some req)).1.status = handlers.StatusInternalServerError ∧
      (env.fails .begin = false → env.fails .firstRide = false →
        RideRepository.AddPassenger m env (runCalls m Store.empty calls)
          (handlers.newPassenger ride.ID uid req) =
          (some .notEnoughSeats, runCalls m Store.empty calls) ∧
        (handlers.JoinRide m env (runCalls m Store.empty calls) id (some uid) (some req)).1 =
          ⟨handlers.StatusInternalServerError,
            .error "Failed to join ride: not enough seats available"⟩) := by
  have hc := Store.Idle.of_empty.runCalls_idle m calls hrange
  have hne : ride.RideType ≠ RideTypeShared := by rw [htype]; decide
  refine ⟨(hc.idle ride hmem hne).2.2, ?_⟩
  intro env id uid req hid hs hr
  have hv : req.valid = true := by
    simp only [handlers.JoinRideRequest.valid, Bool.and_eq_true, decide_eq_true_eq, bne_iff_ne]
    exact ⟨by omega, hs⟩
  obtain ⟨⟨e, he⟩, hok⟩ := hc.AddPassenger_refused m env
    (handlers.newPassenger ride.ID uid req) ride hmem hne rfl hs hr
  have hjoin : handlers.JoinRide m env (runCalls m Store.empty calls) id (some uid) (some req) =
      (⟨handlers.StatusInternalServerError,
        .error ("Failed to join ride: " ++ handlers.errorText e)⟩,
        runCalls m Store.empty calls) := by
    unfold handlers.JoinRide
    simp only [hid, hv, Bool.not_true, Bool.false_eq_true, if_false, he]
  refine ⟨by rw [hjoin], by rw [hjoin], ?_⟩
  intro h1 h2
  have he2 := hok h1 h2
  refine ⟨he2, ?_⟩
  rw [he2] at he
  have : e = .notEnoughSeats := by
    have := congrArg Prod.fst he
    simpa using this.symm
  rw [hjoin, this]
  rfl

/-- Claim C21, witness:
with 64-bit integers, after an on-demand ride was created and two joins and a leave were
tried on it, the ride has no passenger record and a join for two seats is answered with
"Failed to join ride: not enough seats available". -/
theorem on_demand_ride_refuses_joins_witness :
    (∀ ec ∈ Example.onDemandCalls, ec.2.seatsInRange .int64) ∧
    Example.onDemandRide ∈ (runCalls .int64 Store.empty Example.onDemandCalls).rides ∧
    (runCalls .int64 Store.empty Example.onDemandCalls).passengers = [] ∧
    (handlers.JoinRide .int64 (Example.env 200 5)
      (runCalls .int64 Store.empty Example.onDemandCalls) "1" (some 9) (some ⟨2⟩)).2 =
      runCalls .int64 Store.empty Example.onDemandCalls ∧
    (handlers.JoinRide .int64 (Example.env 200 5)
      (runCalls .int64 Store.empty Example.onDemandCalls) "1" (some 9) (some ⟨2⟩)).1 =
      ⟨500, .error "Failed to join ride: not enough seats available"⟩ :=
  have h := (on_demand_ride_refuses_joins .int64 Example.onDemandCalls (by decide)
    Example.onDemandRide (by decide) rfl).2 (Example.env 200 5) "1" 9 ⟨2⟩ (by decide)
    (by decide) (by decide)
  ⟨by decide, by decide, by decide, h.1, (h.2.2 rfl rfl).2⟩

/-! ### C22: the claims of a token -/

/-- Claim C22 fails on the code for the user ID: on a token whose claims are the ones
`GenerateToken` issues for a user, read back as a claims map, `ExtractUserID` returns the
error "invalid user ID in token" for every user, because it reads the key `id` while the
struct `Claims` writes the ID under `user_id` (where the map holds it);
`ExtractUserRole` returns the role of the user. -/
theorem ExtractUserID_reads_missing_key (user : User) (now1 now2 : Nat) :
    utils.ExtractUserID ⟨.mapClaims (utils.GenerateToken user now1 now2).toMapClaims⟩ =
      .error "invalid user ID in token" ∧
    utils.ExtractUserRole ⟨.mapClaims (utils.GenerateToken user now1 now2).toMapClaims⟩ =
      .ok user.Role ∧
    (utils.GenerateToken user now1 now2).toMapClaims.get "id" = none ∧
    (utils.GenerateToken user now1 now2).toMapClaims.get "user_id" =
      some (.float64 (Float64.ofNat user.ID)) := by
  refine ⟨?_, ?_, ?_, ?_⟩ <;>
    simp [utils.ExtractUserID, utils.ExtractUserRole, utils.GenerateToken,
      utils.Claims.toMapClaims, utils.MapClaims.get, List.lookup]

/-- Claim C22, witness:
for the rider with the key 7, `ExtractUserID` fails on the issued claims and
`ExtractUserRole` returns `rider`. -/
theorem ExtractUserID_reads_missing_key_witness :
    utils.ExtractUserID
      ⟨.mapClaims (utils.GenerateToken Example.rider 1000 1000).toMapClaims⟩ =
      .error "invalid user ID in token" ∧
    utils.ExtractUserRole
      ⟨.mapClaims (utils.GenerateToken Example.rider 1000 1000).toMapClaims⟩ = .ok "rider" :=
  ⟨(ExtractUserID_reads_missing_key Example.rider 1000 1000).1,
    (ExtractUserID_reads_missing_key Example.rider 1000 1000).2.1⟩

end RidesApp
